import Mathlib

/-!
# StandMaster: the transactional domain engine

A shallow embedding of the service and repository layers of the StandMaster
backend (packages user, stand, kermesse, tombola, ticket, interaction).

* The relational store is a record of tables, each table a list of rows;
  a SQL statement is a pure function on the store.
* Integer columns of the store are mathematical integers.  The arithmetic that
  interaction `Service.Create` does on Go `int` values (the product
  `stand.Price * quantity` and the negations `-quantity` and `-totalPrice`)
  wraps at 64 bits: see `int64`.
* A payload `map[string]interface{}` is an association list of values.
* Every service operation returns its result together with the store it
  leaves behind.  Store statements are total here: the branches that only
  fire when the driver reports a failure are written out where a statement
  can reject a bound value, and are otherwise unreachable.
* The failures of the store and the interleaving of two requests are modelled
  apart, for the operations whose properties are about them: `SetWinnerTx`
  and `FinishTx` (the transaction of the draw), `CreateFaulty` (the writes of
  a purchase), `race` (two purchases served at the same time) and `duel` (two
  requests given as processes); a request is suspended only at a call of the
  store.  `Reachable` is the set of stores reached when the calls of the
  service surface run one at a time.
-/

namespace standmaster

/-! ## Payload values -/

/-- A value carried by a loosely typed payload (Go `interface{}`). -/
inductive Val where
  | int (n : Int)
  | str (s : String)
  | null
  deriving DecidableEq, Repr

/-- A payload, Go `map[string]interface{}`; the first binding of a key wins. -/
abbrev Input := List (String × Val)

namespace utils

/-- Go map indexing `input[key]`: the nil value when the key is missing. -/
def Index : Input → String → Val
  | [], _ => Val.null
  | (k, v) :: rest, key => if k = key then v else Index rest key

/-- Go map assignment `input[key] = v`. -/
def Assign (input : Input) (key : String) (v : Val) : Input :=
  (key, v) :: input

/-- Modelled from the spec: `utils.GetIntFromMap` is not among the sources.
It yields the integer stored under the key, a value of Go's `int`, and an
error when the key is missing, does not hold an integer, or holds one that is
not positive (the quantity of a purchase fails with bad-request if missing or
non-positive, and `Service.Create` leaves that test to this helper). -/
def GetIntFromMap (input : Input) (key : String) : Except String Int :=
  match Index input key with
  | Val.int n =>
    if 0 < n ∧ n < 9223372036854775808 then Except.ok n
    else Except.error (key ++ " is not a positive integer")
  | _ => Except.error (key ++ " is missing or is not an integer")

end utils

/-- The value of Go's 64-bit `int` to which the result of an arithmetic
operation wraps (two's complement): the integer of the same residue modulo
2^64 between -2^63 and 2^63 - 1. -/
def int64 (n : Int) : Int :=
  (n + 9223372036854775808) % 18446744073709551616 - 9223372036854775808

/-! ## Errors -/

namespace errors

/-- Modelled from the spec: the keys of package `errors`, which is not among
the sources; these are the keys the services use. -/
inductive ErrorKey where
  | BadRequest
  | Unauthorized
  | Forbidden
  | NotFound
  | InternalServerError
  | EmailAlreadyExists
  | InvalidCredentials
  deriving DecidableEq, Repr

/-- The classified error `errors.CustomError`: a key and the wrapped message. -/
structure CustomError where
  Key : ErrorKey
  Err : String
  deriving DecidableEq, Repr

end errors

open errors

/-- What a service call hands back: nil, a classified error, a bare Go error
returned as is, or a run-time abort of the request (failed type assertion). -/
inductive Result where
  | ok
  | error (e : CustomError)
  | raw
  | aborted
  deriving DecidableEq, Repr

/-- The message of `sql.ErrNoRows`. -/
def sqlErrNoRows : String := "sql: no rows in result set"

/-! ## Models -/

namespace models

def UserRoleOrganizer : String := "ORGANIZER"
def UserRoleStandHolder : String := "STAND_HOLDER"
def UserRoleParent : String := "PARENT"
def UserRoleChild : String := "CHILD"

/-- Modelled from the spec: the status and type constants of package
`models` are not among the sources (only `user.go` is); the stand repository
spells the started kermesse status as the literal STARTED. -/
def KermesseStatusStarted : String := "STARTED"
def KermesseStatusEnded : String := "ENDED"
def TombolaStatusStarted : String := "STARTED"
def TombolaStatusEnded : String := "ENDED"
def InteractionTypeConsumption : String := "CONSUMPTION"
def InteractionTypeActivity : String := "ACTIVITY"
def InteractionStatusStarted : String := "STARTED"
def InteractionStatusEnded : String := "ENDED"

/-- Row of table `users` (`models.User`). -/
structure User where
  Id : Int
  ParentId : Option Int
  Name : Val
  Email : String
  Password : String
  Role : String
  Credit : Int
  deriving DecidableEq, Repr

/-- Row of table `stands`. -/
structure Stand where
  Id : Int
  UserId : Int
  Name : Val
  Description : Val
  Typ : String
  Price : Int
  Stock : Int
  deriving DecidableEq, Repr

/-- Row of table `kermesses`. -/
structure Kermesse where
  Id : Int
  UserId : Int
  Name : Val
  Description : Val
  Status : String
  deriving DecidableEq, Repr

/-- Row of table `tombolas`. -/
structure Tombola where
  Id : Int
  KermesseId : Int
  Name : Val
  Status : String
  Price : Int
  Gift : Val
  deriving DecidableEq, Repr

/-- Row of table `tickets`. -/
structure Ticket where
  Id : Int
  UserId : Int
  TombolaId : Int
  IsWinner : Bool
  deriving DecidableEq, Repr

/-- Row of table `interactions`: the values the service hands to persistence
are kept as bound. -/
structure Interaction where
  Id : Int
  UserId : Val
  KermesseId : Val
  StandId : Val
  Typ : Val
  Credit : Val
  Quantity : Val
  Status : String
  Point : Val
  deriving DecidableEq, Repr

/-- The acting principal threaded through the request context. -/
structure Ctx where
  UserID : Option Int
  UserRole : Option String
  deriving DecidableEq, Repr

end models

open models

/-! ## The store -/

/-- The relational store; `kermessesUsers` and `kermessesStands` hold
(kermesse id, user id) and (kermesse id, stand id) pairs. -/
structure Store where
  users : List User
  stands : List Stand
  kermesses : List Kermesse
  kermessesUsers : List (Int × Int)
  kermessesStands : List (Int × Int)
  tombolas : List Tombola
  tickets : List Ticket
  interactions : List Interaction
  deriving DecidableEq, Repr

/-- The store with no rows. -/
def Store.empty : Store :=
  { users := [], stands := [], kermesses := [], kermessesUsers := [],
    kermessesStands := [], tombolas := [], tickets := [], interactions := [] }

/-- Modelled from the spec: the schema is not among the sources; a row
inserted without an id receives a key larger than every key in its table. -/
def nextId (ids : List Int) : Int :=
  ids.foldr max 0 + 1

/-! ## Package user: repository -/

namespace user.Repository

/-- `SELECT * FROM users WHERE id=$1`; `none` is `sql.ErrNoRows`. -/
def FindById (s : Store) (id : Int) : Option User :=
  s.users.find? (fun u => decide (u.Id = id))

/-- `SELECT * FROM users WHERE email=$1`. -/
def FindByEmail (s : Store) (email : String) : Option User :=
  s.users.find? (fun u => decide (u.Email = email))

/-- The nullable integer column `parent_id`: an integer, or NULL for nil. -/
def parentOf : Val → Option (Option Int)
  | Val.int p => some (some p)
  | Val.null => some none
  | Val.str _ => none

/-- `INSERT INTO users (parent_id, name, email, password, role)`.  The
statement is rejected (`none`) when a bound value does not fit its column.
Modelled from the spec: the schema is not among the sources; the credit
column defaults to zero. -/
def Create (s : Store) (input : Input) : Option Store :=
  match parentOf (utils.Index input "parent_id"), utils.Index input "email",
      utils.Index input "password", utils.Index input "role" with
  | some parentId, Val.str email, Val.str password, Val.str role =>
    some { s with users := s.users ++
      [{ Id := nextId (s.users.map (fun u => u.Id)), ParentId := parentId,
         Name := utils.Index input "name", Email := email, Password := password,
         Role := role, Credit := 0 }] }
  | _, _, _, _ => none

/-- `UPDATE users SET password=$1 WHERE id=$2`. -/
def Update (s : Store) (id : Int) (input : Input) : Option Store :=
  match utils.Index input "new_password" with
  | Val.str p =>
    some { s with users := (s.users.map
      (fun u => if u.Id = id then { u with Password := p } else u)) }
  | _ => none

/-- `UPDATE users SET credit=credit+$1 WHERE id=$2`. -/
def UpdateCredit (s : Store) (id : Int) (amount : Int) : Store :=
  { s with users := (s.users.map
      (fun u => if u.Id = id then { u with Credit := u.Credit + amount } else u)) }

/-- `SELECT COUNT(*) FROM stands WHERE user_id=$1`, at least one. -/
def HasStand (s : Store) (id : Int) : Bool :=
  decide ((s.stands.filter (fun st => decide (st.UserId = id))).length ≥ 1)

end user.Repository

/-! ## Package stand: repository -/

namespace stand.Repository

/-- `SELECT * FROM stands WHERE id=$1`. -/
def FindById (s : Store) (id : Int) : Option Stand :=
  s.stands.find? (fun st => decide (st.Id = id))

/-- `INSERT INTO stands (user_id, name, description, type, price, stock)`. -/
def Create (s : Store) (input : Input) : Option Store :=
  match utils.Index input "user_id", utils.Index input "type",
      utils.Index input "price", utils.Index input "stock" with
  | Val.int userId, Val.str type, Val.int price, Val.int stock =>
    some { s with stands := s.stands ++
      [{ Id := nextId (s.stands.map (fun st => st.Id)), UserId := userId,
         Name := utils.Index input "name",
         Description := utils.Index input "description",
         Typ := type, Price := price, Stock := stock }] }
  | _, _, _, _ => none

/-- The assignment `SET name=$1, description=$2, price=$3, stock=$4`. -/
def assign (st : Stand) (input : Input) (price stock : Int) : Stand :=
  { st with Name := utils.Index input "name",
            Description := utils.Index input "description",
            Price := price, Stock := stock }

/-- `UPDATE stands SET name=$1, description=$2, price=$3, stock=$4 WHERE id=$5`. -/
def Update (s : Store) (id : Int) (input : Input) : Option Store :=
  match utils.Index input "price", utils.Index input "stock" with
  | Val.int price, Val.int stock =>
    some { s with stands := (s.stands.map
      (fun st => if st.Id = id then assign st input price stock else st)) }
  | _, _ => none

/-- `UPDATE stands SET ... WHERE user_id=$5`. -/
def UpdateByUserId (s : Store) (userId : Int) (input : Input) : Option Store :=
  match utils.Index input "price", utils.Index input "stock" with
  | Val.int price, Val.int stock =>
    some { s with stands := (s.stands.map
      (fun st => if st.UserId = userId then assign st input price stock else st)) }
  | _, _ => none

/-- `UPDATE stands SET stock=stock+$1 WHERE id=$2`. -/
def UpdateStock (s : Store) (id : Int) (quantity : Int) : Store :=
  { s with stands := (s.stands.map
      (fun st => if st.Id = id then { st with Stock := st.Stock + quantity } else st)) }

end stand.Repository

/-! ## Package kermesse: repository -/

namespace kermesse.Repository

/-- `SELECT * FROM kermesses WHERE id=$1`. -/
def FindById (s : Store) (id : Int) : Option Kermesse :=
  s.kermesses.find? (fun k => decide (k.Id = id))

/-- `INSERT INTO kermesses (user_id, name, description)`.
Modelled from the spec: the schema is not among the sources; the status
column defaults to STARTED (initial, implicit at creation). -/
def Create (s : Store) (input : Input) : Option Store :=
  match utils.Index input "user_id" with
  | Val.int userId =>
    some { s with kermesses := s.kermesses ++
      [{ Id := nextId (s.kermesses.map (fun k => k.Id)), UserId := userId,
         Name := utils.Index input "name",
         Description := utils.Index input "description",
         Status := KermesseStatusStarted }] }
  | _ => none

/-- `UPDATE kermesses SET name=$1, description=$2 WHERE id=$3`. -/
def Update (s : Store) (id : Int) (input : Input) : Store :=
  { s with kermesses := (s.kermesses.map
      (fun k => if k.Id = id then
        { k with Name := utils.Index input "name",
                 Description := utils.Index input "description" } else k)) }

/-- Negation of `EXISTS (SELECT 1 FROM tombolas WHERE kermesse_id = $1 AND
status = STARTED)`. -/
def CanEnd (s : Store) (id : Int) : Bool :=
  !(s.tombolas.any
      (fun t => decide (t.KermesseId = id) && decide (t.Status = TombolaStatusStarted)))

/-- `UPDATE kermesses SET status=ENDED WHERE id=$2`. -/
def End (s : Store) (id : Int) : Store :=
  { s with kermesses := (s.kermesses.map
      (fun k => if k.Id = id then { k with Status := KermesseStatusEnded } else k)) }

/-- `INSERT INTO kermesses_users (kermesse_id, user_id)`. -/
def AddUser (s : Store) (input : Input) : Option Store :=
  match utils.Index input "kermesse_id", utils.Index input "user_id" with
  | Val.int kermesseId, Val.int userId =>
    some { s with kermessesUsers := s.kermessesUsers ++ [(kermesseId, userId)] }
  | _, _ => none

/-- Negation of `EXISTS (SELECT 1 FROM kermesses_stands ks JOIN kermesses k ON
ks.kermesse_id = k.id WHERE ks.stand_id = $1 AND k.status = STARTED)`. -/
def CanAddStand (s : Store) (standId : Int) : Bool :=
  !(s.kermessesStands.any (fun ks => decide (ks.2 = standId) &&
      s.kermesses.any
        (fun k => decide (k.Id = ks.1) && decide (k.Status = KermesseStatusStarted))))

/-- `INSERT INTO kermesses_stands (kermesse_id, stand_id)`. -/
def AddStand (s : Store) (input : Input) : Option Store :=
  match utils.Index input "kermesse_id", utils.Index input "stand_id" with
  | Val.int kermesseId, Val.int standId =>
    some { s with kermessesStands := s.kermessesStands ++ [(kermesseId, standId)] }
  | _, _ => none

end kermesse.Repository

/-! ## Package tombola: repository -/

namespace tombola.Repository

/-- `SELECT * FROM tombolas WHERE id=$1`. -/
def FindById (s : Store) (id : Int) : Option Tombola :=
  s.tombolas.find? (fun t => decide (t.Id = id))

/-- `INSERT INTO tombolas (kermesse_id, name, price, gift)`.
Modelled from the spec: the schema is not among the sources; the status
column defaults to STARTED. -/
def Create (s : Store) (input : Input) : Option Store :=
  match utils.Index input "kermesse_id", utils.Index input "price" with
  | Val.int kermesseId, Val.int price =>
    some { s with tombolas := s.tombolas ++
      [{ Id := nextId (s.tombolas.map (fun t => t.Id)), KermesseId := kermesseId,
         Name := utils.Index input "name", Status := TombolaStatusStarted,
         Price := price, Gift := utils.Index input "gift" }] }
  | _, _ => none

/-- `UPDATE tombolas SET name=$1, price=$2, gift=$3 WHERE id=$4`. -/
def Update (s : Store) (id : Int) (input : Input) : Option Store :=
  match utils.Index input "price" with
  | Val.int price =>
    some { s with tombolas := (s.tombolas.map
      (fun t => if t.Id = id then
        { t with Name := utils.Index input "name", Price := price,
                 Gift := utils.Index input "gift" } else t)) }
  | _ => none

/-- The row chosen by `SELECT id FROM tickets WHERE tombola_id = $1 ORDER BY
RANDOM() LIMIT 1`; `r` is the draw of the random source. -/
def drawn (s : Store) (id : Int) (r : Nat) : Option Int :=
  let candidates := s.tickets.filter (fun t => decide (t.TombolaId = id))
  (candidates.get? (r % candidates.length)).map (fun t => t.Id)

/-- The transaction of `SetWinner`: the tombola is set to ENDED, then the drawn
ticket of that tombola is flagged; both statements commit together. -/
def SetWinner (s : Store) (id : Int) (r : Nat) : Store :=
  let s1 : Store := { s with tombolas := (s.tombolas.map
      (fun t => if t.Id = id then { t with Status := TombolaStatusEnded } else t)) }
  match drawn s1 id r with
  | none => s1
  | some w =>
    { s1 with tickets := (s1.tickets.map
        (fun t => if t.Id = w ∧ t.TombolaId = id then { t with IsWinner := true } else t)) }

end tombola.Repository

/-! ## Package ticket: repository -/

namespace ticket.Repository

/-- `EXISTS (SELECT 1 FROM kermesses_users ku JOIN kermesses k ON k.id =
ku.kermesse_id WHERE ku.kermesse_id = $1 AND ku.user_id = $2 AND k.status =
STARTED)`. -/
def CanCreate (s : Store) (kermesseId userId : Int) : Bool :=
  s.kermessesUsers.any (fun ku =>
    decide (ku.1 = kermesseId) && decide (ku.2 = userId) &&
    s.kermesses.any
      (fun k => decide (k.Id = ku.1) && decide (k.Status = KermesseStatusStarted)))

/-- `INSERT INTO tickets (user_id, tombola_id)`; `is_winner` defaults to false. -/
def Create (s : Store) (input : Input) : Option Store :=
  match utils.Index input "user_id", utils.Index input "tombola_id" with
  | Val.int userId, Val.int tombolaId =>
    some { s with tickets := s.tickets ++
      [{ Id := nextId (s.tickets.map (fun t => t.Id)), UserId := userId,
         TombolaId := tombolaId, IsWinner := false }] }
  | _, _ => none

end ticket.Repository

/-! ## Package interaction: repository -/

namespace interaction.Repository

/-- Row lookup by id. -/
def FindById (s : Store) (id : Int) : Option Interaction :=
  s.interactions.find? (fun i => decide (i.Id = id))

/-- Modelled from the spec: the interaction repository is not among the
sources.  `CanCreate` answers whether a membership and active-association path
exists between the buyer and the kermesse of the stand: some STARTED kermesse
has the buyer as a member and the stand associated. -/
def CanCreate (s : Store) (userId standId : Int) : Bool :=
  s.kermesses.any (fun k =>
    decide (k.Status = KermesseStatusStarted) &&
    s.kermessesUsers.any (fun ku => decide (ku.1 = k.Id) && decide (ku.2 = userId)) &&
    s.kermessesStands.any (fun ks => decide (ks.1 = k.Id) && decide (ks.2 = standId)))

/-- Modelled from the spec: the interaction repository is not among the
sources.  `Create` persists one interaction row holding the values of the
record it is handed, with the status open. -/
def Create (s : Store) (input : Input) : Store :=
  { s with interactions := s.interactions ++
      [{ Id := nextId (s.interactions.map (fun i => i.Id)),
         UserId := utils.Index input "user_id",
         KermesseId := utils.Index input "kermesse_id",
         StandId := utils.Index input "stand_id",
         Typ := utils.Index input "type",
         Credit := utils.Index input "credit",
         Quantity := utils.Index input "quantity",
         Status := InteractionStatusStarted,
         Point := Val.null }] }

/-- Modelled from the spec: the interaction repository is not among the
sources.  `Update` writes the status and the point of the row. -/
def Update (s : Store) (id : Int) (input : Input) : Store :=
  { s with interactions := (s.interactions.map
      (fun i => if i.Id = id then
        { i with Status := (match utils.Index input "status" with
                   | Val.str st => st
                   | _ => i.Status),
                 Point := utils.Index input "point" } else i)) }

end interaction.Repository

/-! ## Services -/

/-- An operation that returns the classified error and leaves the store. -/
def fail (s : Store) (key : ErrorKey) (msg : String) : Result × Store :=
  (Result.error { Key := key, Err := msg }, s)

/-- The external collaborators of package user: the password hasher, the
password generator and the notification service (`none` and `false` are their
failures). -/
structure Env where
  Hash : String → Option String
  Compare : String → String → Bool
  RandomPassword : Option String
  SendInvitationEmail : String → String → String → Bool

namespace user.Service

/-- `Service.Update`: change of password by the user itself. -/
def Update (env : Env) (s : Store) (ctx : Ctx) (id : Int) (input : Input) : Result × Store :=
  match Repository.FindById s id with
  | none => fail s ErrorKey.NotFound sqlErrNoRows
  | some u =>
  match ctx.UserID with
  | none => fail s ErrorKey.Unauthorized "user id not found in context"
  | some userId =>
  if u.Id ≠ userId then fail s ErrorKey.Forbidden "forbidden" else
  match utils.Index input "password" with
  | Val.str password =>
    if ¬ env.Compare u.Password password = true then
      fail s ErrorKey.BadRequest "invalid password" else
    match utils.Index input "new_password" with
    | Val.str newPassword =>
      match env.Hash newPassword with
      | none => (Result.raw, s)
      | some hashedPassword =>
        match Repository.Update s id (utils.Assign input "new_password" (Val.str hashedPassword)) with
        | none => fail s ErrorKey.InternalServerError "store"
        | some s1 => (Result.ok, s1)
    | _ => (Result.aborted, s)
  | _ => (Result.aborted, s)

/-- `Service.Invite`: a parent creates the account of a child. -/
def Invite (env : Env) (s : Store) (ctx : Ctx) (input : Input) : Result × Store :=
  match utils.Index input "email" with
  | Val.str email =>
    match Repository.FindByEmail s email with
    | some _ => fail s ErrorKey.EmailAlreadyExists "email already exists"
    | none =>
    match env.RandomPassword with
    | none => fail s ErrorKey.InternalServerError "generator"
    | some randomPassword =>
    match env.Hash randomPassword with
    | none => (Result.raw, s)
    | some hashedPassword =>
    match ctx.UserID with
    | none => fail s ErrorKey.Unauthorized "user id not found in context"
    | some userId =>
    match Repository.Create s
        [("name", utils.Index input "name"), ("email", utils.Index input "email"),
         ("password", Val.str hashedPassword), ("role", Val.str UserRoleChild),
         ("parent_id", Val.int userId)] with
    | none => fail s ErrorKey.InternalServerError "store"
    | some s1 =>
    if ¬ env.SendInvitationEmail email email randomPassword = true then
      fail s1 ErrorKey.InternalServerError "resend" else
    (Result.ok, s1)
  | _ => (Result.aborted, s)

/-- `Service.UpdateCredit`: the credit of a parent is topped up. -/
def UpdateCredit (s : Store) (userId credit : Int) : Result × Store :=
  match Repository.FindById s userId with
  | none => fail s ErrorKey.NotFound sqlErrNoRows
  | some u =>
  if u.Role ≠ UserRoleParent then fail s ErrorKey.Forbidden "forbidden" else
  (Result.ok, Repository.UpdateCredit s userId credit)

/-- `Service.Pay`: a parent moves credit to one of its children. -/
def Pay (s : Store) (ctx : Ctx) (input : Input) : Result × Store :=
  match utils.GetIntFromMap input "child_id" with
  | Except.error e => fail s ErrorKey.BadRequest e
  | Except.ok childId =>
  match Repository.FindById s childId with
  | none => fail s ErrorKey.NotFound sqlErrNoRows
  | some child =>
  match ctx.UserID with
  | none => fail s ErrorKey.Unauthorized "user id not found in context"
  | some parentId =>
  match Repository.FindById s parentId with
  | none => fail s ErrorKey.NotFound sqlErrNoRows
  | some parent =>
  if child.ParentId = none ∨ child.ParentId ≠ some parent.Id then
    fail s ErrorKey.Forbidden "forbidden" else
  match utils.GetIntFromMap input "amount" with
  | Except.error e => fail s ErrorKey.BadRequest e
  | Except.ok amount =>
  if parent.Credit < amount then fail s ErrorKey.BadRequest "insufficient credit" else
  let s1 := Repository.UpdateCredit s childId amount
  let s2 := Repository.UpdateCredit s1 parentId (-amount)
  (Result.ok, s2)

/-- `Service.SignUp`: self-registration, refused for the role CHILD. -/
def SignUp (env : Env) (s : Store) (input : Input) : Result × Store :=
  match utils.Index input "email" with
  | Val.str email =>
    match Repository.FindByEmail s email with
    | some _ => fail s ErrorKey.EmailAlreadyExists "email already exists"
    | none =>
    match utils.Index input "password" with
    | Val.str password =>
      match env.Hash password with
      | none => (Result.raw, s)
      | some hashedPassword =>
      let input1 := utils.Assign input "password" (Val.str hashedPassword)
      let input2 := utils.Assign input1 "parent_id" Val.null
      if utils.Index input2 "role" = Val.str UserRoleChild then
        fail s ErrorKey.BadRequest "role cannot be child" else
      match Repository.Create s input2 with
      | none => fail s ErrorKey.InternalServerError "store"
      | some s1 => (Result.ok, s1)
    | _ => (Result.aborted, s)
  | _ => (Result.aborted, s)

end user.Service

namespace stand.Service

/-- `Service.Create`: the principal opens a stand. -/
def Create (s : Store) (ctx : Ctx) (input : Input) : Result × Store :=
  match ctx.UserID with
  | none => fail s ErrorKey.Unauthorized "user id not found in context"
  | some userId =>
  match Repository.Create s (utils.Assign input "user_id" (Val.int userId)) with
  | none => fail s ErrorKey.InternalServerError "store"
  | some s1 => (Result.ok, s1)

/-- `Service.Update`: the holder rewrites a stand chosen by id. -/
def Update (s : Store) (ctx : Ctx) (id : Int) (input : Input) : Result × Store :=
  match Repository.FindById s id with
  | none => fail s ErrorKey.NotFound sqlErrNoRows
  | some st =>
  match ctx.UserID with
  | none => fail s ErrorKey.Unauthorized "user id not found in context"
  | some userId =>
  if st.UserId ≠ userId then
    fail s ErrorKey.Forbidden "user is not the holder of the stand" else
  match Repository.Update s id input with
  | none => fail s ErrorKey.InternalServerError "store"
  | some s1 => (Result.ok, s1)

/-- `Service.UpdateCurrent`: the principal rewrites its own stand. -/
def UpdateCurrent (s : Store) (ctx : Ctx) (input : Input) : Result × Store :=
  match ctx.UserID with
  | none => fail s ErrorKey.Unauthorized "user id not found in context"
  | some userId =>
  match Repository.UpdateByUserId s userId input with
  | none => fail s ErrorKey.InternalServerError "store"
  | some s1 => (Result.ok, s1)

end stand.Service

namespace kermesse.Service

/-- `Service.Create`: the principal opens a kermesse. -/
def Create (s : Store) (ctx : Ctx) (input : Input) : Result × Store :=
  match ctx.UserID with
  | none => fail s ErrorKey.Unauthorized "user id not found in context"
  | some userId =>
  match Repository.Create s (utils.Assign input "user_id" (Val.int userId)) with
  | none => fail s ErrorKey.InternalServerError "store"
  | some s1 => (Result.ok, s1)

/-- `Service.Update`: the organizer renames a kermesse that has not ended. -/
def Update (s : Store) (ctx : Ctx) (id : Int) (input : Input) : Result × Store :=
  match Repository.FindById s id with
  | none => fail s ErrorKey.NotFound sqlErrNoRows
  | some k =>
  if k.Status = KermesseStatusEnded then
    fail s ErrorKey.BadRequest "kermesse is already ended" else
  match ctx.UserID with
  | none => fail s ErrorKey.Unauthorized "user id not found in context"
  | some userId =>
  if k.UserId ≠ userId then fail s ErrorKey.Forbidden "forbidden" else
  (Result.ok, Repository.Update s id input)

/-- `Service.End`: the organizer closes a kermesse with no open tombola. -/
def End (s : Store) (ctx : Ctx) (id : Int) : Result × Store :=
  match Repository.FindById s id with
  | none => fail s ErrorKey.NotFound sqlErrNoRows
  | some k =>
  if k.Status = KermesseStatusEnded then
    fail s ErrorKey.BadRequest "kermesse is already ended" else
  if ¬ Repository.CanEnd s id = true then
    fail s ErrorKey.BadRequest "kermesse can\x27t be ended" else
  match ctx.UserID with
  | none => fail s ErrorKey.Unauthorized "user id not found in context"
  | some userId =>
  if k.UserId ≠ userId then fail s ErrorKey.Forbidden "forbidden" else
  (Result.ok, Repository.End s id)

/-- `Service.AddUser`: the organizer invites a child, and with it the parent
of the child when it has one.  The key `kermesse_id` is read by a type
assertion to `int`; the controller stores the path id under it. -/
def AddUser (s : Store) (ctx : Ctx) (input : Input) : Result × Store :=
  match utils.Index input "kermesse_id" with
  | Val.int kermesseId =>
    match Repository.FindById s kermesseId with
    | none => fail s ErrorKey.NotFound sqlErrNoRows
    | some k =>
    if k.Status = KermesseStatusEnded then
      fail s ErrorKey.BadRequest "kermesse is already ended" else
    match ctx.UserID with
    | none => fail s ErrorKey.Unauthorized "user id not found in context"
    | some organizerId =>
    if k.UserId ≠ organizerId then fail s ErrorKey.Forbidden "forbidden" else
    match utils.GetIntFromMap input "user_id" with
    | Except.error e => fail s ErrorKey.BadRequest e
    | Except.ok childId =>
    match user.Repository.FindById s childId with
    | none => fail s ErrorKey.NotFound sqlErrNoRows
    | some child =>
    if child.Role ≠ UserRoleChild then
      fail s ErrorKey.BadRequest "user is not a child" else
    match Repository.AddUser s input with
    | none => fail s ErrorKey.InternalServerError "store"
    | some s1 =>
    match child.ParentId with
    | none => (Result.ok, s1)
    | some parentId =>
      match Repository.AddUser s1 (utils.Assign input "user_id" (Val.int parentId)) with
      | none => fail s1 ErrorKey.InternalServerError "store"
      | some s2 => (Result.ok, s2)
  | _ => (Result.aborted, s)

/-- `Service.AddStand`: the organizer associates a stand that no started
kermesse holds. -/
def AddStand (s : Store) (ctx : Ctx) (input : Input) : Result × Store :=
  match utils.Index input "kermesse_id" with
  | Val.int kermesseId =>
    match Repository.FindById s kermesseId with
    | none => fail s ErrorKey.NotFound sqlErrNoRows
    | some k =>
    if k.Status = KermesseStatusEnded then
      fail s ErrorKey.BadRequest "kermesse is already ended" else
    match utils.GetIntFromMap input "stand_id" with
    | Except.error e => fail s ErrorKey.BadRequest e
    | Except.ok standId =>
    if ¬ Repository.CanAddStand s standId = true then
      fail s ErrorKey.BadRequest "stand is already associated with kermesse" else
    match ctx.UserID with
    | none => fail s ErrorKey.Unauthorized "user id not found in context"
    | some userId =>
    if k.UserId ≠ userId then fail s ErrorKey.Forbidden "forbidden" else
    match Repository.AddStand s input with
    | none => fail s ErrorKey.InternalServerError "store"
    | some s1 => (Result.ok, s1)
  | _ => (Result.aborted, s)

end kermesse.Service

namespace tombola.Service

/-- `Service.Create`: the organizer opens a tombola in a kermesse that has not
ended. -/
def Create (s : Store) (ctx : Ctx) (input : Input) : Result × Store :=
  match utils.GetIntFromMap input "kermesse_id" with
  | Except.error e => fail s ErrorKey.BadRequest e
  | Except.ok kermesseId =>
  match kermesse.Repository.FindById s kermesseId with
  | none => fail s ErrorKey.NotFound sqlErrNoRows
  | some k =>
  if k.Status = KermesseStatusEnded then
    fail s ErrorKey.BadRequest "kermesse is ended" else
  match ctx.UserID with
  | none => fail s ErrorKey.Unauthorized "user id not found in context"
  | some userId =>
  if k.UserId ≠ userId then fail s ErrorKey.Forbidden "forbidden" else
  match Repository.Create s input with
  | none => fail s ErrorKey.InternalServerError "store"
  | some s1 => (Result.ok, s1)

/-- `Service.Update`: the organizer rewrites name, price and gift. -/
def Update (s : Store) (ctx : Ctx) (id : Int) (input : Input) : Result × Store :=
  match Repository.FindById s id with
  | none => fail s ErrorKey.NotFound sqlErrNoRows
  | some t =>
  match kermesse.Repository.FindById s t.KermesseId with
  | none => fail s ErrorKey.NotFound sqlErrNoRows
  | some k =>
  if k.Status = KermesseStatusEnded then
    fail s ErrorKey.BadRequest "kermesse is ended" else
  match ctx.UserID with
  | none => fail s ErrorKey.Unauthorized "user id not found in context"
  | some userId =>
  if k.UserId ≠ userId then fail s ErrorKey.Forbidden "forbidden" else
  match Repository.Update s id input with
  | none => fail s ErrorKey.InternalServerError "store"
  | some s1 => (Result.ok, s1)

/-- `Service.Finish`: the organizer closes a started tombola and the winner
is drawn; `r` is the draw of the random source. -/
def Finish (s : Store) (ctx : Ctx) (id : Int) (r : Nat) : Result × Store :=
  match Repository.FindById s id with
  | none => fail s ErrorKey.NotFound sqlErrNoRows
  | some t =>
  match kermesse.Repository.FindById s t.KermesseId with
  | none => fail s ErrorKey.NotFound sqlErrNoRows
  | some k =>
  if k.Status = KermesseStatusEnded then
    fail s ErrorKey.BadRequest "kermesse is ended" else
  match ctx.UserID with
  | none => fail s ErrorKey.Unauthorized "user id not found in context"
  | some userId =>
  if k.UserId ≠ userId then fail s ErrorKey.Forbidden "forbidden" else
  if t.Status ≠ TombolaStatusStarted then
    fail s ErrorKey.BadRequest "tombola is not started" else
  (Result.ok, Repository.SetWinner s id r)

end tombola.Service

namespace ticket.Service

/-- `Service.Create`: the principal buys a ticket of a started tombola. -/
def Create (s : Store) (ctx : Ctx) (input : Input) : Result × Store :=
  match utils.GetIntFromMap input "tombola_id" with
  | Except.error e => fail s ErrorKey.BadRequest e
  | Except.ok tombolaId =>
  match tombola.Repository.FindById s tombolaId with
  | none => fail s ErrorKey.NotFound sqlErrNoRows
  | some t =>
  if t.Status ≠ TombolaStatusStarted then
    fail s ErrorKey.BadRequest "tombola is not started or already finished" else
  match ctx.UserID with
  | none => fail s ErrorKey.Unauthorized "user id not found in context"
  | some userId =>
  match user.Repository.FindById s userId with
  | none => fail s ErrorKey.NotFound sqlErrNoRows
  | some u =>
  if u.Credit < t.Price then fail s ErrorKey.BadRequest "not enough credit" else
  if ¬ Repository.CanCreate s t.KermesseId userId = true then
    fail s ErrorKey.Forbidden "forbidden" else
  let s1 := user.Repository.UpdateCredit s userId (-t.Price)
  match Repository.Create s1 (utils.Assign input "user_id" (Val.int userId)) with
  | none => fail s1 ErrorKey.InternalServerError "store"
  | some s2 => (Result.ok, s2)

end ticket.Service

namespace interaction.Service

/-- The quantity of `Service.Create`: one, and for a consumption stand the
integer under the key `quantity`. -/
def quantity (st : Stand) (input : Input) : Except String Int :=
  if st.Typ = InteractionTypeConsumption then utils.GetIntFromMap input "quantity"
  else Except.ok 1

/-- The total price of `Service.Create`: the stand price, and for a
consumption stand the stand price times the quantity, a product of Go `int`
values that wraps at 64 bits. -/
def totalPrice (st : Stand) (quantity : Int) : Int :=
  if st.Typ = InteractionTypeConsumption then int64 (st.Price * quantity) else st.Price

/-- `Service.Create`: the principal buys at a stand.  The negations `-quantity`
and `-totalPrice` are taken on Go `int` values and wrap at 64 bits. -/
def Create (s : Store) (ctx : Ctx) (input : Input) : Result × Store :=
  match utils.GetIntFromMap input "stand_id" with
  | Except.error e => fail s ErrorKey.BadRequest e
  | Except.ok standId =>
  match stand.Repository.FindById s standId with
  | none => fail s ErrorKey.NotFound sqlErrNoRows
  | some st =>
  match ctx.UserID with
  | none => fail s ErrorKey.Unauthorized "user id not found in context"
  | some userId =>
  match user.Repository.FindById s userId with
  | none => fail s ErrorKey.NotFound sqlErrNoRows
  | some u =>
  if ¬ Repository.CanCreate s userId standId = true then
    fail s ErrorKey.Forbidden "forbidden" else
  match quantity st input with
  | Except.error e => fail s ErrorKey.BadRequest e
  | Except.ok q =>
  if st.Typ = InteractionTypeConsumption ∧ st.Stock < q then
    fail s ErrorKey.BadRequest "not enough stock" else
  if u.Credit < totalPrice st q then
    fail s ErrorKey.BadRequest "not enough credit" else
  let s1 := if st.Typ = InteractionTypeConsumption
    then stand.Repository.UpdateStock s standId (int64 (-q)) else s
  let s2 := user.Repository.UpdateCredit s1 userId (int64 (-(totalPrice st q)))
  let s3 := user.Repository.UpdateCredit s2 st.UserId (totalPrice st q)
  let input1 := utils.Assign input "user_id" (Val.int u.Id)
  let input2 := utils.Assign input1 "type" (Val.str st.Typ)
  let input3 := utils.Assign input2 "credit" (Val.int (totalPrice st q))
  (Result.ok, Repository.Create s3 input3)

/-- `Service.Update`: the holder of the stand settles an activity. -/
def Update (s : Store) (ctx : Ctx) (id : Int) (input : Input) : Result × Store :=
  match Repository.FindById s id with
  | none => fail s ErrorKey.NotFound sqlErrNoRows
  | some i =>
  if i.Typ ≠ Val.str InteractionTypeActivity then
    fail s ErrorKey.BadRequest "interaction type is not activity" else
  match (match i.KermesseId with
      | Val.int kermesseId => kermesse.Repository.FindById s kermesseId
      | _ => none) with
  | none => fail s ErrorKey.NotFound sqlErrNoRows
  | some k =>
  if k.Status = KermesseStatusEnded then
    fail s ErrorKey.BadRequest "kermesse is ended" else
  match (match i.StandId with
      | Val.int standId => stand.Repository.FindById s standId
      | _ => none) with
  | none => fail s ErrorKey.NotFound sqlErrNoRows
  | some st =>
  match ctx.UserID with
  | none => fail s ErrorKey.Unauthorized "user id not found in context"
  | some userId =>
  if st.UserId ≠ userId then fail s ErrorKey.Forbidden "forbidden" else
  (Result.ok, Repository.Update s id
    [("status", Val.str InteractionStatusEnded), ("point", utils.Index input "point")])

end interaction.Service

/-! ## The service surface -/

/-- The mutating operations of the service surface with their arguments; the
reading operations (GetAll, Get, GetMe, SignIn, ...) issue no write. -/
inductive Op where
  | userUpdate (env : Env) (ctx : Ctx) (id : Int) (input : Input)
  | userInvite (env : Env) (ctx : Ctx) (input : Input)
  | userUpdateCredit (userId credit : Int)
  | userPay (ctx : Ctx) (input : Input)
  | userSignUp (env : Env) (input : Input)
  | standCreate (ctx : Ctx) (input : Input)
  | standUpdate (ctx : Ctx) (id : Int) (input : Input)
  | standUpdateCurrent (ctx : Ctx) (input : Input)
  | kermesseCreate (ctx : Ctx) (input : Input)
  | kermesseUpdate (ctx : Ctx) (id : Int) (input : Input)
  | kermesseEnd (ctx : Ctx) (id : Int)
  | kermesseAddUser (ctx : Ctx) (input : Input)
  | kermesseAddStand (ctx : Ctx) (input : Input)
  | tombolaCreate (ctx : Ctx) (input : Input)
  | tombolaUpdate (ctx : Ctx) (id : Int) (input : Input)
  | tombolaFinish (ctx : Ctx) (id : Int) (r : Nat)
  | ticketCreate (ctx : Ctx) (input : Input)
  | interactionCreate (ctx : Ctx) (input : Input)
  | interactionUpdate (ctx : Ctx) (id : Int) (input : Input)

/-- One call of the service surface. -/
def step (s : Store) : Op → Result × Store
  | Op.userUpdate env ctx id input => user.Service.Update env s ctx id input
  | Op.userInvite env ctx input => user.Service.Invite env s ctx input
  | Op.userUpdateCredit userId credit => user.Service.UpdateCredit s userId credit
  | Op.userPay ctx input => user.Service.Pay s ctx input
  | Op.userSignUp env input => user.Service.SignUp env s input
  | Op.standCreate ctx input => stand.Service.Create s ctx input
  | Op.standUpdate ctx id input => stand.Service.Update s ctx id input
  | Op.standUpdateCurrent ctx input => stand.Service.UpdateCurrent s ctx input
  | Op.kermesseCreate ctx input => kermesse.Service.Create s ctx input
  | Op.kermesseUpdate ctx id input => kermesse.Service.Update s ctx id input
  | Op.kermesseEnd ctx id => kermesse.Service.End s ctx id
  | Op.kermesseAddUser ctx input => kermesse.Service.AddUser s ctx input
  | Op.kermesseAddStand ctx input => kermesse.Service.AddStand s ctx input
  | Op.tombolaCreate ctx input => tombola.Service.Create s ctx input
  | Op.tombolaUpdate ctx id input => tombola.Service.Update s ctx id input
  | Op.tombolaFinish ctx id r => tombola.Service.Finish s ctx id r
  | Op.ticketCreate ctx input => ticket.Service.Create s ctx input
  | Op.interactionCreate ctx input => interaction.Service.Create s ctx input
  | Op.interactionUpdate ctx id input => interaction.Service.Update s ctx id input

/-- The stores reached from the empty store when the calls of the service
surface run one after the other, each to its end before the next begins. -/
inductive Reachable : Store → Prop where
  | empty : Reachable Store.empty
  | step (s : Store) (op : Op) : Reachable s → Reachable (step s op).2

/-! ## Notions used by the statements -/

/-- The sum of all credits. -/
def totalCredit (s : Store) : Int :=
  (s.users.map (fun u => u.Credit)).sum

/-- The row update of `UpdateStock`. -/
def addStock (id quantity : Int) (st : Stand) : Stand :=
  if st.Id = id then { st with Stock := st.Stock + quantity } else st

/-- The row update of `UpdateCredit`. -/
def addCredit (id amount : Int) (u : User) : User :=
  if u.Id = id then { u with Credit := u.Credit + amount } else u

/-- The store in which a successful interaction Create ends: stock, buyer
debit, holder credit, then the insert of the record. -/
def settled (s : Store) (input : Input) (standId : Int) (st : Stand) (u : User)
    (userId q : Int) : Store :=
  interaction.Repository.Create
    (user.Repository.UpdateCredit
      (user.Repository.UpdateCredit
        (if st.Typ = InteractionTypeConsumption
          then stand.Repository.UpdateStock s standId (int64 (-q)) else s)
        userId (int64 (-(interaction.Service.totalPrice st q))))
      st.UserId (interaction.Service.totalPrice st q))
    (utils.Assign (utils.Assign (utils.Assign input "user_id" (Val.int u.Id))
      "type" (Val.str st.Typ)) "credit" (Val.int (interaction.Service.totalPrice st q)))

/-- How one call may change the tables of kermesses and tombolas: not at
all, or by exactly one of the six statements that write them. -/
def Lifecycle (s s' : Store) : Prop :=
  (s'.kermesses = s.kermesses ∧ s'.tombolas = s.tombolas) ∨
  (s'.tombolas = s.tombolas ∧ ∃ row : Kermesse, row.Status = KermesseStatusStarted ∧
    s'.kermesses = s.kermesses ++ [row]) ∨
  (s'.tombolas = s.tombolas ∧ ∃ id input,
    s'.kermesses = (kermesse.Repository.Update s id input).kermesses) ∨
  (s'.tombolas = s.tombolas ∧ ∃ id, kermesse.Repository.CanEnd s id = true ∧
    s'.kermesses = (kermesse.Repository.End s id).kermesses) ∨
  (s'.kermesses = s.kermesses ∧ ∃ (row : Tombola) (k : Kermesse),
    kermesse.Repository.FindById s row.KermesseId = some k ∧
    k.Status ≠ KermesseStatusEnded ∧ s'.tombolas = s.tombolas ++ [row]) ∨
  (s'.kermesses = s.kermesses ∧ ∃ id price input, s'.tombolas = s.tombolas.map
    (fun t => if t.Id = id then
      { t with Name := utils.Index input "name", Price := price,
               Gift := utils.Index input "gift" } else t)) ∨
  (s'.kermesses = s.kermesses ∧ ∃ id, s'.tombolas = s.tombolas.map
    (fun t => if t.Id = id then { t with Status := TombolaStatusEnded } else t))

/-- No ended kermesse has a started tombola. -/
def Closed (s : Store) : Prop :=
  ∀ t ∈ s.tombolas, ∀ k, kermesse.Repository.FindById s t.KermesseId = some k →
    k.Status = KermesseStatusEnded → t.Status ≠ TombolaStatusStarted

/-- The store after a sequence of calls. -/
def run (s : Store) : List Op → Store
  | [] => s
  | op :: ops => run (step s op).2 ops

/-! ## A concrete fair -/

/-- The child of the fair, with the given credit. -/
def child (credit : Int) : User :=
  { Id := 1, ParentId := some 4, Name := Val.str "child", Email := "c@x",
    Password := "h1", Role := UserRoleChild, Credit := credit }

/-- The stand holder of the fair, with the given credit. -/
def holder (credit : Int) : User :=
  { Id := 2, ParentId := none, Name := Val.str "holder", Email := "h@x",
    Password := "h2", Role := UserRoleStandHolder, Credit := credit }

/-- The organizer of the fair. -/
def organizer : User :=
  { Id := 3, ParentId := none, Name := Val.str "organizer", Email := "o@x",
    Password := "h3", Role := UserRoleOrganizer, Credit := 0 }

/-- The parent of the child, with the given credit. -/
def parent (credit : Int) : User :=
  { Id := 4, ParentId := none, Name := Val.str "parent", Email := "p@x",
    Password := "h4", Role := UserRoleParent, Credit := credit }

/-- The stand of the fair: price 10, of the given type and stock. -/
def cakes (typ : String) (stock : Int) : Stand :=
  { Id := 1, UserId := 2, Name := Val.str "cakes", Description := Val.null,
    Typ := typ, Price := 10, Stock := stock }

/-- A fair with a child (id 1) of a parent (id 4), a stand holder (id 2) and
an organizer (id 3); one stand of the holder, associated with the one started
kermesse, of which the child is a member. -/
def fairOf (typ : String) (stock credit held : Int) (records : List Interaction) : Store :=
  { users := [child credit, holder held, organizer, parent 0],
    stands := [cakes typ stock],
    kermesses :=
      [{ Id := 1, UserId := 3, Name := Val.str "fair", Description := Val.null,
         Status := KermesseStatusStarted }],
    kermessesUsers := [(1, 1)],
    kermessesStands := [(1, 1)],
    tombolas := [],
    tickets := [],
    interactions := records }

/-- The scenario of the specification: stock 3, price 10, buyer credit 25. -/
def fair : Store :=
  fairOf InteractionTypeConsumption 3 25 0 []

/-- The request context of the user with the given id and role. -/
def asUser (id : Int) (role : String) : Ctx :=
  { UserID := some id, UserRole := some role }

/-- The payload of a purchase of `q` units at stand 1. -/
def buy (q : Int) : Input :=
  [("stand_id", Val.int 1), ("kermesse_id", Val.int 1), ("quantity", Val.int q)]

/-- The interaction row recorded for a consumption of the child at stand 1. -/
def recorded (typ : String) (amount : Int) (q : Val) : Interaction :=
  { Id := 1, UserId := Val.int 1, KermesseId := Val.int 1, StandId := Val.int 1,
    Typ := Val.str typ, Credit := Val.int amount,
    Quantity := q, Status := InteractionStatusStarted, Point := Val.null }

/-- A consumption stand of the holder priced 2^32 with 2^31 units in stock. -/
def bulk : Stand :=
  { Id := 1, UserId := 2, Name := Val.str "bulk", Description := Val.null,
    Typ := InteractionTypeConsumption, Price := 4294967296, Stock := 2147483648 }

/-- The fair with the stand `bulk` in place of the cakes: the child holds the
given credit and the holder nothing. -/
def bulkFair (credit : Int) : Store :=
  { fairOf InteractionTypeConsumption 0 credit 0 [] with stands := [bulk] }

/-- The store `bulkFair` once the 2^31 units are sold to the child: the stock
is empty, the child and the holder are both 2^63 poorer, and the record
carries the amount -2^63. -/
def bulkSold (credit : Int) : Store :=
  { fairOf InteractionTypeConsumption 0 (credit - 9223372036854775808)
      (-9223372036854775808)
      [recorded InteractionTypeConsumption (-9223372036854775808) (Val.int 2147483648)]
    with stands := [{ bulk with Stock := 0 }] }

/-- The organizer opens a kermesse and a tombola in it. -/
def openOps : List Op :=
  [Op.kermesseCreate (asUser 3 UserRoleOrganizer) [("name", Val.str "fair")],
   Op.tombolaCreate (asUser 3 UserRoleOrganizer)
     [("kermesse_id", Val.int 1), ("name", Val.str "raffle"), ("price", Val.int 2),
      ("gift", Val.str "bike")]]

/-- A kermesse with one started tombola. -/
def openFest : Store :=
  run Store.empty openOps

/-- A kermesse ended after its only tombola was finished. -/
def closedFest : Store :=
  run openFest
    [Op.tombolaFinish (asUser 3 UserRoleOrganizer) 1 0,
     Op.kermesseEnd (asUser 3 UserRoleOrganizer) 1]

/-- The kermesse of the fest, with the given status. -/
def fest (status : String) : Kermesse :=
  { Id := 1, UserId := 3, Name := Val.str "fair", Description := Val.null, Status := status }

/-- The tombola of the fest, with the given status. -/
def raffle (status : String) : Tombola :=
  { Id := 1, KermesseId := 1, Name := Val.str "raffle", Status := status, Price := 2,
    Gift := Val.str "bike" }

/-! ## A season of the fest -/

/-- Collaborators that never fail: the hasher keeps the password, the
generator yields a fixed password and the mail is delivered. -/
def plainEnv : Env :=
  { Hash := fun p => some p,
    Compare := fun h p => decide (h = p),
    RandomPassword := some "secret",
    SendInvitationEmail := fun _ _ _ => true }

/-- A parent signs up, invites its child, is topped up with 10 and pays 5 to
the child; an organizer opens a kermesse, adds the child (and so the parent)
and opens a tombola of price 2; the child buys one ticket. -/
def season : List Op :=
  [Op.userSignUp plainEnv
     [("name", Val.str "parent"), ("email", Val.str "p@x"), ("password", Val.str "pw"),
      ("role", Val.str UserRoleParent)],
   Op.userInvite plainEnv (asUser 1 UserRoleParent)
     [("name", Val.str "child"), ("email", Val.str "c@x")],
   Op.userUpdateCredit 1 10,
   Op.userPay (asUser 1 UserRoleParent) [("child_id", Val.int 2), ("amount", Val.int 5)],
   Op.kermesseCreate (asUser 3 UserRoleOrganizer) [("name", Val.str "fair")],
   Op.kermesseAddUser (asUser 3 UserRoleOrganizer)
     [("kermesse_id", Val.int 1), ("user_id", Val.int 2)],
   Op.tombolaCreate (asUser 3 UserRoleOrganizer)
     [("kermesse_id", Val.int 1), ("name", Val.str "raffle"), ("price", Val.int 2),
      ("gift", Val.str "bike")],
   Op.ticketCreate (asUser 2 UserRoleChild) [("tombola_id", Val.int 1)]]

/-- The parent of the season, with the given credit. -/
def mum (credit : Int) : User :=
  { Id := 1, ParentId := none, Name := Val.str "parent", Email := "p@x",
    Password := "pw", Role := UserRoleParent, Credit := credit }

/-- The child of the season, with the given credit. -/
def kid (credit : Int) : User :=
  { Id := 2, ParentId := some 1, Name := Val.str "child", Email := "c@x",
    Password := "secret", Role := UserRoleChild, Credit := credit }

/-- The store of the season: the given credits of parent and child, the
memberships, the status of the tombola and the tickets. -/
def seasonOf (mumCredit kidCredit : Int) (members : List (Int × Int)) (raffles : List Tombola)
    (tickets : List Ticket) : Store :=
  { users := [mum mumCredit, kid kidCredit],
    stands := [],
    kermesses := [fest KermesseStatusStarted],
    kermessesUsers := members,
    kermessesStands := [],
    tombolas := raffles,
    tickets := tickets,
    interactions := [] }

/-- The ticket of the child for the tombola of the season. -/
def stub (winner : Bool) : Ticket :=
  { Id := 1, UserId := 2, TombolaId := 1, IsWinner := winner }

/-- The season after the ticket is bought. -/
def soldOne : Store :=
  seasonOf 5 3 [(1, 2), (1, 1)] [raffle TombolaStatusStarted] [stub false]

/-- The season after the draw. -/
def drawnOne : Store :=
  seasonOf 5 3 [(1, 2), (1, 1)] [raffle TombolaStatusEnded] [stub true]

/-! ## Notions of the draw -/

/-- The row update of the second statement of `SetWinner`. -/
def flag (w id : Int) (t : Ticket) : Ticket :=
  if t.Id = w ∧ t.TombolaId = id then { t with IsWinner := true } else t

/-- The winning tickets of a tombola. -/
def winners (s : Store) (id : Int) : List Ticket :=
  s.tickets.filter (fun t => decide (t.TombolaId = id) && t.IsWinner)

/-- The tickets of a tombola. -/
def ticketsOf (s : Store) (id : Int) : List Ticket :=
  s.tickets.filter (fun t => decide (t.TombolaId = id))

/-! ## Notions of the settlement of an activity -/

/-- The row update of a settlement: status ended and the point recorded. -/
def settle (id : Int) (point : Val) (i : Interaction) : Interaction :=
  if i.Id = id then { i with Status := InteractionStatusEnded, Point := point } else i

/-- An activity of the child at stand 1 of the fair, with the given status
and point. -/
def scored (status : String) (point : Val) : Interaction :=
  { Id := 1, UserId := Val.int 1, KermesseId := Val.int 1, StandId := Val.int 1,
    Typ := Val.str InteractionTypeActivity, Credit := Val.int 10,
    Quantity := Val.null, Status := status, Point := point }

/-- The fair with an activity stand and the one activity recorded. -/
def gameFair (status : String) (point : Val) : Store :=
  fairOf InteractionTypeActivity 3 15 10 [scored status point]

/-! ## Two stands of one holder -/

/-- The payload of a stand. -/
def stall (name : String) : Input :=
  [("name", Val.str name), ("type", Val.str InteractionTypeConsumption),
   ("price", Val.int 1), ("stock", Val.int 1)]

/-- The user 2 opens a stand, then another one. -/
def twoStands : List Op :=
  [Op.standCreate (asUser 2 UserRoleStandHolder) (stall "first"),
   Op.standCreate (asUser 2 UserRoleStandHolder) (stall "second")]

/-- The stand opened by user 2 under the given id and name. -/
def stallRow (id : Int) (name : String) : Stand :=
  { Id := id, UserId := 2, Name := Val.str name, Description := Val.null,
    Typ := InteractionTypeConsumption, Price := 1, Stock := 1 }

/-! ## Notions of the invariants of the draw and of the associations -/

/-- How one call may change the tables of tombolas and tickets: not at all,
or by the insert of a tombola, the rewrite of a tombola, the draw of a started
tombola, or the insert of a ticket of a started tombola. -/
def Draw (s s' : Store) : Prop :=
  (s'.tombolas = s.tombolas ∧ s'.tickets = s.tickets) ∨
  (s'.tickets = s.tickets ∧ ∃ row : Tombola,
    row.Id = nextId (s.tombolas.map (fun t => t.Id)) ∧
    s'.tombolas = s.tombolas ++ [row]) ∨
  (s'.tickets = s.tickets ∧ ∃ id price input, s'.tombolas = s.tombolas.map
    (fun t => if t.Id = id then
      { t with Name := utils.Index input "name", Price := price,
               Gift := utils.Index input "gift" } else t)) ∨
  (∃ id r t, tombola.Repository.FindById s id = some t ∧ t.Status = TombolaStatusStarted ∧
    s' = tombola.Repository.SetWinner s id r) ∨
  (s'.tombolas = s.tombolas ∧ ∃ tombolaId t userId,
    tombola.Repository.FindById s tombolaId = some t ∧ t.Status = TombolaStatusStarted ∧
    s'.tickets = s.tickets ++
      [{ Id := nextId (s.tickets.map (fun t => t.Id)), UserId := userId,
         TombolaId := tombolaId, IsWinner := false }])

/-- The invariant of the draw: ticket ids are keys, every ticket is of a
tombola of the store, a started tombola has no winning ticket, and no tombola
has two winning tickets. -/
def Raffled (s : Store) : Prop :=
  (s.tickets.map (fun t => t.Id)).Nodup ∧
  (∀ tk ∈ s.tickets, tk.TombolaId ∈ s.tombolas.map (fun t => t.Id)) ∧
  (∀ t ∈ s.tombolas, t.Status = TombolaStatusStarted → winners s t.Id = []) ∧
  (∀ id, (winners s id).length ≤ 1)

/-- Whether some kermesse row of that id has status STARTED. -/
def active (s : Store) (kermesseId : Int) : Bool :=
  s.kermesses.any
    (fun k => decide (k.Id = kermesseId) && decide (k.Status = KermesseStatusStarted))

/-- The associations of a stand with started kermesses. -/
def activeLinks (s : Store) (standId : Int) : List (Int × Int) :=
  s.kermessesStands.filter (fun ks => decide (ks.2 = standId) && active s ks.1)

/-- How one call may change the tables of kermesses and of stand
associations: not at all, or by the insert, the rewrite or the end of a
kermesse, or by the association of a stand that no started kermesse holds
with an existing kermesse. -/
def Links (s s' : Store) : Prop :=
  (s'.kermesses = s.kermesses ∧ s'.kermessesStands = s.kermessesStands) ∨
  (s'.kermessesStands = s.kermessesStands ∧ ∃ row : Kermesse,
    row.Id = nextId (s.kermesses.map (fun k => k.Id)) ∧
    s'.kermesses = s.kermesses ++ [row]) ∨
  (s'.kermessesStands = s.kermessesStands ∧ ∃ id input,
    s'.kermesses = (kermesse.Repository.Update s id input).kermesses) ∨
  (s'.kermessesStands = s.kermessesStands ∧ ∃ id,
    s'.kermesses = (kermesse.Repository.End s id).kermesses) ∨
  (s'.kermesses = s.kermesses ∧ ∃ kermesseId k standId,
    kermesse.Repository.FindById s kermesseId = some k ∧
    kermesse.Repository.CanAddStand s standId = true ∧
    s'.kermessesStands = s.kermessesStands ++ [(kermesseId, standId)])

/-- The invariant of the associations: every association is with a kermesse
of the store, and no stand has two associations with started kermesses. -/
def Exclusive (s : Store) : Prop :=
  (∀ ks ∈ s.kermessesStands, ks.1 ∈ s.kermesses.map (fun k => k.Id)) ∧
  (∀ standId, (activeLinks s standId).length ≤ 1)

/-- The organizer opens a kermesse, associates stand 1 with it, ends it and
opens a second kermesse. -/
def twoFests : List Op :=
  [Op.kermesseCreate (asUser 3 UserRoleOrganizer) [("name", Val.str "fair")],
   Op.kermesseAddStand (asUser 3 UserRoleOrganizer)
     [("kermesse_id", Val.int 1), ("stand_id", Val.int 1)],
   Op.kermesseEnd (asUser 3 UserRoleOrganizer) 1,
   Op.kermesseCreate (asUser 3 UserRoleOrganizer) [("name", Val.str "fair")]]

/-- The second kermesse of the organizer. -/
def fest2 : Kermesse :=
  { Id := 2, UserId := 3, Name := Val.str "fair", Description := Val.null,
    Status := KermesseStatusStarted }

/-! ## Notions of ownership, accounts and payloads -/

/-- The key of a refusal: Forbidden, or BadRequest when an earlier business
rule refuses the call first. -/
def refused (e : CustomError) : Prop :=
  e.Key = ErrorKey.Forbidden ∨ e.Key = ErrorKey.BadRequest

/-- The invariant of the parent references: a user has a parent reference only
if its role is CHILD. -/
def Parented (s : Store) : Prop :=
  ∀ u ∈ s.users, u.ParentId ≠ none → u.Role = UserRoleChild

/-- The account that `Service.Invite` inserts for the principal `p`: role
CHILD, parent reference `p`, the hashed generated password. -/
def invited (s : Store) (input : Input) (email hashed : String) (p : Int) : User :=
  { Id := nextId (s.users.map (fun u => u.Id)), ParentId := some p,
    Name := utils.Index input "name", Email := email, Password := hashed,
    Role := UserRoleChild, Credit := 0 }

namespace user.Service

/-- The calls of `SendInvitationEmail` made by `Service.Invite`, as (to, name,
password): one call, made once the account of the child is inserted. -/
def InviteMails (env : Env) (s : Store) (ctx : Ctx) (input : Input) :
    List (String × String × String) :=
  match utils.Index input "email" with
  | Val.str email =>
    match Repository.FindByEmail s email with
    | some _ => []
    | none =>
    match env.RandomPassword with
    | none => []
    | some randomPassword =>
    match env.Hash randomPassword with
    | none => []
    | some hashedPassword =>
    match ctx.UserID with
    | none => []
    | some userId =>
    match Repository.Create s
        [("name", utils.Index input "name"), ("email", utils.Index input "email"),
         ("password", Val.str hashedPassword), ("role", Val.str UserRoleChild),
         ("parent_id", Val.int userId)] with
    | none => []
    | some _ => [(email, email, randomPassword)]
  | _ => []

end user.Service

/-- A notification service that is down: every mail fails. -/
def deafEnv : Env :=
  { plainEnv with SendInvitationEmail := fun _ _ _ => false }

/-- The store after the parent of the season has signed up. -/
def signedUp : Store :=
  run Store.empty (season.take 1)

/-- Two payloads that differ at most in their entry `user_id`. -/
def sameButUser (input input' : Input) : Prop :=
  ∀ key, key ≠ "user_id" → utils.Index input key = utils.Index input' key

/-- A purchase of `q` units at stand 1 whose payload names the user `who` as
its `user_id`. -/
def forged (q who : Int) : Input :=
  ("user_id", Val.int who) :: buy q

/-! ## The users that can be invited -/

namespace models

/-- The columns of a user shown to other users (`models.UserBasic`). -/
structure UserBasic where
  Id : Int
  Name : Val
  Email : String
  Role : String
  Credit : Int
  deriving DecidableEq, Repr

end models

namespace kermesse.Repository

/-- The rows of `users u LEFT JOIN kermesses_users ku ON u.id = ku.user_id`:
each user with each of its membership rows, and once with NULL columns
(`none`) when it has no membership row. -/
def usersLeftJoin (s : Store) : List (User × Option (Int × Int)) :=
  s.users.flatMap (fun u =>
    match s.kermessesUsers.filter (fun ku => decide (ku.2 = u.Id)) with
    | [] => [(u, none)]
    | rows => rows.map (fun ku => (u, some ku)))

/-- The condition `WHERE u.id IS NOT NULL AND role='CHILD' AND ku.kermesse_id IS
NULL OR ku.kermesse_id != $1` on a joined row: AND binds tighter than OR, and a
comparison with NULL is not true. -/
def invitable (id : Int) (row : User × Option (Int × Int)) : Bool :=
  (decide (row.1.Role = "CHILD") && row.2.isNone) ||
  (match row.2 with
   | some ku => decide (ku.1 ≠ id)
   | none => false)

/-- `FindUsersInvite`: `SELECT DISTINCT` of the basic columns of the joined rows
that pass the condition. -/
def FindUsersInvite (s : Store) (id : Int) : List UserBasic :=
  (((usersLeftJoin s).filter (invitable id)).map
    (fun row => ({ Id := row.1.Id, Name := row.1.Name, Email := row.1.Email,
                   Role := row.1.Role, Credit := row.1.Credit } : UserBasic))).dedup

end kermesse.Repository

namespace kermesse.Service

/-- `Service.GetUsersInvite`: the users found by the repository. -/
def GetUsersInvite (s : Store) (id : Int) : Except CustomError (List UserBasic) :=
  Except.ok (Repository.FindUsersInvite s id)

end kermesse.Service

/-- The season, after which the organizer opens a second kermesse and adds the
child (and so the parent) to it as well. -/
def twoSeasons : List Op :=
  season ++
  [Op.kermesseCreate (asUser 3 UserRoleOrganizer) [("name", Val.str "fair")],
   Op.kermesseAddUser (asUser 3 UserRoleOrganizer)
     [("kermesse_id", Val.int 2), ("user_id", Val.int 2)]]

/-- The basic columns of a user. -/
def basic (u : User) : UserBasic :=
  { Id := u.Id, Name := u.Name, Email := u.Email, Role := u.Role, Credit := u.Credit }

/-! ## Failures of the store in the draw -/

/-- The failures the store may report to `SetWinner`: of `Beginx`, of the
statement that writes the status, of the statement that flags the winner and
of `Commit`. -/
structure TxFaults where
  Beginx : Bool
  SetStatus : Bool
  SetIsWinner : Bool
  Commit : Bool
  deriving DecidableEq, Repr

/-- The store answers every call. -/
def noFaults : TxFaults :=
  { Beginx := false, SetStatus := false, SetIsWinner := false, Commit := false }

/-- The store reports the failure of `Commit` only. -/
def commitFails : TxFaults :=
  { noFaults with Commit := true }

/-- The store reports the failure of the statement that flags the winner. -/
def flagFails : TxFaults :=
  { noFaults with SetIsWinner := true }

namespace tombola.Repository

/-- The statements of `SetWinner` inside the open transaction: the value of
`err` at the return statement and the state the transaction has written.  A
failed statement writes nothing and is followed by `return err`. -/
def SetWinnerBody (f : TxFaults) (s : Store) (id : Int) (r : Nat) : Option String × Store :=
  if f.SetStatus = true then (some "exec", s) else
  let s1 : Store := { s with tombolas := (s.tombolas.map
      (fun t => if t.Id = id then { t with Status := TombolaStatusEnded } else t)) }
  if f.SetIsWinner = true then (some "exec", s1) else
  (none,
    match drawn s1 id r with
    | none => s1
    | some w =>
      { s1 with tickets := (s1.tickets.map
          (fun t => if t.Id = w ∧ t.TombolaId = id then { t with IsWinner := true } else t)) })

/-- `SetWinner` with the failures of the store: the error it returns and the
store it leaves.  The result of the function is unnamed, so a return statement
copies `err` into it before the deferred function runs: when `err` is nil the
deferred function assigns `err = tx.Commit()`, and that assignment does not
reach the caller.  A transaction that is rolled back, or whose commit fails,
leaves the store as it was. -/
def SetWinnerTx (f : TxFaults) (s : Store) (id : Int) (r : Nat) : Option String × Store :=
  if f.Beginx = true then (some "begin", s) else
  match SetWinnerBody f s id r with
  | (some err, _) => (some err, s)
  | (none, tx) => if f.Commit = true then (none, s) else (none, tx)

end tombola.Repository

namespace tombola.Service

/-- `Service.Finish` with the failures of the store in `SetWinner`: an error of
`SetWinner` is returned as InternalServerError. -/
def FinishTx (f : TxFaults) (s : Store) (ctx : Ctx) (id : Int) (r : Nat) : Result × Store :=
  match Repository.FindById s id with
  | none => fail s ErrorKey.NotFound sqlErrNoRows
  | some t =>
  match kermesse.Repository.FindById s t.KermesseId with
  | none => fail s ErrorKey.NotFound sqlErrNoRows
  | some k =>
  if k.Status = KermesseStatusEnded then
    fail s ErrorKey.BadRequest "kermesse is ended" else
  match ctx.UserID with
  | none => fail s ErrorKey.Unauthorized "user id not found in context"
  | some userId =>
  if k.UserId ≠ userId then fail s ErrorKey.Forbidden "forbidden" else
  if t.Status ≠ TombolaStatusStarted then
    fail s ErrorKey.BadRequest "tombola is not started" else
  match Repository.SetWinnerTx f s id r with
  | (some err, s1) => (Result.error { Key := ErrorKey.InternalServerError, Err := err }, s1)
  | (none, s1) => (Result.ok, s1)

end tombola.Service

/-- The two outcomes of a draw on the tombola `t` of id `id`: the store is as
it was; or the whole draw is applied, that is the tombola is ENDED, it has no
winning ticket when it has no ticket and otherwise exactly one of its tickets
is the winning one, and the tickets of the other tombolas are as they were. -/
def Indivisible (s : Store) (id : Int) (r : Nat) (t : Tombola) (s' : Store) : Prop :=
  s' = s ∨
  (s' = tombola.Repository.SetWinner s id r ∧
    tombola.Repository.FindById s' id = some { t with Status := TombolaStatusEnded } ∧
    (ticketsOf s id = [] → winners s' id = []) ∧
    (ticketsOf s id ≠ [] →
      ∃ c ∈ ticketsOf s id, winners s' id = [{ c with IsWinner := true }]) ∧
    (∀ id', id' ≠ id → ticketsOf s' id' = ticketsOf s id'))

/-! ## Failures of the store in a purchase -/

/-- The failures the store may report to the four writes of interaction
`Service.Create`: the stock update, the debit of the buyer, the credit of the
holder and the insert of the interaction. -/
structure WriteFaults where
  UpdateStock : Bool
  Debit : Bool
  Credit : Bool
  Create : Bool
  deriving DecidableEq, Repr

namespace interaction.Service

/-- `Service.Create` with the failures of the store in its writes.  The writes
are independent statements, each kept by the store once it is executed; a
failed statement writes nothing and ends the call with InternalServerError. -/
def CreateFaulty (f : WriteFaults) (s : Store) (ctx : Ctx) (input : Input) : Result × Store :=
  match utils.GetIntFromMap input "stand_id" with
  | Except.error e => fail s ErrorKey.BadRequest e
  | Except.ok standId =>
  match stand.Repository.FindById s standId with
  | none => fail s ErrorKey.NotFound sqlErrNoRows
  | some st =>
  match ctx.UserID with
  | none => fail s ErrorKey.Unauthorized "user id not found in context"
  | some userId =>
  match user.Repository.FindById s userId with
  | none => fail s ErrorKey.NotFound sqlErrNoRows
  | some u =>
  if ¬ Repository.CanCreate s userId standId = true then
    fail s ErrorKey.Forbidden "forbidden" else
  match quantity st input with
  | Except.error e => fail s ErrorKey.BadRequest e
  | Except.ok q =>
  if st.Typ = InteractionTypeConsumption ∧ st.Stock < q then
    fail s ErrorKey.BadRequest "not enough stock" else
  if u.Credit < totalPrice st q then
    fail s ErrorKey.BadRequest "not enough credit" else
  if st.Typ = InteractionTypeConsumption ∧ f.UpdateStock = true then
    fail s ErrorKey.InternalServerError "store" else
  let s1 := if st.Typ = InteractionTypeConsumption
    then stand.Repository.UpdateStock s standId (int64 (-q)) else s
  if f.Debit = true then fail s1 ErrorKey.InternalServerError "store" else
  let s2 := user.Repository.UpdateCredit s1 userId (int64 (-(totalPrice st q)))
  if f.Credit = true then fail s2 ErrorKey.InternalServerError "store" else
  let s3 := user.Repository.UpdateCredit s2 st.UserId (totalPrice st q)
  let input1 := utils.Assign input "user_id" (Val.int u.Id)
  let input2 := utils.Assign input1 "type" (Val.str st.Typ)
  let input3 := utils.Assign input2 "credit" (Val.int (totalPrice st q))
  if f.Create = true then fail s3 ErrorKey.InternalServerError "store" else
  (Result.ok, Repository.Create s3 input3)

end interaction.Service

/-- The store after the stock update of a purchase. -/
def stocked (s : Store) (standId : Int) (st : Stand) (q : Int) : Store :=
  if st.Typ = InteractionTypeConsumption
    then stand.Repository.UpdateStock s standId (int64 (-q)) else s

/-- The store after the stock update and the debit of the buyer. -/
def debited (s : Store) (standId : Int) (st : Stand) (userId q : Int) : Store :=
  user.Repository.UpdateCredit (stocked s standId st q) userId
    (int64 (-(interaction.Service.totalPrice st q)))

/-- The store after the stock update, the debit of the buyer and the credit of
the holder. -/
def credited (s : Store) (standId : Int) (st : Stand) (userId q : Int) : Store :=
  user.Repository.UpdateCredit (debited s standId st userId q) st.UserId
    (interaction.Service.totalPrice st q)

/-- The result of a call that a failed store statement ends. -/
def storeError : Result :=
  Result.error { Key := ErrorKey.InternalServerError, Err := "store" }

/-- The store answers every write. -/
def noWriteFaults : WriteFaults :=
  { UpdateStock := false, Debit := false, Credit := false, Create := false }

/-- The store reports the failure of the debit of the buyer only. -/
def debitFails : WriteFaults :=
  { noWriteFaults with Debit := true }

/-! ## Two purchases at the same time -/

/-- Where a request of interaction `Service.Create` stands between two calls
of the store, with the values it has read so far. -/
inductive Pc where
  | start
  | hasStand (standId : Int) (st : Stand)
  | hasUser (standId : Int) (st : Stand) (userId : Int) (u : User)
  | checked (standId : Int) (st : Stand) (userId : Int) (u : User) (q : Int)
  | stocked (standId : Int) (st : Stand) (userId : Int) (u : User) (q : Int)
  | debited (standId : Int) (st : Stand) (userId : Int) (u : User) (q : Int)
  | credited (standId : Int) (st : Stand) (userId : Int) (u : User) (q : Int)
  | done (r : Result)
  deriving DecidableEq, Repr

namespace interaction.Service

/-- One call of the store by a request of `Service.Create`, with the code that
follows it up to the next call: the lookup of the stand, the lookup of the
buyer, `CanCreate` with the checks of stock and credit, the stock update
(consumption only), the debit of the buyer, the credit of the holder, the
insert.  The checks use the rows the request has read. -/
def advance (ctx : Ctx) (input : Input) (s : Store) : Pc → Store × Pc
  | Pc.start =>
    match utils.GetIntFromMap input "stand_id" with
    | Except.error e => (s, Pc.done (Result.error { Key := ErrorKey.BadRequest, Err := e }))
    | Except.ok standId =>
    match stand.Repository.FindById s standId with
    | none => (s, Pc.done (Result.error { Key := ErrorKey.NotFound, Err := sqlErrNoRows }))
    | some st => (s, Pc.hasStand standId st)
  | Pc.hasStand standId st =>
    match ctx.UserID with
    | none => (s, Pc.done (Result.error
        { Key := ErrorKey.Unauthorized, Err := "user id not found in context" }))
    | some userId =>
    match user.Repository.FindById s userId with
    | none => (s, Pc.done (Result.error { Key := ErrorKey.NotFound, Err := sqlErrNoRows }))
    | some u => (s, Pc.hasUser standId st userId u)
  | Pc.hasUser standId st userId u =>
    if ¬ Repository.CanCreate s userId standId = true then
      (s, Pc.done (Result.error { Key := ErrorKey.Forbidden, Err := "forbidden" })) else
    match quantity st input with
    | Except.error e => (s, Pc.done (Result.error { Key := ErrorKey.BadRequest, Err := e }))
    | Except.ok q =>
    if st.Typ = InteractionTypeConsumption ∧ st.Stock < q then
      (s, Pc.done (Result.error { Key := ErrorKey.BadRequest, Err := "not enough stock" })) else
    if u.Credit < totalPrice st q then
      (s, Pc.done (Result.error { Key := ErrorKey.BadRequest, Err := "not enough credit" })) else
    (s, Pc.checked standId st userId u q)
  | Pc.checked standId st userId u q =>
    if st.Typ = InteractionTypeConsumption then
      (stand.Repository.UpdateStock s standId (int64 (-q)), Pc.stocked standId st userId u q)
    else
      (user.Repository.UpdateCredit s userId (int64 (-(totalPrice st q))),
        Pc.debited standId st userId u q)
  | Pc.stocked standId st userId u q =>
    (user.Repository.UpdateCredit s userId (int64 (-(totalPrice st q))),
      Pc.debited standId st userId u q)
  | Pc.debited standId st userId u q =>
    (user.Repository.UpdateCredit s st.UserId (totalPrice st q),
      Pc.credited standId st userId u q)
  | Pc.credited _ st _ u q =>
    (Repository.Create s
      (utils.Assign (utils.Assign (utils.Assign input "user_id" (Val.int u.Id))
        "type" (Val.str st.Typ)) "credit" (Val.int (totalPrice st q))),
      Pc.done Result.ok)
  | Pc.done r => (s, Pc.done r)

/-- A request that runs alone for `n` calls of the store. -/
def alone (ctx : Ctx) (input : Input) : Nat → Store × Pc → Store × Pc
  | 0, σ => σ
  | n + 1, σ => alone ctx input n (advance ctx input σ.1 σ.2)

end interaction.Service

/-- Two requests of interaction `Service.Create` served at the same time: the
store and where each request stands. -/
structure Race where
  store : Store
  first : Pc
  second : Pc
  deriving DecidableEq, Repr

/-- The requests make their calls of the store in the order of the schedule:
`true` lets the first request make its next call, `false` the second.  A
request is suspended only at a call of the store. -/
def race (ctxA : Ctx) (inputA : Input) (ctxB : Ctx) (inputB : Input) : Race → List Bool → Race
  | σ, [] => σ
  | σ, true :: rest =>
    race ctxA inputA ctxB inputB
      { store := (interaction.Service.advance ctxA inputA σ.store σ.first).1,
        first := (interaction.Service.advance ctxA inputA σ.store σ.first).2,
        second := σ.second } rest
  | σ, false :: rest =>
    race ctxA inputA ctxB inputB
      { store := (interaction.Service.advance ctxB inputB σ.store σ.second).1,
        first := σ.first,
        second := (interaction.Service.advance ctxB inputB σ.store σ.second).2 } rest

/-- The second child of the fair. -/
def sibling (credit : Int) : User :=
  { Id := 5, ParentId := some 4, Name := Val.str "sibling", Email := "s@x",
    Password := "h5", Role := UserRoleChild, Credit := credit }

/-- The fair with two children that are members of the kermesse, with the
given stock of the stand, credits of the children and of the holder, and
interactions. -/
def lastUnit (stock credit1 credit5 held : Int) (records : List Interaction) : Store :=
  { fairOf InteractionTypeConsumption stock credit1 held records with
    users := [child credit1, holder held, organizer, parent 0, sibling credit5],
    kermessesUsers := [(1, 1), (1, 5)] }

/-- Both requests read the stand, the buyer and the authorisation before
either writes. -/
def overlapping : List Bool :=
  [true, true, true, false, false, false, true, true, true, true, false, false, false, false]

/-- The second request makes its first call after the first has returned. -/
def serial : List Bool :=
  List.replicate 7 true ++ List.replicate 7 false

/-- The stand is a consumption stand of the store with the given stock. -/
def stockIs (s : Store) (standId n : Int) : Prop :=
  ∃ st, stand.Repository.FindById s standId = some st ∧
    st.Typ = InteractionTypeConsumption ∧ st.Stock = n

/-- A request that runs while no other request writes the stand: the row it
has read is the row of the store, and the quantity it has checked is 1 and at
most the stock. -/
def Solo (standId : Int) (s : Store) : Pc → Prop
  | Pc.hasStand sid st =>
      sid = standId ∧ stand.Repository.FindById s standId = some st
  | Pc.hasUser sid st _ _ =>
      sid = standId ∧ stand.Repository.FindById s standId = some st
  | Pc.checked sid st _ _ q =>
      sid = standId ∧ stand.Repository.FindById s standId = some st ∧ q = 1 ∧ 1 ≤ st.Stock
  | _ => True

/-- A request that has no call left that reads or writes the stand. -/
def Past : Pc → Prop
  | Pc.stocked _ _ _ _ _ => True
  | Pc.debited _ _ _ _ _ => True
  | Pc.credited _ _ _ _ _ => True
  | Pc.done _ => True
  | _ => False

/-- A request that started after the last unit was taken: it has read a stock
of 0, or has not read the stand yet, or has returned an error. -/
def Late : Pc → Prop
  | Pc.start => True
  | Pc.hasStand _ st => st.Typ = InteractionTypeConsumption ∧ st.Stock = 0
  | Pc.hasUser _ st _ _ => st.Typ = InteractionTypeConsumption ∧ st.Stock = 0
  | Pc.done r => r ≠ Result.ok
  | _ => False

/-- The invariant of a race in which the second request makes its first call
after the stock update of the first: either the first request took the last
unit and the second sees a stock of 0, or the first request failed and the
second runs as if alone. -/
def Ordered (standId : Int) (σ : Race) : Prop :=
  (stockIs σ.store standId 0 ∧ Past σ.first ∧ Late σ.second) ∨
  ((∃ r, σ.first = Pc.done r ∧ r ≠ Result.ok) ∧
    (∃ n, 0 ≤ n ∧ stockIs σ.store standId n) ∧ Solo standId σ.store σ.second)

/-- The first request takes the unit before the second makes its first call;
from there on their calls alternate. -/
def staggered : List Bool :=
  [true, true, true, true, false, true, false, true, false, true, false, false, false, false]

/-! ## Requests whose calls interleave -/

/-- A request in progress.  It has returned its result, or its next act is a
call of a repository: `write` is what the call does to the store it meets
(nothing, for a query) and `next` is how the request goes on after the call,
given the store the call met (the rows a query read, whether a write was
accepted).  Between two calls the request does not touch the store. -/
inductive Proc where
  | done (r : Result)
  | call (write : Store → Store) (next : Store → Proc)

namespace Proc

/-- The request that returns the classified error. -/
def fail (key : ErrorKey) (msg : String) : Proc :=
  done (Result.error { Key := key, Err := msg })

/-- A query: the store is left as it is. -/
def query (next : Store → Proc) : Proc :=
  call (fun s => s) next

/-- The request when no other request runs between its calls. -/
def run : Proc → Store → Result × Store
  | done r, s => (r, s)
  | call write next, s => run (next s) (write s)

/-- The result of a request that has returned. -/
def result : Proc → Option Result
  | done r => some r
  | call _ _ => none

end Proc

/-- Two requests on one store.  The schedule names, call by call, the request
whose call the store serves next (`true` the first, `false` the second); a
request that has returned makes no call.  The outcome is the store and what
each request has returned. -/
def duel : List Bool → Proc → Proc → Store → Store × Option Result × Option Result
  | [], a, b, s => (s, a.result, b.result)
  | true :: rest, Proc.call write next, b, s => duel rest (next s) b (write s)
  | true :: rest, Proc.done r, b, s => duel rest (Proc.done r) b s
  | false :: rest, a, Proc.call write next, s => duel rest a (next s) (write s)
  | false :: rest, a, Proc.done r, s => duel rest a (Proc.done r) s

namespace tombola.Service

/-- `Service.Create` call by call: the query of the kermesse, the tests of
status and ownership, then the insert. -/
def CreateCalls (ctx : Ctx) (input : Input) : Proc :=
  match utils.GetIntFromMap input "kermesse_id" with
  | Except.error e => Proc.fail ErrorKey.BadRequest e
  | Except.ok kermesseId =>
  Proc.query (fun s =>
  match kermesse.Repository.FindById s kermesseId with
  | none => Proc.fail ErrorKey.NotFound sqlErrNoRows
  | some k =>
  if k.Status = KermesseStatusEnded then
    Proc.fail ErrorKey.BadRequest "kermesse is ended" else
  match ctx.UserID with
  | none => Proc.fail ErrorKey.Unauthorized "user id not found in context"
  | some userId =>
  if k.UserId ≠ userId then Proc.fail ErrorKey.Forbidden "forbidden" else
  Proc.call (fun s => (Repository.Create s input).getD s) (fun s =>
  match Repository.Create s input with
  | none => Proc.fail ErrorKey.InternalServerError "store"
  | some _ => Proc.done Result.ok))

/-- `Service.Finish` call by call: the query of the tombola, the query of its
kermesse, the tests of status and ownership, then the transaction of
`SetWinner`, taken as one call; `r` is the draw of the random source. -/
def FinishCalls (ctx : Ctx) (id : Int) (r : Nat) : Proc :=
  Proc.query (fun s =>
  match Repository.FindById s id with
  | none => Proc.fail ErrorKey.NotFound sqlErrNoRows
  | some t =>
  Proc.query (fun s =>
  match kermesse.Repository.FindById s t.KermesseId with
  | none => Proc.fail ErrorKey.NotFound sqlErrNoRows
  | some k =>
  if k.Status = KermesseStatusEnded then
    Proc.fail ErrorKey.BadRequest "kermesse is ended" else
  match ctx.UserID with
  | none => Proc.fail ErrorKey.Unauthorized "user id not found in context"
  | some userId =>
  if k.UserId ≠ userId then Proc.fail ErrorKey.Forbidden "forbidden" else
  if t.Status ≠ TombolaStatusStarted then
    Proc.fail ErrorKey.BadRequest "tombola is not started" else
  Proc.call (fun s => Repository.SetWinner s id r) (fun _ => Proc.done Result.ok)))

end tombola.Service

namespace kermesse.Service

/-- `Service.End` call by call: the query of the kermesse, the test of its
status, the query `CanEnd`, the test of ownership, then the update. -/
def EndCalls (ctx : Ctx) (id : Int) : Proc :=
  Proc.query (fun s =>
  match Repository.FindById s id with
  | none => Proc.fail ErrorKey.NotFound sqlErrNoRows
  | some k =>
  if k.Status = KermesseStatusEnded then
    Proc.fail ErrorKey.BadRequest "kermesse is already ended" else
  Proc.query (fun s =>
  if ¬ Repository.CanEnd s id = true then
    Proc.fail ErrorKey.BadRequest "kermesse can\x27t be ended" else
  match ctx.UserID with
  | none => Proc.fail ErrorKey.Unauthorized "user id not found in context"
  | some userId =>
  if k.UserId ≠ userId then Proc.fail ErrorKey.Forbidden "forbidden" else
  Proc.call (fun s => Repository.End s id) (fun _ => Proc.done Result.ok)))

/-- `Service.AddStand` call by call: the query of the kermesse, the test of
its status, the query `CanAddStand`, the test of ownership, then the insert. -/
def AddStandCalls (ctx : Ctx) (input : Input) : Proc :=
  match utils.Index input "kermesse_id" with
  | Val.int kermesseId =>
    Proc.query (fun s =>
    match Repository.FindById s kermesseId with
    | none => Proc.fail ErrorKey.NotFound sqlErrNoRows
    | some k =>
    if k.Status = KermesseStatusEnded then
      Proc.fail ErrorKey.BadRequest "kermesse is already ended" else
    match utils.GetIntFromMap input "stand_id" with
    | Except.error e => Proc.fail ErrorKey.BadRequest e
    | Except.ok standId =>
    Proc.query (fun s =>
    if ¬ Repository.CanAddStand s standId = true then
      Proc.fail ErrorKey.BadRequest "stand is already associated with kermesse" else
    match ctx.UserID with
    | none => Proc.fail ErrorKey.Unauthorized "user id not found in context"
    | some userId =>
    if k.UserId ≠ userId then Proc.fail ErrorKey.Forbidden "forbidden" else
    Proc.call (fun s => (Repository.AddStand s input).getD s) (fun s =>
    match Repository.AddStand s input with
    | none => Proc.fail ErrorKey.InternalServerError "store"
    | some _ => Proc.done Result.ok)))
  | _ => Proc.done Result.aborted

end kermesse.Service

/-! ## Overlapping requests of the organizer -/

/-- Two requests of three calls each: the second makes its two queries
between the queries and the write of the first. -/
def queriesFirst : List Bool :=
  [true, true, false, false, true, false]

/-- Two requests of three calls each, the first to its end before the second
begins. -/
def oneAfterOther : List Bool :=
  [true, true, true, false, false, false]

/-- The organizer opens two kermesses. -/
def twoOpen : Store :=
  run Store.empty
    [Op.kermesseCreate (asUser 3 UserRoleOrganizer) [("name", Val.str "fair")],
     Op.kermesseCreate (asUser 3 UserRoleOrganizer) [("name", Val.str "fair")]]

/-- The payload that associates stand 1 with the kermesse of the given id. -/
def linkTo (kermesseId : Int) : Input :=
  [("kermesse_id", Val.int kermesseId), ("stand_id", Val.int 1)]

/-- The two kermesses of the organizer, both started, with the given
associations of stands. -/
def twoOpenWith (links : List (Int × Int)) : Store :=
  { users := [], stands := [], kermesses := [fest KermesseStatusStarted, fest2],
    kermessesUsers := [], kermessesStands := links, tombolas := [], tickets := [],
    interactions := [] }

/-- The season, and a second ticket of the child. -/
def twoSold : Store :=
  run Store.empty
    (season ++ [Op.ticketCreate (asUser 2 UserRoleChild) [("tombola_id", Val.int 1)]])

/-- The second ticket of the child for the tombola of the season. -/
def stub2 (winner : Bool) : Ticket :=
  { Id := 2, UserId := 2, TombolaId := 1, IsWinner := winner }

/-- The season after the draw, with the two tickets of the child as given. -/
def twoDrawn (first second : Bool) : Store :=
  seasonOf 5 1 [(1, 2), (1, 1)] [raffle TombolaStatusEnded] [stub first, stub2 second]

/-- The season up to the invitation of the child to the kermesse: no tombola
is open yet. -/
def invitedOnly : Store :=
  run Store.empty (season.take 6)

/-- The payload of the tombola of the season. -/
def raffleInput : Input :=
  [("kermesse_id", Val.int 1), ("name", Val.str "raffle"), ("price", Val.int 2),
   ("gift", Val.str "bike")]

/-- The request that opens a tombola queries the kermesse; the request that
ends the kermesse then makes its three calls; the insert of the tombola comes
last. -/
def endBetween : List Bool :=
  [true, false, false, false, true]

/-- The season with the kermesse ended and its tombola started, no ticket
sold. -/
def endedOpen : Store :=
  { seasonOf 5 5 [(1, 2), (1, 1)] [raffle TombolaStatusStarted] [] with
    kermesses := [fest KermesseStatusEnded] }

/-! ## Arithmetic of Go's int -/

theorem int64_eq {n : Int} (h1 : -9223372036854775808 ≤ n) (h2 : n < 9223372036854775808) :
    int64 n = n := by
  unfold int64
  omega

theorem int64_neg_one : int64 (-1) = -1 := by
  decide

theorem int64_lt (n : Int) : int64 n < 9223372036854775808 := by
  unfold int64
  omega

theorem GetIntFromMap_ok {input : Input} {key : String} {n : Int}
    (h : utils.GetIntFromMap input key = Except.ok n) : utils.Index input key = Val.int n := by
  unfold utils.GetIntFromMap at h
  split at h
  · rename_i m hm
    split at h
    · cases h
      exact hm
    · cases h
  · cases h

theorem GetIntFromMap_pos {input : Input} {key : String} {n : Int}
    (h : utils.GetIntFromMap input key = Except.ok n) : 0 < n ∧ n < 9223372036854775808 := by
  unfold utils.GetIntFromMap at h
  split at h
  · rename_i m hm
    split at h
    · rename_i hr
      cases h
      exact hr
    · cases h
  · cases h

theorem GetIntFromMap_of_pos {input : Input} {key : String} {n : Int}
    (h : utils.Index input key = Val.int n) (h1 : 0 < n) (h2 : n < 9223372036854775808) :
    utils.GetIntFromMap input key = Except.ok n := by
  unfold utils.GetIntFromMap
  rw [h]
  exact if_pos ⟨h1, h2⟩

theorem GetIntFromMap_cases (input : Input) (key : String) :
    (∃ msg, utils.GetIntFromMap input key = Except.error msg) ∨
    ∃ n, utils.GetIntFromMap input key = Except.ok n ∧ utils.Index input key = Val.int n := by
  cases h : utils.GetIntFromMap input key with
  | error msg => exact Or.inl ⟨msg, rfl⟩
  | ok n => exact Or.inr ⟨n, rfl, GetIntFromMap_ok h⟩

/-! ## Lemmas on the repositories -/

theorem addCredit_Id (id amount : Int) (u : User) : (addCredit id amount u).Id = u.Id := by
  unfold addCredit
  split <;> rfl

theorem addCredit_eq {id amount : Int} {u : User} (h : u.Id = id) :
    (addCredit id amount u).Credit = u.Credit + amount := by
  simp [addCredit, h]

theorem addCredit_ne {id amount : Int} {u : User} (h : u.Id ≠ id) :
    addCredit id amount u = u := by
  simp [addCredit, h]

theorem find_addCredit (l : List User) (id amount x : Int) :
    (l.map (addCredit id amount)).find? (fun u => decide (u.Id = x))
      = (l.find? (fun u => decide (u.Id = x))).map (addCredit id amount) := by
  rw [List.find?_map]
  congr 2
  funext u
  simp only [Function.comp, addCredit]
  split <;> rfl

theorem users_UpdateCredit (s : Store) (id amount : Int) :
    (user.Repository.UpdateCredit s id amount).users = s.users.map (addCredit id amount) := by
  rfl

theorem FindById_UpdateCredit (s : Store) (id amount x : Int) :
    user.Repository.FindById (user.Repository.UpdateCredit s id amount) x
      = (user.Repository.FindById s x).map (addCredit id amount) := by
  unfold user.Repository.FindById
  rw [users_UpdateCredit, find_addCredit]

theorem find_some_id {l : List User} {x : Int} {u : User}
    (h : l.find? (fun u => decide (u.Id = x)) = some u) : u.Id = x := by
  have := List.find?_some h
  simpa using this

theorem sum_addCredit (l : List User) (id amount : Int) :
    ((l.map (addCredit id amount)).map (fun u => u.Credit)).sum
      = (l.map (fun u => u.Credit)).sum
        + amount * ((l.map (fun u => u.Id)).count id : Int) := by
  induction l with
  | nil => simp
  | cons a l ih =>
    simp only [List.map_cons, List.sum_cons, ih, List.count_cons, addCredit]
    by_cases h : a.Id = id
    · simp [h]; ring
    · simp [h]; ring

theorem ids_addCredit (l : List User) (id amount : Int) :
    (l.map (addCredit id amount)).map (fun u => u.Id) = l.map (fun u => u.Id) := by
  induction l with
  | nil => rfl
  | cons a l ih =>
    simp only [List.map_cons, ih, addCredit]
    split <;> rfl

theorem count_of_find {l : List User} {x : Int} {u : User}
    (hn : (l.map (fun u => u.Id)).Nodup)
    (h : l.find? (fun u => decide (u.Id = x)) = some u) :
    (l.map (fun u => u.Id)).count x = 1 := by
  apply List.count_eq_one_of_mem hn
  have hm := List.mem_of_find?_eq_some h
  have hi := find_some_id h
  exact List.mem_map.mpr ⟨u, hm, hi⟩

/-- What a successful interaction Create went through. -/
theorem interaction_Create_ok {s s' : Store} {ctx : Ctx} {input : Input}
    (h : interaction.Service.Create s ctx input = (Result.ok, s')) :
    ∃ standId st userId u q,
      utils.GetIntFromMap input "stand_id" = Except.ok standId ∧
      stand.Repository.FindById s standId = some st ∧
      ctx.UserID = some userId ∧
      user.Repository.FindById s userId = some u ∧
      interaction.Repository.CanCreate s userId standId = true ∧
      interaction.Service.quantity st input = Except.ok q ∧
      ¬ (st.Typ = InteractionTypeConsumption ∧ st.Stock < q) ∧
      ¬ (u.Credit < interaction.Service.totalPrice st q) ∧
      s' = settled s input standId st u userId q := by
  unfold interaction.Service.Create at h
  split at h
  · simp [fail] at h
  · rename_i standId hsid
    split at h
    · simp [fail] at h
    · rename_i st hst
      split at h
      · simp [fail] at h
      · rename_i userId hctx
        split at h
        · simp [fail] at h
        · rename_i u hu
          split at h
          · simp [fail] at h
          · rename_i hcan
            split at h
            · simp [fail] at h
            · rename_i q hq
              split at h
              · simp [fail] at h
              · rename_i hstock
                split at h
                · simp [fail] at h
                · rename_i hcredit
                  refine ⟨standId, st, userId, u, q, hsid, hst, hctx, hu, ?_, hq,
                    hstock, hcredit, ?_⟩
                  · simpa using hcan
                  · simp only [Prod.mk.injEq, true_and] at h
                    exact h.symm

theorem users_settled (s : Store) (input : Input) (standId : Int) (st : Stand) (u : User)
    (userId q : Int) :
    (settled s input standId st u userId q).users
      = (s.users.map (addCredit userId (int64 (-(interaction.Service.totalPrice st q))))).map
          (addCredit st.UserId (interaction.Service.totalPrice st q)) := by
  unfold settled
  simp only [interaction.Repository.Create, users_UpdateCredit]
  split <;> rfl

theorem FindById_settled (s : Store) (input : Input) (standId : Int) (st : Stand) (u : User)
    (userId q x : Int) :
    user.Repository.FindById (settled s input standId st u userId q) x
      = ((user.Repository.FindById s x).map
          (addCredit userId (int64 (-(interaction.Service.totalPrice st q))))).map
          (addCredit st.UserId (interaction.Service.totalPrice st q)) := by
  unfold user.Repository.FindById
  rw [users_settled, find_addCredit, find_addCredit]

theorem stands_settled (s : Store) (input : Input) (standId : Int) (st : Stand) (u : User)
    (userId q : Int) :
    (settled s input standId st u userId q).stands
      = if st.Typ = InteractionTypeConsumption
          then s.stands.map (addStock standId (int64 (-q))) else s.stands := by
  unfold settled
  simp only [interaction.Repository.Create, user.Repository.UpdateCredit]
  split <;> rfl

theorem interactions_settled (s : Store) (input : Input) (standId : Int) (st : Stand)
    (u : User) (userId q : Int) :
    (settled s input standId st u userId q).interactions
      = s.interactions ++
        [{ Id := nextId (s.interactions.map (fun i => i.Id)),
           UserId := Val.int u.Id,
           KermesseId := utils.Index input "kermesse_id",
           StandId := utils.Index input "stand_id",
           Typ := Val.str st.Typ,
           Credit := Val.int (interaction.Service.totalPrice st q),
           Quantity := utils.Index input "quantity",
           Status := InteractionStatusStarted,
           Point := Val.null }] := by
  unfold settled
  simp only [interaction.Repository.Create, user.Repository.UpdateCredit]
  split <;> rfl

theorem find_addStock (l : List Stand) (id quantity x : Int) :
    (l.map (addStock id quantity)).find? (fun st => decide (st.Id = x))
      = (l.find? (fun st => decide (st.Id = x))).map (addStock id quantity) := by
  rw [List.find?_map]
  congr 2
  funext st
  simp only [Function.comp, addStock]
  split <;> rfl

theorem find_stand_id {l : List Stand} {x : Int} {st : Stand}
    (h : l.find? (fun st => decide (st.Id = x)) = some st) : st.Id = x := by
  have := List.find?_some h
  simpa using this

theorem quantity_consumption {st : Stand} {input : Input} {q : Int}
    (ht : st.Typ = InteractionTypeConsumption)
    (hq : utils.Index input "quantity" = Val.int q)
    (h1 : 0 < q) (h2 : q < 9223372036854775808) :
    interaction.Service.quantity st input = Except.ok q := by
  unfold interaction.Service.quantity
  rw [if_pos ht]
  exact GetIntFromMap_of_pos hq h1 h2

theorem quantity_pos {st : Stand} {input : Input} {q : Int}
    (h : interaction.Service.quantity st input = Except.ok q) :
    0 < q ∧ q < 9223372036854775808 := by
  unfold interaction.Service.quantity at h
  split at h
  · exact GetIntFromMap_pos h
  · cases h
    decide

theorem activity_ne_consumption : InteractionTypeActivity ≠ InteractionTypeConsumption := by
  decide

/-- Interaction Create once the stand, the buyer, the authorization and the
quantity are known: the two checks, then the four writes. -/
theorem interaction_Create_checked {s : Store} {ctx : Ctx} {input : Input}
    {standId b q : Int} {st : Stand} {u : User}
    (hctx : ctx.UserID = some b)
    (hsid : utils.GetIntFromMap input "stand_id" = Except.ok standId)
    (hst : stand.Repository.FindById s standId = some st)
    (hu : user.Repository.FindById s b = some u)
    (hcan : interaction.Repository.CanCreate s b standId = true)
    (hq : interaction.Service.quantity st input = Except.ok q) :
    interaction.Service.Create s ctx input
      = if st.Typ = InteractionTypeConsumption ∧ st.Stock < q then
          fail s ErrorKey.BadRequest "not enough stock"
        else if u.Credit < interaction.Service.totalPrice st q then
          fail s ErrorKey.BadRequest "not enough credit"
        else (Result.ok, settled s input standId st u b q) := by
  unfold interaction.Service.Create
  simp only [hsid, hst, hctx, hu, hcan, hq, not_true_eq_false, if_false]
  rfl

/-! ## What an accepted statement wrote -/

theorem user_Create_some {s s1 : Store} {input : Input}
    (h : user.Repository.Create s input = some s1) :
    ∃ row : User, s1 = { s with users := s.users ++ [row] } ∧ row.Credit = 0 ∧
      row.Id = nextId (s.users.map (fun u => u.Id)) ∧
      utils.Index input "role" = Val.str row.Role ∧
      user.Repository.parentOf (utils.Index input "parent_id") = some row.ParentId := by
  unfold user.Repository.Create at h
  split at h
  · rename_i hp he hpw hr
    cases h
    exact ⟨_, rfl, rfl, rfl, hr, hp⟩
  · cases h

theorem user_Update_some {s s1 : Store} {id : Int} {input : Input}
    (h : user.Repository.Update s id input = some s1) :
    ∃ p, s1 = { s with users := (s.users.map
      (fun u => if u.Id = id then { u with Password := p } else u)) } := by
  unfold user.Repository.Update at h
  split at h
  · cases h
    exact ⟨_, rfl⟩
  · cases h

theorem stand_Create_some {s s1 : Store} {input : Input}
    (h : stand.Repository.Create s input = some s1) :
    ∃ row : Stand, s1 = { s with stands := s.stands ++ [row] } ∧
      row.Id = nextId (s.stands.map (fun st => st.Id)) ∧
      utils.Index input "stock" = Val.int row.Stock ∧
      utils.Index input "user_id" = Val.int row.UserId := by
  unfold stand.Repository.Create at h
  split at h
  · rename_i hu ht hp hs
    cases h
    exact ⟨_, rfl, rfl, hs, hu⟩
  · cases h

theorem stand_Update_some {s s1 : Store} {id : Int} {input : Input}
    (h : stand.Repository.Update s id input = some s1) :
    ∃ price stock, utils.Index input "stock" = Val.int stock ∧
      s1 = { s with stands := (s.stands.map
        (fun st => if st.Id = id then stand.Repository.assign st input price stock else st)) } := by
  unfold stand.Repository.Update at h
  split at h
  · rename_i hp hs
    cases h
    exact ⟨_, _, hs, rfl⟩
  · cases h

theorem stand_UpdateByUserId_some {s s1 : Store} {userId : Int} {input : Input}
    (h : stand.Repository.UpdateByUserId s userId input = some s1) :
    ∃ price stock, utils.Index input "stock" = Val.int stock ∧
      s1 = { s with stands := (s.stands.map
        (fun st => if st.UserId = userId
          then stand.Repository.assign st input price stock else st)) } := by
  unfold stand.Repository.UpdateByUserId at h
  split at h
  · rename_i hp hs
    cases h
    exact ⟨_, _, hs, rfl⟩
  · cases h

theorem kermesse_Create_some {s s1 : Store} {input : Input}
    (h : kermesse.Repository.Create s input = some s1) :
    ∃ row : Kermesse, s1 = { s with kermesses := s.kermesses ++ [row] } ∧
      row.Status = KermesseStatusStarted ∧
      row.Id = nextId (s.kermesses.map (fun k => k.Id)) ∧
      utils.Index input "user_id" = Val.int row.UserId := by
  unfold kermesse.Repository.Create at h
  split at h
  · rename_i hu
    cases h
    exact ⟨_, rfl, rfl, rfl, hu⟩
  · cases h

theorem kermesse_AddUser_some {s s1 : Store} {input : Input}
    (h : kermesse.Repository.AddUser s input = some s1) :
    ∃ kermesseId userId, utils.Index input "kermesse_id" = Val.int kermesseId ∧
      utils.Index input "user_id" = Val.int userId ∧
      s1 = { s with kermessesUsers := s.kermessesUsers ++ [(kermesseId, userId)] } := by
  unfold kermesse.Repository.AddUser at h
  split at h
  · rename_i hk hu
    cases h
    exact ⟨_, _, hk, hu, rfl⟩
  · cases h

theorem kermesse_AddStand_some {s s1 : Store} {input : Input}
    (h : kermesse.Repository.AddStand s input = some s1) :
    ∃ kermesseId standId, utils.Index input "kermesse_id" = Val.int kermesseId ∧
      utils.Index input "stand_id" = Val.int standId ∧
      s1 = { s with kermessesStands := s.kermessesStands ++ [(kermesseId, standId)] } := by
  unfold kermesse.Repository.AddStand at h
  split at h
  · rename_i hk hu
    cases h
    exact ⟨_, _, hk, hu, rfl⟩
  · cases h

theorem tombola_Create_some {s s1 : Store} {input : Input}
    (h : tombola.Repository.Create s input = some s1) :
    ∃ row : Tombola, s1 = { s with tombolas := s.tombolas ++ [row] } ∧
      row.Status = TombolaStatusStarted ∧
      row.Id = nextId (s.tombolas.map (fun t => t.Id)) ∧
      utils.Index input "kermesse_id" = Val.int row.KermesseId := by
  unfold tombola.Repository.Create at h
  split at h
  · rename_i hk hp
    cases h
    exact ⟨_, rfl, rfl, rfl, hk⟩
  · cases h

theorem tombola_Update_some {s s1 : Store} {id : Int} {input : Input}
    (h : tombola.Repository.Update s id input = some s1) :
    ∃ price, s1 = { s with tombolas := (s.tombolas.map
      (fun t => if t.Id = id then
        { t with Name := utils.Index input "name", Price := price,
                 Gift := utils.Index input "gift" } else t)) } := by
  unfold tombola.Repository.Update at h
  split at h
  · cases h
    exact ⟨_, rfl⟩
  · cases h

theorem ticket_Create_some {s s1 : Store} {input : Input}
    (h : ticket.Repository.Create s input = some s1) :
    ∃ row : Ticket, s1 = { s with tickets := s.tickets ++ [row] } ∧
      row.IsWinner = false ∧
      row.Id = nextId (s.tickets.map (fun t => t.Id)) ∧
      utils.Index input "user_id" = Val.int row.UserId ∧
      utils.Index input "tombola_id" = Val.int row.TombolaId := by
  unfold ticket.Repository.Create at h
  split at h
  · rename_i hu ht
    cases h
    exact ⟨_, rfl, rfl, rfl, hu, ht⟩
  · cases h

/-! ## Interaction Create: conservation, effect, rejection -/

/-- C1, counterexample.  At the stand priced 2^32 the child, who holds
nothing, takes 2^31 units: the product wraps to -2^63, the credit test
passes, the call succeeds, and the buyer and the holder alike end 2^63
poorer.  The credit of the holder after the call minus the total price is not
its credit before, and the sum of all credits has dropped by 2^64. -/
theorem C1_wrapped_total_debits_both :
    interaction.Service.Create (bulkFair 0) (asUser 1 UserRoleChild) (buy 2147483648)
      = (Result.ok, bulkSold 0) ∧
    interaction.Service.totalPrice bulk 2147483648 = (-9223372036854775808 : Int) ∧
    user.Repository.FindById (bulkFair 0) 1 = some (child 0) ∧
    user.Repository.FindById (bulkSold 0) 1 = some (child (-9223372036854775808)) ∧
    user.Repository.FindById (bulkFair 0) 2 = some (holder 0) ∧
    user.Repository.FindById (bulkSold 0) 2 = some (holder (-9223372036854775808)) ∧
    totalCredit (bulkFair 0) = (0 : Int) ∧
    totalCredit (bulkSold 0) = (-18446744073709551616 : Int) := by
  decide

/-- C1, amended.  Conservation: when interaction Create succeeds for a buyer
`b` at a stand whose holder `h` is an existing user other than `b`, and the
total price the call computed (the price of an activity, the 64-bit product
of price and quantity of a consumption) is a 64-bit integer other than the
least one, -2^63, then the credit of `b` after plus the total price is its
credit before, the credit of `h` after minus the total price is its credit
before, every other user row is unchanged, and (user ids being a key) the sum
of all credits is unchanged. -/
theorem C1_conservation (s s' : Store) (ctx : Ctx) (input : Input)
    (standId b h q : Int) (st : Stand) (ub uh : User)
    (hok : interaction.Service.Create s ctx input = (Result.ok, s'))
    (hctx : ctx.UserID = some b)
    (hsid : utils.GetIntFromMap input "stand_id" = Except.ok standId)
    (hst : stand.Repository.FindById s standId = some st)
    (hq : interaction.Service.quantity st input = Except.ok q)
    (hlo : -9223372036854775808 < interaction.Service.totalPrice st q)
    (hhi : interaction.Service.totalPrice st q < 9223372036854775808)
    (hh : st.UserId = h) (hne : h ≠ b)
    (hub : user.Repository.FindById s b = some ub)
    (huh : user.Repository.FindById s h = some uh) :
    (∃ ub', user.Repository.FindById s' b = some ub' ∧
        ub'.Credit + interaction.Service.totalPrice st q = ub.Credit) ∧
    (∃ uh', user.Repository.FindById s' h = some uh' ∧
        uh'.Credit - interaction.Service.totalPrice st q = uh.Credit) ∧
    (∀ x, x ≠ b → x ≠ h →
        user.Repository.FindById s' x = user.Repository.FindById s x) ∧
    ((s.users.map (fun u => u.Id)).Nodup → totalCredit s' = totalCredit s) := by
  obtain ⟨standId', st', userId, u, q', hsid', hst', hctx', hu, -, hq', -, -, hs'⟩ :=
    interaction_Create_ok hok
  rw [hsid] at hsid'
  cases hsid'
  rw [hst] at hst'
  cases hst'
  rw [hctx] at hctx'
  cases hctx'
  rw [hq] at hq'
  cases hq'
  subst hs'
  have hbid : ub.Id = b := find_some_id hub
  have hhid : uh.Id = h := find_some_id huh
  have hneg : int64 (-(interaction.Service.totalPrice st q))
      = -(interaction.Service.totalPrice st q) :=
    int64_eq (by omega) (by omega)
  refine ⟨?_, ?_, ?_, ?_⟩
  · refine ⟨addCredit st.UserId (interaction.Service.totalPrice st q)
      (addCredit b (-(interaction.Service.totalPrice st q)) ub), ?_, ?_⟩
    · rw [FindById_settled, hub, hneg]; rfl
    · have hb' : (addCredit b (-(interaction.Service.totalPrice st q)) ub).Id ≠ st.UserId := by
        rw [addCredit_Id, hbid, hh]; exact fun e => hne e.symm
      rw [addCredit_ne hb', addCredit_eq hbid]
      omega
  · refine ⟨addCredit st.UserId (interaction.Service.totalPrice st q)
      (addCredit b (-(interaction.Service.totalPrice st q)) uh), ?_, ?_⟩
    · rw [FindById_settled, hh, huh, hneg]; rfl
    · have hh' : uh.Id ≠ b := by rw [hhid]; exact hne
      rw [addCredit_ne hh', addCredit_eq (hhid.trans hh.symm)]
      omega
  · intro x hxb hxh
    rw [FindById_settled]
    cases hx : user.Repository.FindById s x with
    | none => rfl
    | some ux =>
      have hxid : ux.Id = x := find_some_id hx
      have h1 : ux.Id ≠ b := by rw [hxid]; exact hxb
      have h2 : ux.Id ≠ st.UserId := by rw [hxid, hh]; exact hxh
      simp only [Option.map_some', addCredit_ne h1, addCredit_ne h2]
  · intro hn
    unfold totalCredit
    rw [users_settled, sum_addCredit, sum_addCredit, ids_addCredit,
      count_of_find hn hub, hh, count_of_find hn huh, hneg]
    simp

/-- Witness of C1 on the scenario of the specification: the child pays 20 to
the holder. -/
theorem C1_conservation_witness :
    (∃ ub', user.Repository.FindById
        (fairOf InteractionTypeConsumption 1 5 20
          [recorded InteractionTypeConsumption 20 (Val.int 2)]) 1 = some ub' ∧
        ub'.Credit + interaction.Service.totalPrice (cakes InteractionTypeConsumption 3) 2
          = (child 25).Credit) ∧
    (∃ uh', user.Repository.FindById
        (fairOf InteractionTypeConsumption 1 5 20
          [recorded InteractionTypeConsumption 20 (Val.int 2)]) 2 = some uh' ∧
        uh'.Credit - interaction.Service.totalPrice (cakes InteractionTypeConsumption 3) 2
          = (holder 0).Credit) ∧
    (∀ x, x ≠ 1 → x ≠ 2 →
        user.Repository.FindById
          (fairOf InteractionTypeConsumption 1 5 20
            [recorded InteractionTypeConsumption 20 (Val.int 2)]) x
          = user.Repository.FindById fair x) ∧
    ((fair.users.map (fun u => u.Id)).Nodup →
      totalCredit (fairOf InteractionTypeConsumption 1 5 20
          [recorded InteractionTypeConsumption 20 (Val.int 2)]) = totalCredit fair) :=
  C1_conservation fair _ (asUser 1 UserRoleChild) (buy 2) 1 1 2 2
    (cakes InteractionTypeConsumption 3) (child 25) (holder 0)
    (by decide) (by decide) rfl (by decide) rfl (by decide) (by decide) (by decide)
    (by decide) (by decide) (by decide)

/-- C2, counterexample.  At the stand priced 2^32 the child, who holds 7,
takes 2^31 units: the call succeeds and the record handed to persistence
carries the amount -2^63, whereas price times quantity is 2^63; the buyer is
left with 7 - 2^63. -/
theorem C2_wrapped_amount_recorded :
    interaction.Service.Create (bulkFair 7) (asUser 1 UserRoleChild) (buy 2147483648)
      = (Result.ok, bulkSold 7) ∧
    (bulkSold 7).interactions
      = (bulkFair 7).interactions ++
        [recorded InteractionTypeConsumption (-9223372036854775808) (Val.int 2147483648)] ∧
    (recorded InteractionTypeConsumption (-9223372036854775808) (Val.int 2147483648)).Credit
      ≠ Val.int (bulk.Price * 2147483648) ∧
    bulk.Price * 2147483648 = (9223372036854775808 : Int) ∧
    user.Repository.FindById (bulkSold 7) 1 = some (child (7 - 9223372036854775808)) := by
  decide

/-- C2, amended.  Effect of a successful interaction Create.  On a
consumption stand with price `p`, stock `k` and payload quantity `q` the stock
afterwards is `k - q`; the amount is the product `p * q` wrapped to 64 bits:
the holder is credited that amount, the buyer is charged it (its negation,
again wrapped), and the one record handed to persistence has it as credit,
with the type of the stand and the buyer as user id.  When `p * q` lies
strictly between -2^63 and 2^63 the amount is `p * q` itself: the buyer is
debited and the holder credited `p * q`, and the record has credit `p * q`.
On an activity stand the stands are unchanged and the amount credited and
recorded is `p`, whatever the payload carries as quantity; the buyer is
charged the 64-bit negation of `p`, which is `-p` when `p` lies strictly
between -2^63 and 2^63. -/
theorem C2_effect (s s' : Store) (ctx : Ctx) (input : Input) (standId b : Int) (st : Stand)
    (hok : interaction.Service.Create s ctx input = (Result.ok, s'))
    (hctx : ctx.UserID = some b)
    (hsid : utils.GetIntFromMap input "stand_id" = Except.ok standId)
    (hst : stand.Repository.FindById s standId = some st) :
    (st.Typ = InteractionTypeConsumption →
      ∀ q, utils.Index input "quantity" = Val.int q →
        (stand.Repository.FindById s' standId).map (fun x => x.Stock) = some (st.Stock - q) ∧
        s'.users = (s.users.map (addCredit b (int64 (-(int64 (st.Price * q)))))).map
          (addCredit st.UserId (int64 (st.Price * q))) ∧
        (∃ i, s'.interactions = s.interactions ++ [i] ∧
          i.Credit = Val.int (int64 (st.Price * q)) ∧
          i.Typ = Val.str st.Typ ∧ i.UserId = Val.int b) ∧
        (-9223372036854775808 < st.Price * q → st.Price * q < 9223372036854775808 →
          s'.users = (s.users.map (addCredit b (-(st.Price * q)))).map
            (addCredit st.UserId (st.Price * q)) ∧
          ∃ i, s'.interactions = s.interactions ++ [i] ∧ i.Credit = Val.int (st.Price * q) ∧
            i.Typ = Val.str st.Typ ∧ i.UserId = Val.int b)) ∧
    (st.Typ = InteractionTypeActivity →
      s'.stands = s.stands ∧
      s'.users = (s.users.map (addCredit b (int64 (-st.Price)))).map
        (addCredit st.UserId st.Price) ∧
      (∃ i, s'.interactions = s.interactions ++ [i] ∧ i.Credit = Val.int st.Price ∧
        i.Typ = Val.str st.Typ ∧ i.UserId = Val.int b) ∧
      (-9223372036854775808 < st.Price → st.Price < 9223372036854775808 →
        s'.users = (s.users.map (addCredit b (-st.Price))).map
          (addCredit st.UserId st.Price))) := by
  obtain ⟨standId', st', userId, u, q', hsid', hst', hctx', hu, -, hq', -, -, hs'⟩ :=
    interaction_Create_ok hok
  rw [hsid] at hsid'
  cases hsid'
  rw [hst] at hst'
  cases hst'
  rw [hctx] at hctx'
  cases hctx'
  subst hs'
  have hid : u.Id = b := find_some_id hu
  have hpos := quantity_pos hq'
  constructor
  · intro ht q hq
    have hqq : q = q' := by
      unfold interaction.Service.quantity at hq'
      rw [if_pos ht] at hq'
      have := GetIntFromMap_ok hq'
      rw [hq] at this
      cases this
      rfl
    subst hqq
    have htp : interaction.Service.totalPrice st q = int64 (st.Price * q) := by
      simp [interaction.Service.totalPrice, ht]
    have hnq : int64 (-q) = -q := int64_eq (by omega) (by omega)
    have hi := interactions_settled s input standId st u b q
    refine ⟨?_, ?_, ?_, ?_⟩
    · unfold stand.Repository.FindById
      rw [stands_settled, if_pos ht, find_addStock, hnq]
      unfold stand.Repository.FindById at hst
      rw [hst]
      have := find_stand_id hst
      simp [addStock, this]
      omega
    · rw [users_settled, htp]
    · refine ⟨_, hi, ?_, ?_, ?_⟩
      · simp [htp]
      · rfl
      · simp [hid]
    · intro hlo hhi
      have hfit : int64 (st.Price * q) = st.Price * q := int64_eq (by omega) hhi
      have hneg : int64 (-(st.Price * q)) = -(st.Price * q) :=
        int64_eq (by omega) (by omega)
      refine ⟨?_, _, hi, ?_, ?_, ?_⟩
      · rw [users_settled, htp, hfit, hneg]
      · simp [htp, hfit]
      · rfl
      · simp [hid]
  · intro ht
    have hn : ¬ st.Typ = InteractionTypeConsumption := by
      rw [ht]; exact activity_ne_consumption
    have htp : interaction.Service.totalPrice st q' = st.Price := by
      simp [interaction.Service.totalPrice, hn]
    refine ⟨?_, ?_, ?_, ?_⟩
    · rw [stands_settled, if_neg hn]
    · rw [users_settled, htp]
    · refine ⟨_, interactions_settled s input standId st u b q', ?_, ?_, ?_⟩
      · simp [htp]
      · rfl
      · simp [hid]
    · intro hlo hhi
      rw [users_settled, htp, int64_eq (by omega) (by omega)]

/-- Witness of C2, the scenario of the specification: stock 3, price 10,
buyer credit 25 and quantity 2 give stock 1, buyer credit 5, holder credit
20 more and one record of amount 20. -/
theorem C2_effect_witness :
    interaction.Service.Create fair (asUser 1 UserRoleChild) (buy 2)
      = (Result.ok, fairOf InteractionTypeConsumption 1 5 20
          [recorded InteractionTypeConsumption 20 (Val.int 2)]) ∧
    (stand.Repository.FindById (fairOf InteractionTypeConsumption 1 5 20
        [recorded InteractionTypeConsumption 20 (Val.int 2)]) 1).map (fun x => x.Stock)
      = some (3 - 2) ∧
    (fairOf InteractionTypeConsumption 1 5 20
        [recorded InteractionTypeConsumption 20 (Val.int 2)]).users
      = (fair.users.map (addCredit 1 (-(10 * 2)))).map (addCredit 2 (10 * 2)) ∧
    ∃ i, (fairOf InteractionTypeConsumption 1 5 20
        [recorded InteractionTypeConsumption 20 (Val.int 2)]).interactions
        = fair.interactions ++ [i] ∧ i.Credit = Val.int (10 * 2) ∧
      i.Typ = Val.str InteractionTypeConsumption ∧ i.UserId = Val.int 1 :=
  ⟨by decide,
   ((C2_effect fair _ (asUser 1 UserRoleChild) (buy 2) 1 1 (cakes InteractionTypeConsumption 3)
      (by decide) (by decide) rfl (by decide)).1 (by decide) 2 (by decide)).1,
   ((C2_effect fair _ (asUser 1 UserRoleChild) (buy 2) 1 1 (cakes InteractionTypeConsumption 3)
      (by decide) (by decide) rfl (by decide)).1 (by decide) 2 (by decide)).2.2.2
      (by decide) (by decide)⟩

/-- C3, counterexample.  At the stand priced 2^32 the child holds 5 and asks
for 2^31 units, which cost 2^63, far more than 5: the product wraps to -2^63,
the credit test passes and the purchase succeeds.  The stock is emptied, the
child is left with 5 - 2^63 and a record is written. -/
theorem C3_short_credit_accepted :
    (child 5).Credit < bulk.Price * 2147483648 ∧
    user.Repository.FindById (bulkFair 5) 1 = some (child 5) ∧
    interaction.Service.Create (bulkFair 5) (asUser 1 UserRoleChild) (buy 2147483648)
      = (Result.ok, bulkSold 5) ∧
    user.Repository.FindById (bulkSold 5) 1 = some (child (5 - 9223372036854775808)) ∧
    (bulkSold 5).stands ≠ (bulkFair 5).stands ∧
    (bulkSold 5).interactions ≠ (bulkFair 5).interactions := by
  decide

/-- C3, amended.  Insufficient resources are rejected without mutation.  For
a stand that exists and a quantity `q` that is read, when the stand is a
consumption stand with stock below `q`, or the buyer exists with a credit
below the total price the call computes (the price of an activity, the 64-bit
product of price and quantity of a consumption), interaction Create does not
succeed and leaves the whole store unchanged.  For an authorized buyer it
returns BadRequest: not enough stock when the stock is short (the stock check
comes first), not enough credit otherwise.  For a buyer who is not authorized
it returns Forbidden. -/
theorem C3_insufficient (s : Store) (ctx : Ctx) (input : Input) (standId q : Int)
    (st : Stand)
    (hsid : utils.GetIntFromMap input "stand_id" = Except.ok standId)
    (hst : stand.Repository.FindById s standId = some st)
    (hq : interaction.Service.quantity st input = Except.ok q)
    (hshort : (st.Typ = InteractionTypeConsumption ∧ st.Stock < q) ∨
      ∃ b u, ctx.UserID = some b ∧ user.Repository.FindById s b = some u ∧
        u.Credit < interaction.Service.totalPrice st q) :
    (interaction.Service.Create s ctx input).1 ≠ Result.ok ∧
    (interaction.Service.Create s ctx input).2 = s ∧
    (∀ b u, ctx.UserID = some b → user.Repository.FindById s b = some u →
      interaction.Repository.CanCreate s b standId = true →
      interaction.Service.Create s ctx input
        = if st.Typ = InteractionTypeConsumption ∧ st.Stock < q then
            (Result.error { Key := ErrorKey.BadRequest, Err := "not enough stock" }, s)
          else
            (Result.error { Key := ErrorKey.BadRequest, Err := "not enough credit" }, s)) ∧
    (∀ b u, ctx.UserID = some b → user.Repository.FindById s b = some u →
      interaction.Repository.CanCreate s b standId = false →
      interaction.Service.Create s ctx input
        = (Result.error { Key := ErrorKey.Forbidden, Err := "forbidden" }, s)) := by
  have hauth : ∀ b u, ctx.UserID = some b → user.Repository.FindById s b = some u →
      interaction.Repository.CanCreate s b standId = true →
      interaction.Service.Create s ctx input
        = if st.Typ = InteractionTypeConsumption ∧ st.Stock < q then
            (Result.error { Key := ErrorKey.BadRequest, Err := "not enough stock" }, s)
          else
            (Result.error { Key := ErrorKey.BadRequest, Err := "not enough credit" }, s) := by
    intro b u hctx hu hcan
    rw [interaction_Create_checked hctx hsid hst hu hcan hq]
    by_cases hs : st.Typ = InteractionTypeConsumption ∧ st.Stock < q
    · rw [if_pos hs, if_pos hs]; rfl
    · rw [if_neg hs, if_neg hs]
      rcases hshort with h | ⟨b', u', hb', hu', hlt⟩
      · exact absurd h hs
      · rw [hctx] at hb'
        cases hb'
        rw [hu] at hu'
        cases hu'
        rw [if_pos hlt]; rfl
  have hforb : ∀ b u, ctx.UserID = some b → user.Repository.FindById s b = some u →
      interaction.Repository.CanCreate s b standId = false →
      interaction.Service.Create s ctx input
        = (Result.error { Key := ErrorKey.Forbidden, Err := "forbidden" }, s) := by
    intro b u hctx hu hcan
    unfold interaction.Service.Create
    simp only [hsid, hst, hctx, hu, hcan]
    rfl
  refine ⟨?_, ?_, hauth, hforb⟩
  · cases hctx : ctx.UserID with
    | none => simp [interaction.Service.Create, hsid, hst, hctx, fail]
    | some b =>
      cases hu : user.Repository.FindById s b with
      | none => simp [interaction.Service.Create, hsid, hst, hctx, hu, fail]
      | some u =>
        cases hcan : interaction.Repository.CanCreate s b standId with
        | false => rw [hforb b u hctx hu hcan]; simp
        | true =>
          rw [hauth b u hctx hu hcan]
          split <;> simp
  · cases hctx : ctx.UserID with
    | none => simp [interaction.Service.Create, hsid, hst, hctx, fail]
    | some b =>
      cases hu : user.Repository.FindById s b with
      | none => simp [interaction.Service.Create, hsid, hst, hctx, hu, fail]
      | some u =>
        cases hcan : interaction.Repository.CanCreate s b standId with
        | false => rw [hforb b u hctx hu hcan]
        | true =>
          rw [hauth b u hctx hu hcan]
          split <;> rfl

/-- Witness of C3, the scenario of the specification: stock 3, price 10,
buyer credit 5, quantity 2 (needs 20). -/
theorem C3_insufficient_witness :
    (child 5).Credit < interaction.Service.totalPrice (cakes InteractionTypeConsumption 3) 2 ∧
    interaction.Service.Create (fairOf InteractionTypeConsumption 3 5 0 [])
        (asUser 1 UserRoleChild) (buy 2)
      = (Result.error { Key := ErrorKey.BadRequest, Err := "not enough credit" },
          fairOf InteractionTypeConsumption 3 5 0 []) :=
  ⟨by decide,
   ((C3_insufficient (fairOf InteractionTypeConsumption 3 5 0 []) (asUser 1 UserRoleChild)
      (buy 2) 1 2 (cakes InteractionTypeConsumption 3) rfl (by decide) rfl
      (Or.inr ⟨1, child 5, by decide, by decide, by decide⟩)).2.2.1
      1 (child 5) (by decide) (by decide) (by decide)).trans (by decide)⟩

/-- C4.  For every consumption stand and every payload whose quantity is
missing, is not an integer, or is an integer at most zero, interaction Create
does not succeed and leaves the whole store, hence every stock and every
credit, unchanged; when the buyer exists and is authorized, so that the
quantity is read, it fails with BadRequest. -/
theorem C4_nonpositive_quantity (s : Store) (ctx : Ctx) (input : Input) (standId : Int)
    (st : Stand)
    (hsid : utils.GetIntFromMap input "stand_id" = Except.ok standId)
    (hst : stand.Repository.FindById s standId = some st)
    (ht : st.Typ = InteractionTypeConsumption)
    (hbad : ∀ n, utils.Index input "quantity" = Val.int n → n ≤ 0) :
    (interaction.Service.Create s ctx input).1 ≠ Result.ok ∧
    (interaction.Service.Create s ctx input).2 = s ∧
    (∀ b u, ctx.UserID = some b → user.Repository.FindById s b = some u →
      interaction.Repository.CanCreate s b standId = true →
      ∃ msg, interaction.Service.Create s ctx input
        = (Result.error { Key := ErrorKey.BadRequest, Err := msg }, s)) := by
  have hq : ∃ msg, interaction.Service.quantity st input = Except.error msg := by
    unfold interaction.Service.quantity
    rw [if_pos ht]
    rcases GetIntFromMap_cases input "quantity" with h | ⟨n, h, hn⟩
    · exact h
    · have := GetIntFromMap_pos h
      have := hbad n hn
      omega
  obtain ⟨msg, hq⟩ := hq
  have hauth : ∀ b u, ctx.UserID = some b → user.Repository.FindById s b = some u →
      interaction.Repository.CanCreate s b standId = true →
      interaction.Service.Create s ctx input
        = (Result.error { Key := ErrorKey.BadRequest, Err := msg }, s) := by
    intro b u hctx hu hcan
    unfold interaction.Service.Create
    simp only [hsid, hst, hctx, hu, hcan, hq, not_true_eq_false, if_false]
    rfl
  refine ⟨?_, ?_, fun b u hctx hu hcan => ⟨msg, hauth b u hctx hu hcan⟩⟩
  · cases hctx : ctx.UserID with
    | none => simp [interaction.Service.Create, hsid, hst, hctx, fail]
    | some b =>
      cases hu : user.Repository.FindById s b with
      | none => simp [interaction.Service.Create, hsid, hst, hctx, hu, fail]
      | some u =>
        cases hcan : interaction.Repository.CanCreate s b standId with
        | false => simp [interaction.Service.Create, hsid, hst, hctx, hu, hcan, fail]
        | true => rw [hauth b u hctx hu hcan]; simp
  · cases hctx : ctx.UserID with
    | none => simp [interaction.Service.Create, hsid, hst, hctx, fail]
    | some b =>
      cases hu : user.Repository.FindById s b with
      | none => simp [interaction.Service.Create, hsid, hst, hctx, hu, fail]
      | some u =>
        cases hcan : interaction.Repository.CanCreate s b standId with
        | false => simp [interaction.Service.Create, hsid, hst, hctx, hu, hcan, fail]
        | true => rw [hauth b u hctx hu hcan]

/-- Witness of C4: the child of the scenario asks for 0 cakes and is
answered BadRequest; the store is as before. -/
theorem C4_nonpositive_quantity_witness :
    (interaction.Service.Create fair (asUser 1 UserRoleChild) (buy 0)).1 ≠ Result.ok ∧
    (interaction.Service.Create fair (asUser 1 UserRoleChild) (buy 0)).2 = fair ∧
    ∃ msg, interaction.Service.Create fair (asUser 1 UserRoleChild) (buy 0)
      = (Result.error { Key := ErrorKey.BadRequest, Err := msg }, fair) :=
  (fun h => ⟨h.1, h.2.1, h.2.2 1 (child 25) (by decide) (by decide) (by decide)⟩)
    (C4_nonpositive_quantity fair (asUser 1 UserRoleChild) (buy 0) 1
      (cakes InteractionTypeConsumption 3) rfl (by decide) (by decide)
      (by
        intro n h
        have e : utils.Index (buy 0) "quantity" = Val.int 0 := by decide
        rw [e] at h
        cases h
        decide))

/-! ## The store a service call leaves behind -/

theorem user_Update_store (env : Env) (s : Store) (ctx : Ctx) (id : Int) (input : Input) :
    (user.Service.Update env s ctx id input).2 = s ∨
    ∃ p, (user.Service.Update env s ctx id input).2 = { s with users := (s.users.map
      (fun u => if u.Id = id then { u with Password := p } else u)) } := by
  unfold user.Service.Update
  repeat' split
  all_goals first | (left; rfl) | skip
  obtain ⟨p, rfl⟩ := user_Update_some ‹_›
  exact Or.inr ⟨p, rfl⟩

theorem user_Invite_store (env : Env) (s : Store) (ctx : Ctx) (input : Input) :
    (user.Service.Invite env s ctx input).2 = s ∨
    ∃ (row : User) (userId : Int), ctx.UserID = some userId ∧ row.Credit = 0 ∧
      row.Id = nextId (s.users.map (fun u => u.Id)) ∧ row.Role = UserRoleChild ∧
      row.ParentId = some userId ∧
      (user.Service.Invite env s ctx input).2 = { s with users := s.users ++ [row] } := by
  unfold user.Service.Invite
  repeat' split
  all_goals first | (left; rfl) | skip
  all_goals
    obtain ⟨row, rfl, h1, h2, h3, h4⟩ := user_Create_some ‹_›
    refine Or.inr ⟨row, _, ‹_›, h1, h2, ?_, ?_, rfl⟩
    · simp [utils.Index] at h3
      exact h3.symm
    · simp [utils.Index, user.Repository.parentOf] at h4
      exact h4.symm

theorem user_UpdateCredit_store (s : Store) (userId credit : Int) :
    (user.Service.UpdateCredit s userId credit).2 = s ∨
    (user.Service.UpdateCredit s userId credit).2
      = user.Repository.UpdateCredit s userId credit := by
  unfold user.Service.UpdateCredit
  repeat' split
  all_goals first | (left; rfl) | (right; rfl)

theorem user_Pay_store (s : Store) (ctx : Ctx) (input : Input) :
    (user.Service.Pay s ctx input).2 = s ∨
    ∃ (childId parentId amount : Int) (parent : User),
      utils.GetIntFromMap input "amount" = Except.ok amount ∧
      user.Repository.FindById s parentId = some parent ∧ amount ≤ parent.Credit ∧
      (user.Service.Pay s ctx input).2
        = user.Repository.UpdateCredit (user.Repository.UpdateCredit s childId amount)
            parentId (-amount) := by
  unfold user.Service.Pay
  repeat' split
  all_goals first | (left; rfl) | skip
  refine Or.inr ⟨_, _, _, _, ‹_›, ‹user.Repository.FindById s _ = some _›, ?_, rfl⟩
  omega

theorem user_SignUp_store (env : Env) (s : Store) (input : Input) :
    (user.Service.SignUp env s input).2 = s ∨
    ∃ row : User, row.Credit = 0 ∧ row.Id = nextId (s.users.map (fun u => u.Id)) ∧
      row.Role ≠ UserRoleChild ∧ row.ParentId = none ∧
      (user.Service.SignUp env s input).2 = { s with users := s.users ++ [row] } := by
  unfold user.Service.SignUp
  repeat' first | split | dsimp only
  all_goals first | (left; rfl) | skip
  obtain ⟨row, rfl, h1, h2, h3, h4⟩ := user_Create_some ‹_›
  refine Or.inr ⟨row, h1, h2, ?_, ?_, rfl⟩
  · intro hr
    rename_i hne _ _
    apply hne
    rw [h3, hr]
  · simp [utils.Index, utils.Assign, user.Repository.parentOf] at h4
    exact h4.symm

theorem Index_Assign_ne (input : Input) (k key : String) (v : Val) (h : k ≠ key) :
    utils.Index (utils.Assign input k v) key = utils.Index input key := by
  simp [utils.Index, utils.Assign, h]

theorem Index_Assign_eq (input : Input) (k : String) (v : Val) :
    utils.Index (utils.Assign input k v) k = v := by
  simp [utils.Index, utils.Assign]

theorem stand_Create_store (s : Store) (ctx : Ctx) (input : Input) :
    (stand.Service.Create s ctx input).2 = s ∨
    ∃ row : Stand, ctx.UserID = some row.UserId ∧
      row.Id = nextId (s.stands.map (fun st => st.Id)) ∧
      utils.Index input "stock" = Val.int row.Stock ∧
      (stand.Service.Create s ctx input).2 = { s with stands := s.stands ++ [row] } := by
  unfold stand.Service.Create
  repeat' split
  all_goals first | (left; rfl) | skip
  obtain ⟨row, rfl, h1, h2, h3⟩ := stand_Create_some ‹_›
  rw [Index_Assign_ne _ _ _ _ (by decide)] at h2
  rw [Index_Assign_eq] at h3
  cases h3
  exact Or.inr ⟨row, ‹_›, h1, h2, rfl⟩

theorem stand_Update_store (s : Store) (ctx : Ctx) (id : Int) (input : Input) :
    (stand.Service.Update s ctx id input).2 = s ∨
    ∃ price stock, utils.Index input "stock" = Val.int stock ∧
      (stand.Service.Update s ctx id input).2 = { s with stands := (s.stands.map
        (fun st => if st.Id = id then stand.Repository.assign st input price stock else st)) } := by
  unfold stand.Service.Update
  repeat' split
  all_goals first | (left; rfl) | skip
  obtain ⟨price, stock, h1, rfl⟩ := stand_Update_some ‹_›
  exact Or.inr ⟨price, stock, h1, rfl⟩

theorem stand_UpdateCurrent_store (s : Store) (ctx : Ctx) (input : Input) :
    (stand.Service.UpdateCurrent s ctx input).2 = s ∨
    ∃ userId price stock, utils.Index input "stock" = Val.int stock ∧
      (stand.Service.UpdateCurrent s ctx input).2 = { s with stands := (s.stands.map
        (fun st => if st.UserId = userId
          then stand.Repository.assign st input price stock else st)) } := by
  unfold stand.Service.UpdateCurrent
  repeat' split
  all_goals first | (left; rfl) | skip
  obtain ⟨price, stock, h1, rfl⟩ := stand_UpdateByUserId_some ‹_›
  exact Or.inr ⟨_, price, stock, h1, rfl⟩

theorem kermesse_Create_store (s : Store) (ctx : Ctx) (input : Input) :
    (kermesse.Service.Create s ctx input).2 = s ∨
    ∃ row : Kermesse, ctx.UserID = some row.UserId ∧
      row.Status = KermesseStatusStarted ∧
      row.Id = nextId (s.kermesses.map (fun k => k.Id)) ∧
      (kermesse.Service.Create s ctx input).2 = { s with kermesses := s.kermesses ++ [row] } := by
  unfold kermesse.Service.Create
  repeat' split
  all_goals first | (left; rfl) | skip
  obtain ⟨row, rfl, h1, h2, h3⟩ := kermesse_Create_some ‹_›
  rw [Index_Assign_eq] at h3
  cases h3
  exact Or.inr ⟨row, ‹_›, h1, h2, rfl⟩

theorem kermesse_Update_store (s : Store) (ctx : Ctx) (id : Int) (input : Input) :
    (kermesse.Service.Update s ctx id input).2 = s ∨
    (kermesse.Service.Update s ctx id input).2 = kermesse.Repository.Update s id input := by
  unfold kermesse.Service.Update
  repeat' split
  all_goals first | (left; rfl) | (right; rfl)

theorem kermesse_End_store (s : Store) (ctx : Ctx) (id : Int) :
    (kermesse.Service.End s ctx id).2 = s ∨
    (kermesse.Repository.CanEnd s id = true ∧
      (kermesse.Service.End s ctx id).2 = kermesse.Repository.End s id) := by
  unfold kermesse.Service.End
  repeat' split
  all_goals first | (left; rfl) | skip
  rename_i hcan _ _ _ _
  exact Or.inr ⟨by simpa using hcan, rfl⟩

theorem kermesse_AddUser_store (s : Store) (ctx : Ctx) (input : Input) :
    (kermesse.Service.AddUser s ctx input).2 = s ∨
    ∃ rows, (kermesse.Service.AddUser s ctx input).2
      = { s with kermessesUsers := s.kermessesUsers ++ rows } := by
  unfold kermesse.Service.AddUser
  repeat' split
  all_goals first | (left; rfl) | skip
  · obtain ⟨k, u, -, -, rfl⟩ := kermesse_AddUser_some ‹_›
    exact Or.inr ⟨_, rfl⟩
  · obtain ⟨k, u, -, -, rfl⟩ := kermesse_AddUser_some ‹kermesse.Repository.AddUser s input = _›
    exact Or.inr ⟨_, rfl⟩
  · obtain ⟨k, u, -, -, rfl⟩ := kermesse_AddUser_some ‹kermesse.Repository.AddUser s input = _›
    obtain ⟨k2, u2, -, -, rfl⟩ := kermesse_AddUser_some ‹_›
    exact Or.inr ⟨[(k, u), (k2, u2)], by simp⟩

theorem kermesse_AddStand_store (s : Store) (ctx : Ctx) (input : Input) :
    (kermesse.Service.AddStand s ctx input).2 = s ∨
    ∃ rows, (kermesse.Service.AddStand s ctx input).2
      = { s with kermessesStands := s.kermessesStands ++ rows } := by
  unfold kermesse.Service.AddStand
  repeat' split
  all_goals first | (left; rfl) | skip
  obtain ⟨k, u, -, -, rfl⟩ := kermesse_AddStand_some ‹_›
  exact Or.inr ⟨_, rfl⟩

theorem tombola_Create_store (s : Store) (ctx : Ctx) (input : Input) :
    (tombola.Service.Create s ctx input).2 = s ∨
    ∃ (row : Tombola) (k : Kermesse),
      kermesse.Repository.FindById s row.KermesseId = some k ∧
      k.Status ≠ KermesseStatusEnded ∧ row.Status = TombolaStatusStarted ∧
      row.Id = nextId (s.tombolas.map (fun t => t.Id)) ∧
      (tombola.Service.Create s ctx input).2 = { s with tombolas := s.tombolas ++ [row] } := by
  unfold tombola.Service.Create
  repeat' split
  all_goals first | (left; rfl) | skip
  obtain ⟨row, rfl, h1, h2, h3⟩ := tombola_Create_some ‹_›
  have h4 := GetIntFromMap_ok ‹_›
  rw [h3] at h4
  cases h4
  exact Or.inr ⟨row, _, ‹_›, ‹_›, h1, h2, rfl⟩

theorem tombola_Update_store (s : Store) (ctx : Ctx) (id : Int) (input : Input) :
    (tombola.Service.Update s ctx id input).2 = s ∨
    ∃ price, (tombola.Service.Update s ctx id input).2 = { s with tombolas := (s.tombolas.map
      (fun t => if t.Id = id then
        { t with Name := utils.Index input "name", Price := price,
                 Gift := utils.Index input "gift" } else t)) } := by
  unfold tombola.Service.Update
  repeat' split
  all_goals first | (left; rfl) | skip
  obtain ⟨price, rfl⟩ := tombola_Update_some ‹_›
  exact Or.inr ⟨price, rfl⟩

theorem tombola_Finish_store (s : Store) (ctx : Ctx) (id : Int) (r : Nat) :
    (tombola.Service.Finish s ctx id r).2 = s ∨
    (tombola.Service.Finish s ctx id r).2 = tombola.Repository.SetWinner s id r := by
  unfold tombola.Service.Finish
  repeat' split
  all_goals first | (left; rfl) | (right; rfl)

theorem ticket_Create_store (s : Store) (ctx : Ctx) (input : Input) :
    (ticket.Service.Create s ctx input).2 = s ∨
    ∃ (userId : Int) (u : User) (t : Tombola) (row : Ticket),
      user.Repository.FindById s userId = some u ∧ t.Price ≤ u.Credit ∧
      row.IsWinner = false ∧
      (ticket.Service.Create s ctx input).2
        = { user.Repository.UpdateCredit s userId (-t.Price) with
            tickets := s.tickets ++ [row] } := by
  unfold ticket.Service.Create
  repeat' first | split | dsimp only
  all_goals first | (left; rfl) | skip
  · exfalso
    rename_i hnone
    have h4 := GetIntFromMap_ok ‹_›
    unfold ticket.Repository.Create at hnone
    rw [Index_Assign_eq, Index_Assign_ne _ _ _ _ (by decide), h4] at hnone
    simp at hnone
  · obtain ⟨row, rfl, h1, -, -, -⟩ := ticket_Create_some ‹_›
    refine Or.inr ⟨_, _, _, row, ‹user.Repository.FindById s _ = some _›, ?_, h1, rfl⟩
    omega

theorem interaction_Create_store (s : Store) (ctx : Ctx) (input : Input) :
    (interaction.Service.Create s ctx input).2 = s ∨
    ∃ standId st userId u q,
      utils.GetIntFromMap input "stand_id" = Except.ok standId ∧
      stand.Repository.FindById s standId = some st ∧
      user.Repository.FindById s userId = some u ∧
      interaction.Service.quantity st input = Except.ok q ∧
      ¬ (st.Typ = InteractionTypeConsumption ∧ st.Stock < q) ∧
      ¬ (u.Credit < interaction.Service.totalPrice st q) ∧
      (interaction.Service.Create s ctx input).2 = settled s input standId st u userId q := by
  cases h : interaction.Service.Create s ctx input with
  | mk res s' =>
    by_cases hres : res = Result.ok
    · subst hres
      obtain ⟨standId, st, userId, u, q, h1, h2, -, h4, -, h6, h7, h8, h9⟩ :=
        interaction_Create_ok h
      exact Or.inr ⟨standId, st, userId, u, q, h1, h2, h4, h6, h7, h8, h9⟩
    · left
      unfold interaction.Service.Create at h
      split at h
      · cases h; rfl
      · split at h
        · cases h; rfl
        · split at h
          · cases h; rfl
          · split at h
            · cases h; rfl
            · split at h
              · cases h; rfl
              · split at h
                · cases h; rfl
                · split at h
                  · cases h; rfl
                  · split at h
                    · cases h; rfl
                    · cases h
                      exact absurd rfl hres

theorem interaction_Update_store (s : Store) (ctx : Ctx) (id : Int) (input : Input) :
    (interaction.Service.Update s ctx id input).2 = s ∨
    (interaction.Service.Update s ctx id input).2
      = interaction.Repository.Update s id
          [("status", Val.str InteractionStatusEnded), ("point", utils.Index input "point")] := by
  unfold interaction.Service.Update
  repeat' split
  all_goals first | (left; rfl) | (right; rfl)

/-! ## Keys and non-negativity -/

theorem le_foldr_max (ids : List Int) : ∀ x ∈ ids, x ≤ ids.foldr max 0 := by
  induction ids with
  | nil => intro x hx; cases hx
  | cons a l ih =>
    intro x hx
    simp only [List.foldr_cons]
    rcases List.mem_cons.mp hx with h | h
    · subst h; exact le_max_left _ _
    · exact le_trans (ih x h) (le_max_right _ _)

theorem nextId_not_mem (ids : List Int) : nextId ids ∉ ids := by
  intro h
  have := le_foldr_max ids _ h
  unfold nextId at this
  omega

theorem nodup_append_fresh {α : Type} (f : α → Int) (l : List α) (row : α)
    (hn : (l.map f).Nodup) (hrow : f row = nextId (l.map f)) :
    ((l ++ [row]).map f).Nodup := by
  rw [List.map_append, List.nodup_append]
  refine ⟨hn, by simp, ?_⟩
  intro x hx hx'
  simp only [List.map_cons, List.map_nil, List.mem_singleton] at hx'
  subst hx'
  rw [hrow] at hx
  exact nextId_not_mem _ hx

theorem eq_of_find_nodup {α : Type} (f : α → Int) {l : List α} {x : Int} {p u : α}
    (hn : (l.map f).Nodup) (hf : l.find? (fun a => decide (f a = x)) = some p)
    (hu : u ∈ l) (hx : f u = x) : u = p := by
  have hp := List.mem_of_find?_eq_some hf
  have hpx : f p = x := by simpa using List.find?_some hf
  exact List.inj_on_of_nodup_map hn hu hp (hx.trans hpx.symm)

theorem SetWinner_frame (s : Store) (id : Int) (r : Nat) :
    (tombola.Repository.SetWinner s id r).users = s.users ∧
    (tombola.Repository.SetWinner s id r).stands = s.stands ∧
    (tombola.Repository.SetWinner s id r).kermesses = s.kermesses ∧
    (tombola.Repository.SetWinner s id r).tombolas = s.tombolas.map
      (fun t => if t.Id = id then { t with Status := TombolaStatusEnded } else t) := by
  unfold tombola.Repository.SetWinner
  dsimp only
  split <;> exact ⟨rfl, rfl, rfl, rfl⟩

theorem step_lifecycle (s : Store) (op : Op) : Lifecycle s (step s op).2 := by
  unfold Lifecycle
  cases op with
  | userUpdate env ctx id input =>
    rcases user_Update_store env s ctx id input with h | ⟨p, h⟩ <;>
      (simp only [step]; rw [h]) <;> exact Or.inl ⟨rfl, rfl⟩
  | userInvite env ctx input =>
    rcases user_Invite_store env s ctx input with h | ⟨row, userId, -, -, -, -, -, h⟩ <;>
      (simp only [step]; rw [h]) <;> exact Or.inl ⟨rfl, rfl⟩
  | userUpdateCredit userId credit =>
    rcases user_UpdateCredit_store s userId credit with h | h <;>
      (simp only [step]; rw [h]) <;> exact Or.inl ⟨rfl, rfl⟩
  | userPay ctx input =>
    rcases user_Pay_store s ctx input with h | ⟨_, _, _, _, -, -, -, h⟩ <;>
      (simp only [step]; rw [h]) <;> exact Or.inl ⟨rfl, rfl⟩
  | userSignUp env input =>
    rcases user_SignUp_store env s input with h | ⟨row, -, -, -, -, h⟩ <;>
      (simp only [step]; rw [h]) <;> exact Or.inl ⟨rfl, rfl⟩
  | standCreate ctx input =>
    rcases stand_Create_store s ctx input with h | ⟨row, -, -, -, h⟩ <;>
      (simp only [step]; rw [h]) <;> exact Or.inl ⟨rfl, rfl⟩
  | standUpdate ctx id input =>
    rcases stand_Update_store s ctx id input with h | ⟨_, _, -, h⟩ <;>
      (simp only [step]; rw [h]) <;> exact Or.inl ⟨rfl, rfl⟩
  | standUpdateCurrent ctx input =>
    rcases stand_UpdateCurrent_store s ctx input with h | ⟨_, _, _, -, h⟩ <;>
      (simp only [step]; rw [h]) <;> exact Or.inl ⟨rfl, rfl⟩
  | kermesseCreate ctx input =>
    rcases kermesse_Create_store s ctx input with h | ⟨row, -, h1, -, h⟩
    · simp only [step]; rw [h]; exact Or.inl ⟨rfl, rfl⟩
    · simp only [step]; rw [h]; exact Or.inr (Or.inl ⟨rfl, row, h1, rfl⟩)
  | kermesseUpdate ctx id input =>
    rcases kermesse_Update_store s ctx id input with h | h
    · simp only [step]; rw [h]; exact Or.inl ⟨rfl, rfl⟩
    · simp only [step]; rw [h]; exact Or.inr (Or.inr (Or.inl ⟨rfl, id, input, rfl⟩))
  | kermesseEnd ctx id =>
    rcases kermesse_End_store s ctx id with h | ⟨h1, h⟩
    · simp only [step]; rw [h]; exact Or.inl ⟨rfl, rfl⟩
    · simp only [step]; rw [h]; exact Or.inr (Or.inr (Or.inr (Or.inl ⟨rfl, id, h1, rfl⟩)))
  | kermesseAddUser ctx input =>
    rcases kermesse_AddUser_store s ctx input with h | ⟨rows, h⟩ <;>
      (simp only [step]; rw [h]) <;> exact Or.inl ⟨rfl, rfl⟩
  | kermesseAddStand ctx input =>
    rcases kermesse_AddStand_store s ctx input with h | ⟨rows, h⟩ <;>
      (simp only [step]; rw [h]) <;> exact Or.inl ⟨rfl, rfl⟩
  | tombolaCreate ctx input =>
    rcases tombola_Create_store s ctx input with h | ⟨row, k, h1, h2, -, -, h⟩
    · simp only [step]; rw [h]; exact Or.inl ⟨rfl, rfl⟩
    · simp only [step]; rw [h]
      exact Or.inr (Or.inr (Or.inr (Or.inr (Or.inl ⟨rfl, row, k, h1, h2, rfl⟩))))
  | tombolaUpdate ctx id input =>
    rcases tombola_Update_store s ctx id input with h | ⟨price, h⟩
    · simp only [step]; rw [h]; exact Or.inl ⟨rfl, rfl⟩
    · simp only [step]; rw [h]
      exact Or.inr (Or.inr (Or.inr (Or.inr (Or.inr (Or.inl ⟨rfl, id, price, input, rfl⟩)))))
  | tombolaFinish ctx id r =>
    rcases tombola_Finish_store s ctx id r with h | h
    · simp only [step]; rw [h]; exact Or.inl ⟨rfl, rfl⟩
    · simp only [step]; rw [h]
      obtain ⟨-, -, hk, ht⟩ := SetWinner_frame s id r
      exact Or.inr (Or.inr (Or.inr (Or.inr (Or.inr (Or.inr ⟨hk, id, ht⟩)))))
  | ticketCreate ctx input =>
    rcases ticket_Create_store s ctx input with h | ⟨_, _, _, _, -, -, -, h⟩ <;>
      (simp only [step]; rw [h]) <;> exact Or.inl ⟨rfl, rfl⟩
  | interactionCreate ctx input =>
    rcases interaction_Create_store s ctx input with
      h | ⟨standId, st, userId, u, q, -, -, -, -, -, -, h⟩
    · simp only [step]; rw [h]; exact Or.inl ⟨rfl, rfl⟩
    · simp only [step]; rw [h]
      refine Or.inl ⟨?_, ?_⟩ <;>
        (unfold settled
         simp only [interaction.Repository.Create, user.Repository.UpdateCredit]
         split <;> rfl)
  | interactionUpdate ctx id input =>
    rcases interaction_Update_store s ctx id input with h | h <;>
      (simp only [step]; rw [h]) <;> exact Or.inl ⟨rfl, rfl⟩

theorem find_kermesse_map (l : List Kermesse) (g : Kermesse → Kermesse)
    (hg : ∀ k, (g k).Id = k.Id) (x : Int) :
    (l.map g).find? (fun k => decide (k.Id = x))
      = (l.find? (fun k => decide (k.Id = x))).map g := by
  rw [List.find?_map]
  congr 2
  funext k
  simp only [Function.comp, hg]

theorem find_tombola_map (l : List Tombola) (g : Tombola → Tombola)
    (hg : ∀ t, (g t).Id = t.Id) (x : Int) :
    (l.map g).find? (fun t => decide (t.Id = x))
      = (l.find? (fun t => decide (t.Id = x))).map g := by
  rw [List.find?_map]
  congr 2
  funext t
  simp only [Function.comp, hg]

theorem find_append_some {α : Type} (p : α → Bool) (l : List α) (row a : α)
    (h : l.find? p = some a) : (l ++ [row]).find? p = some a := by
  rw [List.find?_append, h]
  rfl

/-- The status of an existing kermesse after one call is its status before
or ENDED. -/
theorem step_kermesse_status (s : Store) (op : Op) (id : Int) (k : Kermesse)
    (hk : kermesse.Repository.FindById s id = some k) :
    ∃ k', kermesse.Repository.FindById (step s op).2 id = some k' ∧
      (k'.Status = k.Status ∨ k'.Status = KermesseStatusEnded) := by
  unfold kermesse.Repository.FindById at hk ⊢
  rcases step_lifecycle s op with h | ⟨-, row, -, h⟩ | ⟨-, id2, input, h⟩ | ⟨-, id2, -, h⟩ |
    ⟨h, -⟩ | ⟨h, -⟩ | ⟨h, -⟩
  · rw [h.1]; exact ⟨k, hk, Or.inl rfl⟩
  · rw [h]; exact ⟨k, find_append_some _ _ _ _ hk, Or.inl rfl⟩
  · rw [h]
    simp only [kermesse.Repository.Update]
    rw [find_kermesse_map _ _ (by intro k; split <;> rfl), hk]
    refine ⟨_, rfl, Or.inl ?_⟩
    dsimp only
    split <;> rfl
  · rw [h]
    simp only [kermesse.Repository.End]
    rw [find_kermesse_map _ _ (by intro k; split <;> rfl), hk]
    refine ⟨_, rfl, ?_⟩
    dsimp only
    split
    · exact Or.inr rfl
    · exact Or.inl rfl
  · rw [h]; exact ⟨k, hk, Or.inl rfl⟩
  · rw [h]; exact ⟨k, hk, Or.inl rfl⟩
  · rw [h]; exact ⟨k, hk, Or.inl rfl⟩

/-! ## Ended kermesses -/

/-- C6. Kermesse status is monotonic: for every store, every operation of the
service surface and every input, an existing kermesse still exists after the
operation; if its status was ENDED it is ENDED, and if its status is STARTED
afterwards it was STARTED before (no operation writes STARTED to an existing
kermesse). -/
theorem C6_status_monotonic (s : Store) (op : Op) (id : Int) (k : Kermesse)
    (hk : kermesse.Repository.FindById s id = some k) :
    ∃ k', kermesse.Repository.FindById (step s op).2 id = some k' ∧
      (k.Status = KermesseStatusEnded → k'.Status = KermesseStatusEnded) ∧
      (k'.Status = KermesseStatusStarted → k.Status = KermesseStatusStarted) := by
  obtain ⟨k', h1, h2⟩ := step_kermesse_status s op id k hk
  refine ⟨k', h1, ?_, ?_⟩
  · intro he
    rcases h2 with h2 | h2
    · rw [h2, he]
    · exact h2
  · intro hs
    rcases h2 with h2 | h2
    · rw [← h2, hs]
    · rw [h2] at hs
      exact absurd hs (by decide)

/-- Witness of C6: the organizer tries to rename the ended kermesse. -/
theorem C6_status_monotonic_witness :
    ∃ k', kermesse.Repository.FindById
        (step closedFest (Op.kermesseUpdate (asUser 3 UserRoleOrganizer) 1
          [("name", Val.str "again")])).2 1 = some k' ∧
      ((fest KermesseStatusEnded).Status = KermesseStatusEnded →
        k'.Status = KermesseStatusEnded) ∧
      (k'.Status = KermesseStatusStarted →
        (fest KermesseStatusEnded).Status = KermesseStatusStarted) :=
  C6_status_monotonic closedFest
    (Op.kermesseUpdate (asUser 3 UserRoleOrganizer) 1 [("name", Val.str "again")]) 1
    (fest KermesseStatusEnded) (by decide)

/-- C7. Kermesse Update, End, AddUser and AddStand on an existing kermesse
whose status is ENDED each return BadRequest, for every caller and every
payload, and leave the whole store unchanged (so the kermesse row, the
membership rows and the stand-association rows). -/
theorem C7_ended_kermesse_rejects (s : Store) (ctx : Ctx) (id : Int) (k : Kermesse)
    (hk : kermesse.Repository.FindById s id = some k)
    (he : k.Status = KermesseStatusEnded) :
    (∀ input, kermesse.Service.Update s ctx id input
      = (Result.error { Key := ErrorKey.BadRequest, Err := "kermesse is already ended" }, s)) ∧
    kermesse.Service.End s ctx id
      = (Result.error { Key := ErrorKey.BadRequest, Err := "kermesse is already ended" }, s) ∧
    (∀ input, utils.Index input "kermesse_id" = Val.int id →
      kermesse.Service.AddUser s ctx input
        = (Result.error { Key := ErrorKey.BadRequest, Err := "kermesse is already ended" }, s)) ∧
    (∀ input, utils.Index input "kermesse_id" = Val.int id →
      kermesse.Service.AddStand s ctx input
        = (Result.error { Key := ErrorKey.BadRequest, Err := "kermesse is already ended" }, s)) := by
  refine ⟨?_, ?_, ?_, ?_⟩
  · intro input
    simp only [kermesse.Service.Update, hk, he, if_true, fail]
  · simp only [kermesse.Service.End, hk, he, if_true, fail]
  · intro input hi
    simp only [kermesse.Service.AddUser, hi, hk, he, if_true, fail]
  · intro input hi
    simp only [kermesse.Service.AddStand, hi, hk, he, if_true, fail]

/-- Witness of C7: the ended kermesse of the fest. -/
theorem C7_ended_kermesse_rejects_witness :
    (∀ input, kermesse.Service.Update closedFest (asUser 3 UserRoleOrganizer) 1 input
      = (Result.error { Key := ErrorKey.BadRequest, Err := "kermesse is already ended" },
          closedFest)) ∧
    kermesse.Service.End closedFest (asUser 3 UserRoleOrganizer) 1
      = (Result.error { Key := ErrorKey.BadRequest, Err := "kermesse is already ended" },
          closedFest) ∧
    (∀ input, utils.Index input "kermesse_id" = Val.int 1 →
      kermesse.Service.AddUser closedFest (asUser 3 UserRoleOrganizer) input
        = (Result.error { Key := ErrorKey.BadRequest, Err := "kermesse is already ended" },
            closedFest)) ∧
    (∀ input, utils.Index input "kermesse_id" = Val.int 1 →
      kermesse.Service.AddStand closedFest (asUser 3 UserRoleOrganizer) input
        = (Result.error { Key := ErrorKey.BadRequest, Err := "kermesse is already ended" },
            closedFest)) :=
  C7_ended_kermesse_rejects closedFest (asUser 3 UserRoleOrganizer) 1
    (fest KermesseStatusEnded) (by decide) (by decide)

/-- C8. Tombola Create with the kermesse id of an ENDED kermesse, and tombola
Update and Finish on a tombola whose kermesse is ENDED, each return
BadRequest, for every caller and payload, and leave the whole store unchanged
(so all tombola rows and all ticket rows). -/
theorem C8_ended_kermesse_tombola (s : Store) (ctx : Ctx) (k : Kermesse)
    (he : k.Status = KermesseStatusEnded) :
    (∀ input kermesseId, utils.GetIntFromMap input "kermesse_id" = Except.ok kermesseId →
      kermesse.Repository.FindById s kermesseId = some k →
      tombola.Service.Create s ctx input
        = (Result.error { Key := ErrorKey.BadRequest, Err := "kermesse is ended" }, s)) ∧
    (∀ id t input, tombola.Repository.FindById s id = some t →
      kermesse.Repository.FindById s t.KermesseId = some k →
      tombola.Service.Update s ctx id input
        = (Result.error { Key := ErrorKey.BadRequest, Err := "kermesse is ended" }, s)) ∧
    (∀ id t r, tombola.Repository.FindById s id = some t →
      kermesse.Repository.FindById s t.KermesseId = some k →
      tombola.Service.Finish s ctx id r
        = (Result.error { Key := ErrorKey.BadRequest, Err := "kermesse is ended" }, s)) := by
  refine ⟨?_, ?_, ?_⟩
  · intro input kermesseId h1 h2
    simp only [tombola.Service.Create, h1, h2, he, if_true, fail]
  · intro id t input h1 h2
    simp only [tombola.Service.Update, h1, h2, he, if_true, fail]
  · intro id t r h1 h2
    simp only [tombola.Service.Finish, h1, h2, he, if_true, fail]

/-- Witness of C8: the ended kermesse of the fest and its tombola. -/
theorem C8_ended_kermesse_tombola_witness :
    tombola.Service.Create closedFest (asUser 3 UserRoleOrganizer)
        [("kermesse_id", Val.int 1), ("price", Val.int 1)]
      = (Result.error { Key := ErrorKey.BadRequest, Err := "kermesse is ended" }, closedFest) ∧
    tombola.Service.Update closedFest (asUser 3 UserRoleOrganizer) 1 [("price", Val.int 1)]
      = (Result.error { Key := ErrorKey.BadRequest, Err := "kermesse is ended" }, closedFest) ∧
    tombola.Service.Finish closedFest (asUser 3 UserRoleOrganizer) 1 0
      = (Result.error { Key := ErrorKey.BadRequest, Err := "kermesse is ended" }, closedFest) :=
  ⟨(C8_ended_kermesse_tombola closedFest (asUser 3 UserRoleOrganizer)
      (fest KermesseStatusEnded) (by decide)).1 _ 1 rfl (by decide),
   (C8_ended_kermesse_tombola closedFest (asUser 3 UserRoleOrganizer)
      (fest KermesseStatusEnded) (by decide)).2.1 1 (raffle TombolaStatusEnded) _
      (by decide) (by decide),
   (C8_ended_kermesse_tombola closedFest (asUser 3 UserRoleOrganizer)
      (fest KermesseStatusEnded) (by decide)).2.2 1 (raffle TombolaStatusEnded) 0
      (by decide) (by decide)⟩

theorem CanEnd_iff (s : Store) (id : Int) :
    kermesse.Repository.CanEnd s id = true ↔
      ∀ t ∈ s.tombolas, ¬ (t.KermesseId = id ∧ t.Status = TombolaStatusStarted) := by
  unfold kermesse.Repository.CanEnd
  simp only [Bool.not_eq_true', List.any_eq_false, Bool.and_eq_true, decide_eq_true_eq]

theorem find_kermesse_id {l : List Kermesse} {x : Int} {k : Kermesse}
    (h : l.find? (fun k => decide (k.Id = x)) = some k) : k.Id = x := by
  have := List.find?_some h
  simpa using this

theorem find_tombola_id {l : List Tombola} {x : Int} {t : Tombola}
    (h : l.find? (fun t => decide (t.Id = x)) = some t) : t.Id = x := by
  have := List.find?_some h
  simpa using this

/-- One call keeps ended kermesses free of started tombolas. -/
theorem closed_step (s : Store) (op : Op) (hc : Closed s) : Closed (step s op).2 := by
  unfold Closed kermesse.Repository.FindById at hc ⊢
  rcases step_lifecycle s op with ⟨h1, h2⟩ | ⟨h2, row, hr, h1⟩ | ⟨h2, id, input, h1⟩ |
    ⟨h2, id, hcan, h1⟩ | ⟨h1, row, k0, hk0, hne, h2⟩ | ⟨h1, id, price, input, h2⟩ |
    ⟨h1, id, h2⟩
  · rw [h1, h2]; exact hc
  · rw [h1, h2]
    intro t ht k hk he
    rw [List.find?_append] at hk
    cases hf : s.kermesses.find? (fun k => decide (k.Id = t.KermesseId)) with
    | some k1 =>
      rw [hf] at hk
      cases hk
      exact hc t ht k hf he
    | none =>
      rw [hf] at hk
      simp only [Option.or, List.find?_cons, List.find?_nil] at hk
      split at hk
      · cases hk
        rw [hr] at he
        exact absurd he (by decide)
      · cases hk
  · rw [h1, h2]
    intro t ht k hk he
    simp only [kermesse.Repository.Update] at hk
    rw [find_kermesse_map _ _ (by intro k; split <;> rfl)] at hk
    cases hf : s.kermesses.find? (fun k => decide (k.Id = t.KermesseId)) with
    | none => rw [hf] at hk; cases hk
    | some k1 =>
      rw [hf] at hk
      simp only [Option.map_some', Option.some.injEq] at hk
      refine hc t ht k1 hf ?_
      rw [← he, ← hk]
      split <;> rfl
  · rw [h1, h2]
    intro t ht k hk he
    simp only [kermesse.Repository.End] at hk
    rw [find_kermesse_map _ _ (by intro k; split <;> rfl)] at hk
    cases hf : s.kermesses.find? (fun k => decide (k.Id = t.KermesseId)) with
    | none => rw [hf] at hk; cases hk
    | some k1 =>
      rw [hf] at hk
      simp only [Option.map_some', Option.some.injEq] at hk
      by_cases hid : k1.Id = id
      · intro hst
        have hkid : k1.Id = t.KermesseId := find_kermesse_id hf
        exact (CanEnd_iff s id).mp hcan t ht ⟨by rw [← hkid, hid], hst⟩
      · rw [if_neg hid] at hk
        subst hk
        exact hc t ht k1 hf he
  · rw [h1, h2]
    intro t ht k hk he
    rcases List.mem_append.mp ht with ht | ht
    · exact hc t ht k hk he
    · simp only [List.mem_singleton] at ht
      subst ht
      unfold kermesse.Repository.FindById at hk0
      rw [hk0] at hk
      cases hk
      exact absurd he hne
  · rw [h1, h2]
    intro t ht k hk he
    obtain ⟨t0, ht0, rfl⟩ := List.mem_map.mp ht
    by_cases hid : t0.Id = id
    · simp only [hid, if_true] at hk ⊢
      exact hc t0 ht0 k hk he
    · simp only [hid, if_false] at hk ⊢
      exact hc t0 ht0 k hk he
  · rw [h1, h2]
    intro t ht k hk he
    obtain ⟨t0, ht0, rfl⟩ := List.mem_map.mp ht
    by_cases hid : t0.Id = id
    · simp only [hid, if_true]
      decide
    · simp only [hid, if_false] at hk ⊢
      exact hc t0 ht0 k hk he

theorem reachable_closed (s : Store) (h : Reachable s) : Closed s := by
  induction h with
  | empty => intro t ht; cases ht
  | step s op _ ih => exact closed_step s op ih

theorem reachable_run (s : Store) (ops : List Op) (h : Reachable s) :
    Reachable (run s ops) := by
  induction ops generalizing s with
  | nil => exact h
  | cons op ops ih => exact ih _ (Reachable.step s op h)

/-! ## The end of a kermesse -/

theorem kermesse_End_eval {s : Store} {ctx : Ctx} {id : Int} {k : Kermesse}
    (hk : kermesse.Repository.FindById s id = some k)
    (hs : k.Status = KermesseStatusStarted) (hc : ctx.UserID = some k.UserId) :
    kermesse.Service.End s ctx id
      = if kermesse.Repository.CanEnd s id = true then (Result.ok, kermesse.Repository.End s id)
        else (Result.error { Key := ErrorKey.BadRequest, Err := "kermesse can\x27t be ended" }, s) := by
  have hne : ¬ k.Status = KermesseStatusEnded := by rw [hs]; decide
  simp only [kermesse.Service.End, hk, hne, hc, if_false, fail, ne_eq, not_true_eq_false]
  by_cases hcan : kermesse.Repository.CanEnd s id = true
  · simp [hcan]
  · simp [hcan]

theorem kermesse_End_status {s : Store} {id : Int} {k : Kermesse}
    (hk : kermesse.Repository.FindById s id = some k) :
    ∃ k', kermesse.Repository.FindById (kermesse.Repository.End s id) id = some k' ∧
      k'.Status = KermesseStatusEnded := by
  unfold kermesse.Repository.FindById at hk ⊢
  simp only [kermesse.Repository.End]
  rw [find_kermesse_map _ _ (by intro k; split <;> rfl), hk]
  refine ⟨_, rfl, ?_⟩
  have := find_kermesse_id hk
  simp [this]

/-- C10. End-of-kermesse guard: for a kermesse with status STARTED and its
organizer as caller, End returns BadRequest and leaves the store (so the
kermesse STARTED) if and only if some tombola of the kermesse has status
STARTED; otherwise End succeeds and the kermesse becomes ENDED.  In
particular, when the started tombolas of the kermesse are the one tombola
`tid`, End fails, Finish of that tombola by the organizer succeeds, and End
succeeds afterwards and the kermesse becomes ENDED. -/
theorem C10_end_guard (s : Store) (ctx : Ctx) (id : Int) (k : Kermesse)
    (hk : kermesse.Repository.FindById s id = some k)
    (hs : k.Status = KermesseStatusStarted) (hc : ctx.UserID = some k.UserId) :
    ((∃ msg, kermesse.Service.End s ctx id
        = (Result.error { Key := ErrorKey.BadRequest, Err := msg }, s)) ↔
      ∃ t ∈ s.tombolas, t.KermesseId = id ∧ t.Status = TombolaStatusStarted) ∧
    ((¬ ∃ t ∈ s.tombolas, t.KermesseId = id ∧ t.Status = TombolaStatusStarted) →
      kermesse.Service.End s ctx id = (Result.ok, kermesse.Repository.End s id) ∧
      ∃ k', kermesse.Repository.FindById (kermesse.Repository.End s id) id = some k' ∧
        k'.Status = KermesseStatusEnded) ∧
    (∀ tid t r, tombola.Repository.FindById s tid = some t → t.KermesseId = id →
      t.Status = TombolaStatusStarted →
      (∀ t' ∈ s.tombolas, t'.KermesseId = id → t'.Status = TombolaStatusStarted →
        t'.Id = tid) →
      (∃ msg, kermesse.Service.End s ctx id
        = (Result.error { Key := ErrorKey.BadRequest, Err := msg }, s)) ∧
      tombola.Service.Finish s ctx tid r = (Result.ok, tombola.Repository.SetWinner s tid r) ∧
      kermesse.Service.End (tombola.Repository.SetWinner s tid r) ctx id
        = (Result.ok, kermesse.Repository.End (tombola.Repository.SetWinner s tid r) id) ∧
      ∃ k', kermesse.Repository.FindById
          (kermesse.Repository.End (tombola.Repository.SetWinner s tid r) id) id = some k' ∧
        k'.Status = KermesseStatusEnded) := by
  have heval := kermesse_End_eval hk hs hc
  have hne : ¬ k.Status = KermesseStatusEnded := by rw [hs]; decide
  have hopen : (∃ t ∈ s.tombolas, t.KermesseId = id ∧ t.Status = TombolaStatusStarted) ↔
      ¬ kermesse.Repository.CanEnd s id = true := by
    rw [CanEnd_iff]
    push_neg
    rfl
  refine ⟨?_, ?_, ?_⟩
  · rw [hopen, heval]
    constructor
    · rintro ⟨msg, h⟩ hcan
      rw [if_pos hcan] at h
      cases h
    · intro hcan
      exact ⟨_, by rw [if_neg hcan]⟩
  · intro hno
    have hcan : kermesse.Repository.CanEnd s id = true := by
      by_contra hcan
      exact hno (hopen.mpr hcan)
    rw [heval, if_pos hcan]
    exact ⟨rfl, kermesse_End_status hk⟩
  · intro tid t r ht htk hts huniq
    have hmem : t ∈ s.tombolas := List.mem_of_find?_eq_some ht
    obtain ⟨-, -, hks, hts'⟩ := SetWinner_frame s tid r
    have hk' : kermesse.Repository.FindById (tombola.Repository.SetWinner s tid r) id
        = some k := by
      unfold kermesse.Repository.FindById at hk ⊢
      rw [hks]; exact hk
    have hcan' : kermesse.Repository.CanEnd (tombola.Repository.SetWinner s tid r) id = true := by
      rw [CanEnd_iff, hts']
      intro t1 ht1 ⟨h1, h2⟩
      obtain ⟨t0, ht0, rfl⟩ := List.mem_map.mp ht1
      by_cases hid : t0.Id = tid
      · simp only [hid, if_true] at h2
        exact absurd h2 (by decide)
      · simp only [hid, if_false] at h1 h2
        exact hid (huniq t0 ht0 h1 h2)
    refine ⟨?_, ?_, ?_, kermesse_End_status hk'⟩
    · have hcan : ¬ kermesse.Repository.CanEnd s id = true :=
        hopen.mp ⟨t, hmem, htk, hts⟩
      exact ⟨_, by rw [heval, if_neg hcan]⟩
    · have hkt : kermesse.Repository.FindById s t.KermesseId = some k := by rw [htk]; exact hk
      simp only [tombola.Service.Finish, ht, hkt, hne, hc, hts, if_false, ne_eq,
        not_true_eq_false]
    · rw [kermesse_End_eval hk' hs hc, if_pos hcan']

/-- Witness of C10, the scenario of the specification: the kermesse of the
fest has one started tombola; End fails, the tombola is finished, End
succeeds. -/
theorem C10_end_guard_witness :
    (∃ msg, kermesse.Service.End openFest (asUser 3 UserRoleOrganizer) 1
      = (Result.error { Key := ErrorKey.BadRequest, Err := msg }, openFest)) ∧
    tombola.Service.Finish openFest (asUser 3 UserRoleOrganizer) 1 0
      = (Result.ok, tombola.Repository.SetWinner openFest 1 0) ∧
    kermesse.Service.End (tombola.Repository.SetWinner openFest 1 0)
        (asUser 3 UserRoleOrganizer) 1
      = (Result.ok, kermesse.Repository.End (tombola.Repository.SetWinner openFest 1 0) 1) ∧
    ∃ k', kermesse.Repository.FindById
        (kermesse.Repository.End (tombola.Repository.SetWinner openFest 1 0) 1) 1 = some k' ∧
      k'.Status = KermesseStatusEnded :=
  (C10_end_guard openFest (asUser 3 UserRoleOrganizer) 1 (fest KermesseStatusStarted)
    (by decide) (by decide) (by decide)).2.2 1 (raffle TombolaStatusStarted) 0
    (by decide) (by decide) (by decide) (by decide)

/-! ## The draw -/

theorem SetWinner_tickets (s : Store) (id : Int) (r : Nat) :
    (tombola.Repository.SetWinner s id r).tickets
      = match tombola.Repository.drawn s id r with
        | none => s.tickets
        | some w => s.tickets.map (flag w id) := by
  unfold tombola.Repository.SetWinner
  dsimp only
  have hd : tombola.Repository.drawn
      { s with tombolas := (s.tombolas.map
        (fun t => if t.Id = id then { t with Status := TombolaStatusEnded } else t)) } id r
      = tombola.Repository.drawn s id r := rfl
  rw [hd]
  cases tombola.Repository.drawn s id r <;> rfl

theorem drawn_none (s : Store) (id : Int) (r : Nat) (h : ticketsOf s id = []) :
    tombola.Repository.drawn s id r = none := by
  unfold ticketsOf at h
  unfold tombola.Repository.drawn
  simp [h]

theorem drawn_some (s : Store) (id : Int) (r : Nat) (h : ticketsOf s id ≠ []) :
    ∃ c ∈ s.tickets, c.TombolaId = id ∧ tombola.Repository.drawn s id r = some c.Id := by
  unfold ticketsOf at h
  unfold tombola.Repository.drawn
  dsimp only
  have hlen : 0 < (s.tickets.filter (fun t => decide (t.TombolaId = id))).length :=
    List.length_pos.mpr h
  have hlt : r % (s.tickets.filter (fun t => decide (t.TombolaId = id))).length
      < (s.tickets.filter (fun t => decide (t.TombolaId = id))).length := Nat.mod_lt _ hlen
  obtain ⟨c, hc⟩ : ∃ c, (s.tickets.filter (fun t => decide (t.TombolaId = id))).get?
      (r % (s.tickets.filter (fun t => decide (t.TombolaId = id))).length) = some c :=
    ⟨_, List.get?_eq_get hlt⟩
  have hmem := List.get?_mem hc
  rw [List.mem_filter] at hmem
  refine ⟨c, hmem.1, by simpa using hmem.2, ?_⟩
  rw [hc]
  rfl

theorem flag_Id (w id : Int) (t : Ticket) : (flag w id t).Id = t.Id := by
  unfold flag; split <;> rfl

theorem flag_TombolaId (w id : Int) (t : Ticket) : (flag w id t).TombolaId = t.TombolaId := by
  unfold flag; split <;> rfl

theorem flag_other {w id : Int} {t : Ticket} (h : t.TombolaId ≠ id) : flag w id t = t := by
  unfold flag
  rw [if_neg (fun hh => h hh.2)]

theorem filter_map_fix {α : Type} (p : α → Bool) (f : α → α) (l : List α)
    (h : ∀ x ∈ l, p (f x) = p x ∧ (p x = true → f x = x)) :
    (l.map f).filter p = l.filter p := by
  induction l with
  | nil => rfl
  | cons a l ih =>
    have ha := h a (List.mem_cons_self _ _)
    have ih' := ih (fun x hx => h x (List.mem_cons_of_mem _ hx))
    simp only [List.map_cons, List.filter_cons, ha.1, ih']
    by_cases hp : p a = true
    · simp [hp, ha.2 hp]
    · simp [hp]

/-- The flags of the tickets of another tombola are not touched by the draw. -/
theorem winners_flag_other (l : List Ticket) (w id id' : Int) (h : id' ≠ id) :
    (l.map (flag w id)).filter (fun t => decide (t.TombolaId = id'))
      = l.filter (fun t => decide (t.TombolaId = id')) := by
  apply filter_map_fix
  intro x _
  constructor
  · rw [flag_TombolaId]
  · intro hx
    have hx' : x.TombolaId = id' := by simpa using hx
    exact flag_other (by rw [hx']; exact h)

/-- After the draw exactly one ticket of the tombola is a winner, when ticket
ids are keys and no ticket of the tombola was a winner. -/
theorem winners_flag_one (l : List Ticket) (w id : Int) (c : Ticket)
    (hn : (l.map (fun t => t.Id)).Nodup) (hc : c ∈ l) (hct : c.TombolaId = id) (hcw : c.Id = w)
    (hno : ∀ t ∈ l, t.TombolaId = id → t.IsWinner = false) :
    ((l.map (flag w id)).filter (fun t => decide (t.TombolaId = id) && t.IsWinner))
      = [{ c with IsWinner := true }] := by
  induction l with
  | nil => cases hc
  | cons a l ih =>
    rw [List.map_cons, List.nodup_cons] at hn
    have hno' : ∀ t ∈ l, t.TombolaId = id → t.IsWinner = false :=
      fun t ht => hno t (List.mem_cons_of_mem _ ht)
    rcases List.mem_cons.mp hc with hca | hcl
    · subst hca
      have hrest : (l.map (flag w id)).filter
          (fun t => decide (t.TombolaId = id) && t.IsWinner) = [] := by
        rw [List.filter_eq_nil_iff]
        intro t ht
        obtain ⟨t0, ht0, rfl⟩ := List.mem_map.mp ht
        have hne : t0.Id ≠ w := by
          intro he
          apply hn.1
          rw [hcw, ← he]
          exact List.mem_map.mpr ⟨t0, ht0, rfl⟩
        have : flag w id t0 = t0 := by
          unfold flag
          rw [if_neg (fun hh => hne hh.1)]
        rw [this]
        by_cases htt : t0.TombolaId = id
        · simp [htt, hno' t0 ht0 htt]
        · simp [htt]
      simp only [List.map_cons, List.filter_cons, hrest]
      have : flag w id c = { c with IsWinner := true } := by
        unfold flag
        rw [if_pos ⟨hcw, hct⟩]
      rw [this]
      simp [hct]
    · have hne : a.Id ≠ w := by
        intro he
        apply hn.1
        rw [he, ← hcw]
        exact List.mem_map.mpr ⟨c, hcl, rfl⟩
      have hfa : flag w id a = a := by
        unfold flag
        rw [if_neg (fun hh => hne hh.1)]
      have hpa : (decide (a.TombolaId = id) && a.IsWinner) = false := by
        by_cases htt : a.TombolaId = id
        · simp [htt, hno a (List.mem_cons_self _ _) htt]
        · simp [htt]
      simp only [List.map_cons, List.filter_cons, hfa, hpa]
      exact ih hn.2 hcl hno'

/-- What a successful Finish went through. -/
theorem tombola_Finish_ok {s s' : Store} {ctx : Ctx} {id : Int} {r : Nat}
    (h : tombola.Service.Finish s ctx id r = (Result.ok, s')) :
    ∃ t k, tombola.Repository.FindById s id = some t ∧
      kermesse.Repository.FindById s t.KermesseId = some k ∧
      k.Status ≠ KermesseStatusEnded ∧ ctx.UserID = some k.UserId ∧
      t.Status = TombolaStatusStarted ∧ s' = tombola.Repository.SetWinner s id r := by
  unfold tombola.Service.Finish at h
  split at h
  · simp [fail] at h
  · rename_i t ht
    split at h
    · simp [fail] at h
    · rename_i k hk
      split at h
      · simp [fail] at h
      · rename_i hne
        split at h
        · simp [fail] at h
        · rename_i userId hctx
          split at h
          · simp [fail] at h
          · rename_i howner
            split at h
            · simp [fail] at h
            · rename_i hst
              simp only [Prod.mk.injEq, true_and] at h
              refine ⟨t, k, ht, hk, hne, ?_, ?_, h.symm⟩
              · rw [hctx]; simp only [ne_eq, not_not] at howner; rw [howner]
              · simpa using hst

/-- A Finish that does not succeed writes nothing, and whether Finish succeeds
does not depend on the draw. -/
theorem tombola_Finish_fail (s : Store) (ctx : Ctx) (id : Int) (r : Nat) :
    ((tombola.Service.Finish s ctx id r).1 ≠ Result.ok →
      (tombola.Service.Finish s ctx id r).2 = s) ∧
    ∀ r2, (tombola.Service.Finish s ctx id r).1 = (tombola.Service.Finish s ctx id r2).1 := by
  unfold tombola.Service.Finish
  repeat' split
  all_goals first | exact ⟨fun _ => rfl, fun _ => rfl⟩ | exact ⟨fun h => absurd rfl h, fun _ => rfl⟩

theorem SetWinner_FindById {s : Store} {id : Int} {t : Tombola} (r : Nat)
    (ht : tombola.Repository.FindById s id = some t) :
    tombola.Repository.FindById (tombola.Repository.SetWinner s id r) id
      = some { t with Status := TombolaStatusEnded } := by
  obtain ⟨-, -, -, hts⟩ := SetWinner_frame s id r
  unfold tombola.Repository.FindById at ht ⊢
  rw [hts, find_tombola_map _ _ (by intro t; split <;> rfl), ht]
  have := find_tombola_id ht
  simp [this]

/-- Finish on a tombola that is not started never succeeds, whoever calls. -/
theorem tombola_Finish_not_started {s : Store} {id : Int} {t : Tombola} (ctx : Ctx) (r : Nat)
    (ht : tombola.Repository.FindById s id = some t)
    (hst : t.Status ≠ TombolaStatusStarted) :
    (tombola.Service.Finish s ctx id r).1 ≠ Result.ok := by
  unfold tombola.Service.Finish
  rw [ht]
  dsimp only
  repeat' split
  all_goals simp [fail]

/-- C11. Single winner after Finish: for a tombola none of whose tickets is a
winner (ticket ids being keys), a successful Finish leaves the tombola with
status ENDED; it has no winning ticket when it has no tickets, and otherwise
its winning tickets are exactly one ticket, a ticket of that tombola now
flagged; the tickets of every other tombola are unchanged, flags included. -/
theorem C11_single_winner (s s' : Store) (ctx : Ctx) (id : Int) (r : Nat)
    (hok : tombola.Service.Finish s ctx id r = (Result.ok, s'))
    (hkey : (s.tickets.map (fun t => t.Id)).Nodup)
    (hno : winners s id = []) :
    (∃ t, tombola.Repository.FindById s id = some t ∧ t.Status = TombolaStatusStarted ∧
      tombola.Repository.FindById s' id = some { t with Status := TombolaStatusEnded }) ∧
    (ticketsOf s id = [] → winners s' id = []) ∧
    (ticketsOf s id ≠ [] →
      ∃ c ∈ ticketsOf s id, winners s' id = [{ c with IsWinner := true }]) ∧
    (∀ id', id' ≠ id → ticketsOf s' id' = ticketsOf s id') := by
  obtain ⟨t, k, ht, -, -, -, hst, rfl⟩ := tombola_Finish_ok hok
  have hno' : ∀ x ∈ s.tickets, x.TombolaId = id → x.IsWinner = false := by
    intro x hx hxt
    unfold winners at hno
    rw [List.filter_eq_nil_iff] at hno
    have := hno x hx
    simpa [hxt] using this
  refine ⟨⟨t, ht, hst, SetWinner_FindById r ht⟩, ?_, ?_, ?_⟩
  · intro hnone
    unfold winners
    rw [SetWinner_tickets, drawn_none s id r hnone]
    exact hno
  · intro hsome
    obtain ⟨c, hc, hct, hd⟩ := drawn_some s id r hsome
    refine ⟨c, ?_, ?_⟩
    · unfold ticketsOf
      rw [List.mem_filter]
      exact ⟨hc, by simpa using hct⟩
    · unfold winners
      rw [SetWinner_tickets, hd]
      exact winners_flag_one s.tickets c.Id id c hkey hc hct rfl hno'
  · intro id' hne
    unfold ticketsOf
    rw [SetWinner_tickets]
    cases tombola.Repository.drawn s id r with
    | none => rfl
    | some w => exact winners_flag_other s.tickets w id id' hne

/-- Witness of C11, the scenario of the specification: a tombola with one
ticket sold, whose ticket becomes the winner. -/
theorem C11_single_winner_witness :
    (∃ t, tombola.Repository.FindById soldOne 1 = some t ∧ t.Status = TombolaStatusStarted ∧
      tombola.Repository.FindById drawnOne 1 = some { t with Status := TombolaStatusEnded }) ∧
    (ticketsOf soldOne 1 = [] → winners drawnOne 1 = []) ∧
    (ticketsOf soldOne 1 ≠ [] →
      ∃ c ∈ ticketsOf soldOne 1, winners drawnOne 1 = [{ c with IsWinner := true }]) ∧
    (∀ id', id' ≠ 1 → ticketsOf drawnOne id' = ticketsOf soldOne id') :=
  C11_single_winner soldOne drawnOne (asUser 3 UserRoleOrganizer) 1 0
    (by decide) (by decide) (by decide)

/-- C12. Finish is one-shot: Finish on a tombola whose status is ENDED, by the
organizer of its kermesse that has not ended, fails with BadRequest and leaves
the whole store unchanged (so every tombola status and every winner flag).
Hence the second of two consecutive Finish calls fails: after a first call
that succeeded, a second call by anyone does not succeed and by the same
caller returns BadRequest and writes nothing; and a second call by the same
caller never succeeds. -/
theorem C12_finish_one_shot (s : Store) (ctx : Ctx) (id : Int) (r : Nat) (t : Tombola)
    (k : Kermesse)
    (ht : tombola.Repository.FindById s id = some t)
    (hst : t.Status = TombolaStatusEnded)
    (hk : kermesse.Repository.FindById s t.KermesseId = some k)
    (hne : k.Status ≠ KermesseStatusEnded)
    (hc : ctx.UserID = some k.UserId) :
    tombola.Service.Finish s ctx id r
      = (Result.error { Key := ErrorKey.BadRequest, Err := "tombola is not started" }, s) ∧
    (∀ (s0 : Store) (c0 c1 : Ctx) (i : Int) (r1 r2 : Nat),
      (tombola.Service.Finish s0 c0 i r1).1 = Result.ok →
      (tombola.Service.Finish (tombola.Service.Finish s0 c0 i r1).2 c1 i r2).1 ≠ Result.ok ∧
      tombola.Service.Finish (tombola.Service.Finish s0 c0 i r1).2 c0 i r2
        = (Result.error { Key := ErrorKey.BadRequest, Err := "tombola is not started" },
            (tombola.Service.Finish s0 c0 i r1).2)) ∧
    (∀ (s0 : Store) (c0 : Ctx) (i : Int) (r1 r2 : Nat),
      (tombola.Service.Finish (tombola.Service.Finish s0 c0 i r1).2 c0 i r2).1 ≠ Result.ok) := by
  have hended : ∀ (s1 : Store) (c : Ctx) (i : Int) (q : Nat) (t1 : Tombola) (k1 : Kermesse),
      tombola.Repository.FindById s1 i = some t1 → t1.Status = TombolaStatusEnded →
      kermesse.Repository.FindById s1 t1.KermesseId = some k1 →
      k1.Status ≠ KermesseStatusEnded → c.UserID = some k1.UserId →
      tombola.Service.Finish s1 c i q
        = (Result.error { Key := ErrorKey.BadRequest, Err := "tombola is not started" }, s1) := by
    intro s1 c i q t1 k1 h1 h2 h3 h4 h5
    have h6 : t1.Status ≠ TombolaStatusStarted := by rw [h2]; decide
    simp only [tombola.Service.Finish, h1, h3, h4, h5, h6, if_false, if_true, ne_eq,
      not_true_eq_false, not_false_eq_true, fail]
  have hfirst : ∀ (s0 : Store) (c0 c1 : Ctx) (i : Int) (r1 r2 : Nat),
      (tombola.Service.Finish s0 c0 i r1).1 = Result.ok →
      (tombola.Service.Finish (tombola.Service.Finish s0 c0 i r1).2 c1 i r2).1 ≠ Result.ok ∧
      tombola.Service.Finish (tombola.Service.Finish s0 c0 i r1).2 c0 i r2
        = (Result.error { Key := ErrorKey.BadRequest, Err := "tombola is not started" },
            (tombola.Service.Finish s0 c0 i r1).2) := by
    intro s0 c0 c1 i r1 r2 hok
    have hpair : tombola.Service.Finish s0 c0 i r1
        = (Result.ok, (tombola.Service.Finish s0 c0 i r1).2) := by
      rw [← hok]
    obtain ⟨t0, k0, h1, h2, h3, h4, -, h6⟩ := tombola_Finish_ok hpair
    rw [h6]
    have hf := SetWinner_FindById r1 h1
    constructor
    · refine tombola_Finish_not_started c1 r2 hf ?_
      show TombolaStatusEnded ≠ TombolaStatusStarted
      decide
    · refine hended _ c0 i r2 _ k0 hf rfl ?_ h3 h4
      obtain ⟨-, -, hks, -⟩ := SetWinner_frame s0 i r1
      unfold kermesse.Repository.FindById at h2 ⊢
      rw [hks]; exact h2
  refine ⟨hended s ctx id r t k ht hst hk hne hc, hfirst, ?_⟩
  intro s0 c0 i r1 r2
  by_cases hok : (tombola.Service.Finish s0 c0 i r1).1 = Result.ok
  · exact (hfirst s0 c0 c0 i r1 r2 hok).1
  · rw [(tombola_Finish_fail s0 c0 i r1).1 hok, ← (tombola_Finish_fail s0 c0 i r1).2 r2]
    exact hok

/-- Witness of C12, the scenario of the specification: a second Finish of the
tombola drawn in the season. -/
theorem C12_finish_one_shot_witness :
    tombola.Service.Finish drawnOne (asUser 3 UserRoleOrganizer) 1 0
      = (Result.error { Key := ErrorKey.BadRequest, Err := "tombola is not started" },
          drawnOne) :=
  (C12_finish_one_shot drawnOne (asUser 3 UserRoleOrganizer) 1 0 (raffle TombolaStatusEnded)
    (fest KermesseStatusStarted) (by decide) (by decide) (by decide) (by decide)
    (by decide)).1

/-! ## The sale of a ticket -/

/-- The store in which a successful ticket Create ends: the debit of the
buyer, then the insert of the ticket. -/
theorem ticket_Create_ok {s s' : Store} {ctx : Ctx} {input : Input}
    (h : ticket.Service.Create s ctx input = (Result.ok, s')) :
    ∃ tombolaId t userId u,
      utils.GetIntFromMap input "tombola_id" = Except.ok tombolaId ∧
      tombola.Repository.FindById s tombolaId = some t ∧
      t.Status = TombolaStatusStarted ∧
      ctx.UserID = some userId ∧
      user.Repository.FindById s userId = some u ∧
      t.Price ≤ u.Credit ∧
      ticket.Repository.CanCreate s t.KermesseId userId = true ∧
      s' = { user.Repository.UpdateCredit s userId (-t.Price) with
             tickets := s.tickets ++
               [{ Id := nextId (s.tickets.map (fun t => t.Id)), UserId := userId,
                  TombolaId := tombolaId, IsWinner := false }] } := by
  unfold ticket.Service.Create at h
  split at h
  · simp [fail] at h
  · rename_i tombolaId hid
    split at h
    · simp [fail] at h
    · rename_i t ht
      split at h
      · simp [fail] at h
      · rename_i hst
        split at h
        · simp [fail] at h
        · rename_i userId hctx
          split at h
          · simp [fail] at h
          · rename_i u hu
            split at h
            · simp [fail] at h
            · rename_i hcredit
              split at h
              · simp [fail] at h
              · rename_i hcan
                dsimp only at h
                have hi := GetIntFromMap_ok hid
                unfold ticket.Repository.Create at h
                rw [Index_Assign_eq, Index_Assign_ne _ _ _ _ (by decide), hi] at h
                simp only [Prod.mk.injEq, true_and] at h
                refine ⟨tombolaId, t, userId, u, hid, ht, by simpa using hst, hctx, hu,
                  by omega, by simpa using hcan, h.symm⟩

theorem ticket_Create_fail (s : Store) (ctx : Ctx) (input : Input) :
    (ticket.Service.Create s ctx input).1 ≠ Result.ok →
    (ticket.Service.Create s ctx input).2 = s := by
  unfold ticket.Service.Create
  repeat' first | split | dsimp only
  all_goals first | (intro _; rfl) | skip
  · exfalso
    rename_i hnone
    have h4 := GetIntFromMap_ok ‹_›
    unfold ticket.Repository.Create at hnone
    rw [Index_Assign_eq, Index_Assign_ne _ _ _ _ (by decide), h4] at hnone
    simp at hnone
  · intro h
    exact absurd rfl h

/-- What a successful AddUser went through and wrote. -/
theorem kermesse_AddUser_ok {s s' : Store} {ctx : Ctx} {input : Input}
    (h : kermesse.Service.AddUser s ctx input = (Result.ok, s')) :
    ∃ kermesseId k childId child,
      utils.Index input "kermesse_id" = Val.int kermesseId ∧
      kermesse.Repository.FindById s kermesseId = some k ∧
      k.Status ≠ KermesseStatusEnded ∧ ctx.UserID = some k.UserId ∧
      utils.Index input "user_id" = Val.int childId ∧
      user.Repository.FindById s childId = some child ∧
      child.Role = UserRoleChild ∧
      s' = { s with kermessesUsers := s.kermessesUsers ++
              (match child.ParentId with
               | none => [(kermesseId, childId)]
               | some parentId => [(kermesseId, childId), (kermesseId, parentId)]) } := by
  unfold kermesse.Service.AddUser at h
  split at h
  · rename_i kermesseId hkid
    split at h
    · simp [fail] at h
    · rename_i k hk
      split at h
      · simp [fail] at h
      · rename_i hne
        split at h
        · simp [fail] at h
        · rename_i organizerId hctx
          split at h
          · simp [fail] at h
          · rename_i howner
            split at h
            · simp [fail] at h
            · rename_i childId hcid
              split at h
              · simp [fail] at h
              · rename_i child hchild
                split at h
                · simp [fail] at h
                · rename_i hrole
                  have hci := GetIntFromMap_ok hcid
                  have hown : k.UserId = organizerId := by simpa using howner
                  have hr : child.Role = UserRoleChild := by simpa using hrole
                  split at h
                  · simp [fail] at h
                  · rename_i s1 hs1
                    obtain ⟨k1, u1, e1, e2, rfl⟩ := kermesse_AddUser_some hs1
                    rw [hkid] at e1
                    rw [hci] at e2
                    cases e1
                    cases e2
                    split at h
                    · rename_i hpar
                      simp only [Prod.mk.injEq, true_and] at h
                      refine ⟨kermesseId, k, childId, child, hkid, hk, hne, ?_, hci, hchild,
                        hr, ?_⟩
                      · rw [hctx, hown]
                      · rw [hpar, ← h]
                    · rename_i parentId hpar
                      split at h
                      · simp [fail] at h
                      · rename_i s2 hs2
                        obtain ⟨k2, u2, e3, e4, rfl⟩ := kermesse_AddUser_some hs2
                        rw [Index_Assign_ne _ _ _ _ (by decide), hkid] at e3
                        rw [Index_Assign_eq] at e4
                        cases e3
                        cases e4
                        simp only [Prod.mk.injEq, true_and] at h
                        refine ⟨kermesseId, k, childId, child, hkid, hk, hne, ?_, hci,
                          hchild, hr, ?_⟩
                        · rw [hctx, hown]
                        · rw [hpar, ← h]
                          simp
  · simp at h

/-- C15. Cascade invite: a successful kermesse AddUser for a child whose
parent reference is set adds exactly two membership rows to that kermesse,
one for the child and one for its parent; for a child with no parent
reference it adds exactly one, for the child; the earlier membership rows are
kept as they are and nothing else of the store changes. -/
theorem C15_cascade_invite (s s' : Store) (ctx : Ctx) (input : Input) (kermesseId childId : Int)
    (child : User)
    (hok : kermesse.Service.AddUser s ctx input = (Result.ok, s'))
    (hkid : utils.Index input "kermesse_id" = Val.int kermesseId)
    (hcid : utils.Index input "user_id" = Val.int childId)
    (hchild : user.Repository.FindById s childId = some child) :
    child.Role = UserRoleChild ∧
    (∀ parentId, child.ParentId = some parentId →
      s' = { s with kermessesUsers := s.kermessesUsers ++
              [(kermesseId, childId), (kermesseId, parentId)] }) ∧
    (child.ParentId = none →
      s' = { s with kermessesUsers := s.kermessesUsers ++ [(kermesseId, childId)] }) := by
  obtain ⟨kid, k, cid, c, h1, -, -, -, h5, h6, h7, rfl⟩ := kermesse_AddUser_ok hok
  rw [hkid] at h1
  rw [hcid] at h5
  cases h1
  cases h5
  rw [hchild] at h6
  cases h6
  refine ⟨h7, ?_, ?_⟩
  · intro parentId hp
    rw [hp]
  · intro hp
    rw [hp]

/-- Witness of C15: the child of the season, whose parent is user 1, is added
to the kermesse: two rows. -/
theorem C15_cascade_invite_witness :
    (kid 5).Role = UserRoleChild ∧
    (∀ parentId, (kid 5).ParentId = some parentId →
      seasonOf 5 5 [(1, 2), (1, 1)] [] []
        = { seasonOf 5 5 [] [] [] with
            kermessesUsers := (seasonOf 5 5 [] [] []).kermessesUsers ++
              [(1, 2), (1, parentId)] }) ∧
    ((kid 5).ParentId = none →
      seasonOf 5 5 [(1, 2), (1, 1)] [] []
        = { seasonOf 5 5 [] [] [] with
            kermessesUsers := (seasonOf 5 5 [] [] []).kermessesUsers ++ [(1, 2)] }) :=
  C15_cascade_invite (seasonOf 5 5 [] [] []) (seasonOf 5 5 [(1, 2), (1, 1)] [] [])
    (asUser 3 UserRoleOrganizer) [("kermesse_id", Val.int 1), ("user_id", Val.int 2)] 1 2
    (kid 5) (by decide) (by decide) (by decide) (by decide)

/-! ## The settlement of an activity -/

theorem interaction_Update_write (s : Store) (id : Int) (point : Val) :
    interaction.Repository.Update s id
        [("status", Val.str InteractionStatusEnded), ("point", point)]
      = { s with interactions := (s.interactions.map (settle id point)) } := by
  unfold interaction.Repository.Update
  congr 1

/-- C18. Guards and effect of the settlement: interaction Update on an
existing interaction returns BadRequest when its type is not activity; else
BadRequest when its kermesse is ENDED; else Forbidden when the caller is not
the owning user of its stand; each time the store is unchanged.  Otherwise it
succeeds, sets the status of that interaction to ended and its point to the
point of the payload, and changes nothing else: no credit, no stock and no
other interaction. -/
theorem C18_settle_guards (s : Store) (ctx : Ctx) (id : Int) (input : Input) (i : Interaction)
    (hi : interaction.Repository.FindById s id = some i) :
    (i.Typ ≠ Val.str InteractionTypeActivity →
      interaction.Service.Update s ctx id input
        = (Result.error { Key := ErrorKey.BadRequest,
                          Err := "interaction type is not activity" }, s)) ∧
    (i.Typ = Val.str InteractionTypeActivity →
      ∀ kermesseId k, i.KermesseId = Val.int kermesseId →
        kermesse.Repository.FindById s kermesseId = some k →
        (k.Status = KermesseStatusEnded →
          interaction.Service.Update s ctx id input
            = (Result.error { Key := ErrorKey.BadRequest, Err := "kermesse is ended" }, s)) ∧
        (k.Status ≠ KermesseStatusEnded →
          ∀ standId st b, i.StandId = Val.int standId →
            stand.Repository.FindById s standId = some st → ctx.UserID = some b →
            (st.UserId ≠ b →
              interaction.Service.Update s ctx id input
                = (Result.error { Key := ErrorKey.Forbidden, Err := "forbidden" }, s)) ∧
            (st.UserId = b →
              interaction.Service.Update s ctx id input
                = (Result.ok, { s with interactions :=
                    (s.interactions.map (settle id (utils.Index input "point"))) })))) := by
  refine ⟨?_, ?_⟩
  · intro ht
    simp only [interaction.Service.Update, hi, ht, ne_eq, not_false_eq_true, if_true, fail]
  · intro ht kermesseId k hk hfk
    refine ⟨?_, ?_⟩
    · intro he
      simp only [interaction.Service.Update, hi, ht, hk, hfk, he, ne_eq, not_true_eq_false,
        if_false, if_true, fail]
    · intro hne standId st b hs hfs hctx
      refine ⟨?_, ?_⟩
      · intro hown
        simp only [interaction.Service.Update, hi, ht, hk, hfk, hne, hs, hfs, hctx, hown,
          ne_eq, not_true_eq_false, not_false_eq_true, if_false, if_true, fail]
      · intro hown
        simp only [interaction.Service.Update, hi, ht, hk, hfk, hne, hs, hfs, hctx, hown,
          ne_eq, not_true_eq_false, if_false, interaction_Update_write]

/-- Witness of C18: the holder of the stand settles the open activity of the
fair with 7 points. -/
theorem C18_settle_guards_witness :
    interaction.Service.Update (gameFair InteractionStatusStarted Val.null)
        (asUser 2 UserRoleStandHolder) 1 [("point", Val.int 7)]
      = (Result.ok, gameFair InteractionStatusEnded (Val.int 7)) :=
  ((((C18_settle_guards (gameFair InteractionStatusStarted Val.null)
      (asUser 2 UserRoleStandHolder) 1 [("point", Val.int 7)]
      (scored InteractionStatusStarted Val.null) (by decide)).2 (by decide) 1
      (fest KermesseStatusStarted) (by decide) (by decide)).2 (by decide) 1
      (cakes InteractionTypeActivity 3) 2 (by decide) (by decide) (by decide)).2 (by decide))

/-- C17, the code at the failing input.  An activity already ended with 5
points is settled again by the holder of its stand with 9 points: interaction
Update succeeds and the point recorded becomes 9. -/
theorem C17_settled_twice :
    interaction.Service.Update (gameFair InteractionStatusEnded (Val.int 5))
        (asUser 2 UserRoleStandHolder) 1 [("point", Val.int 9)]
      = (Result.ok, gameFair InteractionStatusEnded (Val.int 9)) := by
  decide

/-! ## Pay -/

/-- Pay once the child, the parent and the amount are read. -/
theorem user_Pay_eval {s : Store} {ctx : Ctx} {input : Input} {c p a : Int}
    {child parent : User}
    (hcid : utils.GetIntFromMap input "child_id" = Except.ok c)
    (hc : user.Repository.FindById s c = some child)
    (hctx : ctx.UserID = some p)
    (hp : user.Repository.FindById s p = some parent)
    (ha : utils.GetIntFromMap input "amount" = Except.ok a) :
    user.Service.Pay s ctx input
      = if child.ParentId = some p then
          if parent.Credit < a then fail s ErrorKey.BadRequest "insufficient credit"
          else (Result.ok, user.Repository.UpdateCredit
                  (user.Repository.UpdateCredit s c a) p (-a))
        else fail s ErrorKey.Forbidden "forbidden" := by
  have hpid : parent.Id = p := find_some_id hp
  simp only [user.Service.Pay, hcid, hc, hctx, hp, ha, hpid]
  by_cases h : child.ParentId = some p
  · have h1 : ¬ (child.ParentId = none ∨ child.ParentId ≠ some p) := by
      rw [h]; simp
    rw [if_neg h1, if_pos h]
  · have h1 : child.ParentId = none ∨ child.ParentId ≠ some p := Or.inr h
    rw [if_pos h1, if_neg h]

/-- C20. Pay by the principal `p` for the child `c` (another user) with the
amount `a`: when the parent reference of `c` is not `p`, Pay returns Forbidden
and changes nothing; else when the credit of `p` is below `a`, Pay returns
BadRequest and changes nothing; so Pay succeeds only if the parent reference
of `c` is `p` and the credit of `p` is at least `a`.  In that case it
succeeds, the credit of `c` increases by exactly `a`, the credit of `p`
decreases by exactly `a`, every other user row is unchanged, and (user ids
being a key) the sum of all credits is unchanged. -/
theorem C20_pay (s : Store) (ctx : Ctx) (input : Input) (c p a : Int) (child parent : User)
    (hcid : utils.GetIntFromMap input "child_id" = Except.ok c)
    (hc : user.Repository.FindById s c = some child)
    (hctx : ctx.UserID = some p)
    (hp : user.Repository.FindById s p = some parent)
    (ha : utils.GetIntFromMap input "amount" = Except.ok a)
    (hne : c ≠ p) :
    (child.ParentId ≠ some p →
      user.Service.Pay s ctx input
        = (Result.error { Key := ErrorKey.Forbidden, Err := "forbidden" }, s)) ∧
    (child.ParentId = some p → parent.Credit < a →
      user.Service.Pay s ctx input
        = (Result.error { Key := ErrorKey.BadRequest, Err := "insufficient credit" }, s)) ∧
    ((user.Service.Pay s ctx input).1 = Result.ok →
      child.ParentId = some p ∧ a ≤ parent.Credit) ∧
    (child.ParentId = some p → a ≤ parent.Credit →
      ∃ s', user.Service.Pay s ctx input = (Result.ok, s') ∧
        (∃ child', user.Repository.FindById s' c = some child' ∧
          child'.Credit = child.Credit + a) ∧
        (∃ parent', user.Repository.FindById s' p = some parent' ∧
          parent'.Credit = parent.Credit - a) ∧
        (∀ x, x ≠ c → x ≠ p →
          user.Repository.FindById s' x = user.Repository.FindById s x) ∧
        ((s.users.map (fun u => u.Id)).Nodup → totalCredit s' = totalCredit s)) := by
  have heval := user_Pay_eval hcid hc hctx hp ha
  have hcidd : child.Id = c := find_some_id hc
  have hpid : parent.Id = p := find_some_id hp
  refine ⟨?_, ?_, ?_, ?_⟩
  · intro h
    rw [heval, if_neg h]; rfl
  · intro h hlt
    rw [heval, if_pos h, if_pos hlt]; rfl
  · intro hok
    rw [heval] at hok
    by_cases h : child.ParentId = some p
    · rw [if_pos h] at hok
      by_cases hlt : parent.Credit < a
      · rw [if_pos hlt] at hok
        simp [fail] at hok
      · exact ⟨h, by omega⟩
    · rw [if_neg h] at hok
      simp [fail] at hok
  · intro h hle
    have hnlt : ¬ parent.Credit < a := by omega
    refine ⟨_, by rw [heval, if_pos h, if_neg hnlt], ?_, ?_, ?_, ?_⟩
    · refine ⟨addCredit p (-a) (addCredit c a child), ?_, ?_⟩
      · rw [FindById_UpdateCredit, FindById_UpdateCredit, hc]; rfl
      · have h1 : (addCredit c a child).Id ≠ p := by
          rw [addCredit_Id, hcidd]; exact hne
        rw [addCredit_ne h1, addCredit_eq hcidd]
    · refine ⟨addCredit p (-a) (addCredit c a parent), ?_, ?_⟩
      · rw [FindById_UpdateCredit, FindById_UpdateCredit, hp]; rfl
      · have h1 : parent.Id ≠ c := by
          rw [hpid]; exact fun e => hne e.symm
        rw [addCredit_ne h1, addCredit_eq hpid]
        omega
    · intro x hxc hxp
      rw [FindById_UpdateCredit, FindById_UpdateCredit]
      cases hx : user.Repository.FindById s x with
      | none => rfl
      | some ux =>
        have hxid : ux.Id = x := find_some_id hx
        have h1 : ux.Id ≠ c := by rw [hxid]; exact hxc
        have h2 : ux.Id ≠ p := by rw [hxid]; exact hxp
        simp only [Option.map_some', addCredit_ne h1, addCredit_ne h2]
    · intro hn
      unfold totalCredit
      unfold user.Repository.FindById at hc hp
      rw [users_UpdateCredit, users_UpdateCredit, sum_addCredit, sum_addCredit, ids_addCredit,
        count_of_find hn hc, count_of_find hn hp]
      simp

/-- Witness of C20: the parent of the season (credit 10) pays 5 to its
child. -/
theorem C20_pay_witness :
    ∃ s', user.Service.Pay (seasonOf 10 0 [] [] []) (asUser 1 UserRoleParent)
        [("child_id", Val.int 2), ("amount", Val.int 5)] = (Result.ok, s') ∧
      (∃ child', user.Repository.FindById s' 2 = some child' ∧
        child'.Credit = (kid 0).Credit + 5) ∧
      (∃ parent', user.Repository.FindById s' 1 = some parent' ∧
        parent'.Credit = (mum 10).Credit - 5) ∧
      (∀ x, x ≠ 2 → x ≠ 1 →
        user.Repository.FindById s' x
          = user.Repository.FindById (seasonOf 10 0 [] [] []) x) ∧
      (((seasonOf 10 0 [] [] []).users.map (fun u => u.Id)).Nodup →
        totalCredit s' = totalCredit (seasonOf 10 0 [] [] [])) :=
  (C20_pay (seasonOf 10 0 [] [] []) (asUser 1 UserRoleParent)
    [("child_id", Val.int 2), ("amount", Val.int 5)] 2 1 5 (kid 0) (mum 10)
    rfl (by decide) (by decide) (by decide) rfl (by decide)).2.2.2 (by decide) (by decide)

/-! ## The stands of a holder -/

/-- What a successful stand Create wrote. -/
theorem stand_Create_ok {s s' : Store} {ctx : Ctx} {input : Input}
    (h : stand.Service.Create s ctx input = (Result.ok, s')) :
    ∃ row : Stand, ctx.UserID = some row.UserId ∧
      row.Id = nextId (s.stands.map (fun st => st.Id)) ∧
      s' = { s with stands := s.stands ++ [row] } := by
  unfold stand.Service.Create at h
  split at h
  · simp [fail] at h
  · rename_i userId hctx
    split at h
    · simp [fail] at h
    · rename_i s1 hs1
      obtain ⟨row, rfl, h1, -, h3⟩ := stand_Create_some hs1
      rw [Index_Assign_eq] at h3
      cases h3
      simp only [Prod.mk.injEq, true_and] at h
      exact ⟨row, hctx, h1, h.symm⟩

/-- C19, counterexample.  From the empty store user 2 opens a stand and then
another one: both calls succeed and the store reached holds two stands owned
by user 2. -/
theorem C19_two_stands :
    Reachable (run Store.empty twoStands) ∧
    (step (run Store.empty (twoStands.take 1))
      (Op.standCreate (asUser 2 UserRoleStandHolder) (stall "second"))).1 = Result.ok ∧
    (run Store.empty twoStands).stands = [stallRow 1 "first", stallRow 2 "second"] ∧
    ((run Store.empty twoStands).stands.filter (fun st => decide (st.UserId = 2))).length
      = 2 := by
  refine ⟨reachable_run _ _ Reachable.empty, ?_, ?_, ?_⟩ <;> decide

/-- C19, amended.  Stand Create looks up no stand of the principal before
it inserts: a successful stand Create by the principal adds exactly one stand
row, owned by the principal and under a fresh id, whether or not the principal
already owns a stand; the stands already there are kept, and the number of
stands the principal owns grows by one. -/
theorem C19_create_adds_stand (s s' : Store) (ctx : Ctx) (input : Input) (p : Int)
    (hctx : ctx.UserID = some p)
    (hok : stand.Service.Create s ctx input = (Result.ok, s')) :
    (∃ row : Stand, row.UserId = p ∧ row.Id ∉ s.stands.map (fun st => st.Id) ∧
      s' = { s with stands := s.stands ++ [row] }) ∧
    (s'.stands.filter (fun st => decide (st.UserId = p))).length
      = (s.stands.filter (fun st => decide (st.UserId = p))).length + 1 := by
  obtain ⟨row, h1, h2, rfl⟩ := stand_Create_ok hok
  rw [hctx] at h1
  cases h1
  refine ⟨⟨row, rfl, ?_, rfl⟩, ?_⟩
  · rw [h2]; exact nextId_not_mem _
  · simp [List.filter_append]

/-- Witness of C19 amended: the second stand of user 2. -/
theorem C19_create_adds_stand_witness :
    (∃ row : Stand, row.UserId = 2 ∧
      row.Id ∉ (run Store.empty (twoStands.take 1)).stands.map (fun st => st.Id) ∧
      run Store.empty twoStands
        = { run Store.empty (twoStands.take 1) with
            stands := (run Store.empty (twoStands.take 1)).stands ++ [row] }) ∧
    ((run Store.empty twoStands).stands.filter (fun st => decide (st.UserId = 2))).length
      = ((run Store.empty (twoStands.take 1)).stands.filter
          (fun st => decide (st.UserId = 2))).length + 1 :=
  C19_create_adds_stand (run Store.empty (twoStands.take 1)) (run Store.empty twoStands)
    (asUser 2 UserRoleStandHolder) (stall "second") 2 (by decide) (by decide)

/-! ## The invariant of the draw -/

theorem tombola_Finish_cases (s : Store) (ctx : Ctx) (id : Int) (r : Nat) :
    (tombola.Service.Finish s ctx id r).2 = s ∨
    ∃ t, tombola.Repository.FindById s id = some t ∧ t.Status = TombolaStatusStarted ∧
      (tombola.Service.Finish s ctx id r).2 = tombola.Repository.SetWinner s id r := by
  by_cases hok : (tombola.Service.Finish s ctx id r).1 = Result.ok
  · have hpair : tombola.Service.Finish s ctx id r
        = (Result.ok, (tombola.Service.Finish s ctx id r).2) := by rw [← hok]
    obtain ⟨t, k, h1, -, -, -, h5, h6⟩ := tombola_Finish_ok hpair
    exact Or.inr ⟨t, h1, h5, h6⟩
  · exact Or.inl ((tombola_Finish_fail s ctx id r).1 hok)

theorem ticket_Create_cases (s : Store) (ctx : Ctx) (input : Input) :
    (ticket.Service.Create s ctx input).2 = s ∨
    ∃ tombolaId t userId,
      tombola.Repository.FindById s tombolaId = some t ∧ t.Status = TombolaStatusStarted ∧
      (ticket.Service.Create s ctx input).2
        = { user.Repository.UpdateCredit s userId (-t.Price) with
            tickets := s.tickets ++
              [{ Id := nextId (s.tickets.map (fun t => t.Id)), UserId := userId,
                 TombolaId := tombolaId, IsWinner := false }] } := by
  by_cases hok : (ticket.Service.Create s ctx input).1 = Result.ok
  · have hpair : ticket.Service.Create s ctx input
        = (Result.ok, (ticket.Service.Create s ctx input).2) := by rw [← hok]
    obtain ⟨tombolaId, t, userId, u, -, h2, h3, -, -, -, -, h8⟩ := ticket_Create_ok hpair
    exact Or.inr ⟨tombolaId, t, userId, h2, h3, h8⟩
  · exact Or.inl (ticket_Create_fail s ctx input hok)

theorem settled_frame (s : Store) (input : Input) (standId : Int) (st : Stand) (u : User)
    (userId q : Int) :
    (settled s input standId st u userId q).kermesses = s.kermesses ∧
    (settled s input standId st u userId q).kermessesUsers = s.kermessesUsers ∧
    (settled s input standId st u userId q).kermessesStands = s.kermessesStands ∧
    (settled s input standId st u userId q).tombolas = s.tombolas ∧
    (settled s input standId st u userId q).tickets = s.tickets := by
  unfold settled
  simp only [interaction.Repository.Create, user.Repository.UpdateCredit]
  split <;> exact ⟨rfl, rfl, rfl, rfl, rfl⟩

theorem step_draw (s : Store) (op : Op) : Draw s (step s op).2 := by
  unfold Draw
  cases op with
  | userUpdate env ctx id input =>
    rcases user_Update_store env s ctx id input with h | ⟨p, h⟩ <;>
      (simp only [step]; rw [h]) <;> exact Or.inl ⟨rfl, rfl⟩
  | userInvite env ctx input =>
    rcases user_Invite_store env s ctx input with h | ⟨row, userId, -, -, -, -, -, h⟩ <;>
      (simp only [step]; rw [h]) <;> exact Or.inl ⟨rfl, rfl⟩
  | userUpdateCredit userId credit =>
    rcases user_UpdateCredit_store s userId credit with h | h <;>
      (simp only [step]; rw [h]) <;> exact Or.inl ⟨rfl, rfl⟩
  | userPay ctx input =>
    rcases user_Pay_store s ctx input with h | ⟨_, _, _, _, -, -, -, h⟩ <;>
      (simp only [step]; rw [h]) <;> exact Or.inl ⟨rfl, rfl⟩
  | userSignUp env input =>
    rcases user_SignUp_store env s input with h | ⟨row, -, -, -, -, h⟩ <;>
      (simp only [step]; rw [h]) <;> exact Or.inl ⟨rfl, rfl⟩
  | standCreate ctx input =>
    rcases stand_Create_store s ctx input with h | ⟨row, -, -, -, h⟩ <;>
      (simp only [step]; rw [h]) <;> exact Or.inl ⟨rfl, rfl⟩
  | standUpdate ctx id input =>
    rcases stand_Update_store s ctx id input with h | ⟨_, _, -, h⟩ <;>
      (simp only [step]; rw [h]) <;> exact Or.inl ⟨rfl, rfl⟩
  | standUpdateCurrent ctx input =>
    rcases stand_UpdateCurrent_store s ctx input with h | ⟨_, _, _, -, h⟩ <;>
      (simp only [step]; rw [h]) <;> exact Or.inl ⟨rfl, rfl⟩
  | kermesseCreate ctx input =>
    rcases kermesse_Create_store s ctx input with h | ⟨row, -, -, -, h⟩ <;>
      (simp only [step]; rw [h]) <;> exact Or.inl ⟨rfl, rfl⟩
  | kermesseUpdate ctx id input =>
    rcases kermesse_Update_store s ctx id input with h | h <;>
      (simp only [step]; rw [h]) <;> exact Or.inl ⟨rfl, rfl⟩
  | kermesseEnd ctx id =>
    rcases kermesse_End_store s ctx id with h | ⟨-, h⟩ <;>
      (simp only [step]; rw [h]) <;> exact Or.inl ⟨rfl, rfl⟩
  | kermesseAddUser ctx input =>
    rcases kermesse_AddUser_store s ctx input with h | ⟨rows, h⟩ <;>
      (simp only [step]; rw [h]) <;> exact Or.inl ⟨rfl, rfl⟩
  | kermesseAddStand ctx input =>
    rcases kermesse_AddStand_store s ctx input with h | ⟨rows, h⟩ <;>
      (simp only [step]; rw [h]) <;> exact Or.inl ⟨rfl, rfl⟩
  | tombolaCreate ctx input =>
    rcases tombola_Create_store s ctx input with h | ⟨row, k, -, -, -, h4, h⟩
    · simp only [step]; rw [h]; exact Or.inl ⟨rfl, rfl⟩
    · simp only [step]; rw [h]
      exact Or.inr (Or.inl ⟨rfl, row, h4, rfl⟩)
  | tombolaUpdate ctx id input =>
    rcases tombola_Update_store s ctx id input with h | ⟨price, h⟩
    · simp only [step]; rw [h]; exact Or.inl ⟨rfl, rfl⟩
    · simp only [step]; rw [h]
      exact Or.inr (Or.inr (Or.inl ⟨rfl, id, price, input, rfl⟩))
  | tombolaFinish ctx id r =>
    rcases tombola_Finish_cases s ctx id r with h | ⟨t, h1, h2, h⟩
    · simp only [step]; rw [h]; exact Or.inl ⟨rfl, rfl⟩
    · simp only [step]; rw [h]
      exact Or.inr (Or.inr (Or.inr (Or.inl ⟨id, r, t, h1, h2, rfl⟩)))
  | ticketCreate ctx input =>
    rcases ticket_Create_cases s ctx input with h | ⟨tombolaId, t, userId, h1, h2, h⟩
    · simp only [step]; rw [h]; exact Or.inl ⟨rfl, rfl⟩
    · simp only [step]; rw [h]
      exact Or.inr (Or.inr (Or.inr (Or.inr ⟨rfl, tombolaId, t, userId, h1, h2, rfl⟩)))
  | interactionCreate ctx input =>
    rcases interaction_Create_store s ctx input with
      h | ⟨standId, st, userId, u, q, -, -, -, -, -, -, h⟩
    · simp only [step]; rw [h]; exact Or.inl ⟨rfl, rfl⟩
    · simp only [step]; rw [h]
      obtain ⟨-, -, -, h4, h5⟩ := settled_frame s input standId st u userId q
      exact Or.inl ⟨h4, h5⟩
  | interactionUpdate ctx id input =>
    rcases interaction_Update_store s ctx id input with h | h <;>
      (simp only [step]; rw [h]) <;> exact Or.inl ⟨rfl, rfl⟩

theorem winners_flag_keep (l : List Ticket) (w id id' : Int) (h : id' ≠ id) :
    (l.map (flag w id)).filter (fun t => decide (t.TombolaId = id') && t.IsWinner)
      = l.filter (fun t => decide (t.TombolaId = id') && t.IsWinner) := by
  apply filter_map_fix
  intro x _
  by_cases hx : x.TombolaId = id'
  · have : flag w id x = x := flag_other (by rw [hx]; exact h)
    rw [this]
    exact ⟨rfl, fun _ => rfl⟩
  · constructor
    · simp [flag_TombolaId, hx]
    · intro hp
      simp [hx] at hp

theorem ids_flag (l : List Ticket) (w id : Int) :
    (l.map (flag w id)).map (fun t => t.Id) = l.map (fun t => t.Id) := by
  rw [List.map_map]
  apply List.map_congr_left
  intro a _
  simp only [Function.comp, flag_Id]

theorem winners_nil_iff (l : List Ticket) (id : Int) :
    l.filter (fun t => decide (t.TombolaId = id) && t.IsWinner) = [] ↔
      ∀ t ∈ l, t.TombolaId = id → t.IsWinner = false := by
  rw [List.filter_eq_nil_iff]
  constructor
  · intro h t ht hid
    have := h t ht
    simpa [hid] using this
  · intro h t ht
    by_cases hid : t.TombolaId = id
    · simp [hid, h t ht hid]
    · simp [hid]

/-- One call keeps the invariant of the draw. -/
theorem raffled_step (s : Store) (op : Op) (hr : Raffled s) : Raffled (step s op).2 := by
  obtain ⟨i1, i2, i3, i4⟩ := hr
  unfold winners at i3 i4
  rcases step_draw s op with ⟨h1, h2⟩ | ⟨h2, row, hrow, h1⟩ | ⟨h2, id, price, input, h1⟩ |
    ⟨id, r, t, hf, hst, h⟩ | ⟨h1, tombolaId, t, userId, hf, hst, h2⟩
  · unfold Raffled winners
    rw [h1, h2]
    exact ⟨i1, i2, i3, i4⟩
  · unfold Raffled winners
    rw [h1, h2]
    refine ⟨i1, ?_, ?_, i4⟩
    · intro tk htk
      rw [List.map_append]
      exact List.mem_append_left _ (i2 tk htk)
    · intro t ht hs
      rcases List.mem_append.mp ht with ht | ht
      · exact i3 t ht hs
      · simp only [List.mem_singleton] at ht
        subst ht
        rw [winners_nil_iff]
        intro tk htk hid
        exfalso
        have := i2 tk htk
        rw [hid, hrow] at this
        exact nextId_not_mem _ this
  · unfold Raffled winners
    rw [h1, h2]
    have hids : (s.tombolas.map
        (fun t => if t.Id = id then
          { t with Name := utils.Index input "name", Price := price,
                   Gift := utils.Index input "gift" } else t)).map (fun t => t.Id)
        = s.tombolas.map (fun t => t.Id) := by
      rw [List.map_map]
      apply List.map_congr_left
      intro a _
      simp only [Function.comp]
      split <;> rfl
    refine ⟨i1, ?_, ?_, i4⟩
    · intro tk htk
      rw [hids]
      exact i2 tk htk
    · intro t ht hs
      obtain ⟨t0, ht0, rfl⟩ := List.mem_map.mp ht
      by_cases hid : t0.Id = id
      · simp only [hid, if_true] at hs ⊢
        have := i3 t0 ht0 hs
        rw [hid] at this
        exact this
      · simp only [hid, if_false] at hs ⊢
        exact i3 t0 ht0 hs
  · rw [h]
    obtain ⟨-, -, -, hts⟩ := SetWinner_frame s id r
    have htk := SetWinner_tickets s id r
    have hmem : t ∈ s.tombolas := List.mem_of_find?_eq_some hf
    have htid : t.Id = id := find_tombola_id hf
    have hno : ∀ x ∈ s.tickets, x.TombolaId = id → x.IsWinner = false := by
      have := i3 t hmem hst
      rw [htid] at this
      exact (winners_nil_iff _ _).mp this
    have hids : (s.tombolas.map
        (fun t => if t.Id = id then { t with Status := TombolaStatusEnded } else t)).map
          (fun t => t.Id) = s.tombolas.map (fun t => t.Id) := by
      rw [List.map_map]
      apply List.map_congr_left
      intro a _
      simp only [Function.comp]
      split <;> rfl
    have hstarted : ∀ t' ∈ s.tombolas.map
        (fun t => if t.Id = id then { t with Status := TombolaStatusEnded } else t),
        t'.Status = TombolaStatusStarted → t' ∈ s.tombolas ∧ t'.Id ≠ id := by
      intro t' ht' hs'
      obtain ⟨t0, ht0, rfl⟩ := List.mem_map.mp ht'
      by_cases hid : t0.Id = id
      · simp only [hid, if_true] at hs'
        exact absurd hs' (by decide)
      · simp only [hid, if_false]
        exact ⟨ht0, hid⟩
    unfold Raffled winners
    rw [hts, htk]
    by_cases hnone : ticketsOf s id = []
    · rw [drawn_none s id r hnone]
      refine ⟨i1, ?_, ?_, i4⟩
      · intro tk htk'
        rw [hids]
        exact i2 tk htk'
      · intro t' ht' hs'
        exact i3 t' (hstarted t' ht' hs').1 hs'
    · obtain ⟨c, hc, hct, hd⟩ := drawn_some s id r hnone
      rw [hd]
      dsimp only
      refine ⟨?_, ?_, ?_, ?_⟩
      · rw [ids_flag]; exact i1
      · intro tk htk'
        obtain ⟨tk0, htk0, rfl⟩ := List.mem_map.mp htk'
        rw [hids, flag_TombolaId]
        exact i2 tk0 htk0
      · intro t' ht' hs'
        obtain ⟨hm, hne⟩ := hstarted t' ht' hs'
        rw [winners_flag_keep _ _ _ _ hne]
        exact i3 t' hm hs'
      · intro id'
        by_cases hid : id' = id
        · subst hid
          rw [winners_flag_one s.tickets c.Id id' c i1 hc hct rfl hno]
          simp
        · rw [winners_flag_keep _ _ _ _ hid]
          exact i4 id'
  · unfold Raffled winners
    rw [h1, h2]
    have hnew : ∀ x, (s.tickets ++
        [({ Id := nextId (s.tickets.map (fun t => t.Id)), UserId := userId,
            TombolaId := tombolaId, IsWinner := false } : Ticket)]).filter
          (fun t => decide (t.TombolaId = x) && t.IsWinner)
        = s.tickets.filter (fun t => decide (t.TombolaId = x) && t.IsWinner) := by
      intro x
      simp [List.filter_append]
    refine ⟨?_, ?_, ?_, ?_⟩
    · exact nodup_append_fresh (fun t : Ticket => t.Id) _ _ i1 rfl
    · intro tk htk
      rcases List.mem_append.mp htk with htk | htk
      · exact i2 tk htk
      · simp only [List.mem_singleton] at htk
        subst htk
        exact List.mem_map.mpr ⟨t, List.mem_of_find?_eq_some hf, find_tombola_id hf⟩
    · intro t' ht' hs'
      rw [hnew]
      exact i3 t' ht' hs'
    · intro id'
      rw [hnew]
      exact i4 id'

theorem reachable_raffled (s : Store) (h : Reachable s) : Raffled s := by
  induction h with
  | empty =>
    refine ⟨List.nodup_nil, ?_, ?_, ?_⟩
    · intro tk htk; cases htk
    · intro t ht; cases ht
    · intro id; simp [winners, Store.empty]
  | step s op _ ih => exact raffled_step s op ih

/-- C13, amended.  In every store reached from the empty store by service
operations that run one after the other, no request overlapping another, each
tombola has at most one winning ticket, and a tombola whose status is STARTED
has no winning ticket. -/
theorem C13_at_most_one_winner (s : Store) (hr : Reachable s) :
    (∀ id, (winners s id).length ≤ 1) ∧
    (∀ t ∈ s.tombolas, t.Status = TombolaStatusStarted → winners s t.Id = []) :=
  ⟨(reachable_raffled s hr).2.2.2, (reachable_raffled s hr).2.2.1⟩

/-- Witness of C13 amended: the season after the draw, reached from the empty store. -/
theorem C13_at_most_one_winner_witness :
    run Store.empty (season ++ [Op.tombolaFinish (asUser 3 UserRoleOrganizer) 1 0]) = drawnOne ∧
    winners drawnOne 1 = [stub true] ∧
    (∀ id, (winners (run Store.empty
      (season ++ [Op.tombolaFinish (asUser 3 UserRoleOrganizer) 1 0])) id).length ≤ 1) ∧
    (∀ t ∈ (run Store.empty
        (season ++ [Op.tombolaFinish (asUser 3 UserRoleOrganizer) 1 0])).tombolas,
      t.Status = TombolaStatusStarted →
      winners (run Store.empty
        (season ++ [Op.tombolaFinish (asUser 3 UserRoleOrganizer) 1 0])) t.Id = []) :=
  ⟨by decide, by decide,
   C13_at_most_one_winner _ (reachable_run _ _ Reachable.empty)⟩

/-! ## One active event per stand -/

theorem CanAddStand_eq (s : Store) (standId : Int) :
    kermesse.Repository.CanAddStand s standId
      = !(s.kermessesStands.any (fun ks => decide (ks.2 = standId) && active s ks.1)) := by
  rfl

theorem CanAddStand_true_iff (s : Store) (standId : Int) :
    kermesse.Repository.CanAddStand s standId = true ↔ activeLinks s standId = [] := by
  rw [CanAddStand_eq]
  unfold activeLinks
  rw [List.filter_eq_nil_iff]
  simp only [Bool.not_eq_true', List.any_eq_false]

theorem active_iff (s : Store) (kermesseId : Int) :
    active s kermesseId = true ↔
      ∃ k ∈ s.kermesses, k.Id = kermesseId ∧ k.Status = KermesseStatusStarted := by
  unfold active
  simp only [List.any_eq_true, Bool.and_eq_true, decide_eq_true_eq]

theorem activeLinks_ne_nil_iff (s : Store) (standId : Int) :
    activeLinks s standId ≠ [] ↔
      ∃ ks ∈ s.kermessesStands, ks.2 = standId ∧
        ∃ k ∈ s.kermesses, k.Id = ks.1 ∧ k.Status = KermesseStatusStarted := by
  unfold activeLinks
  rw [ne_eq, List.filter_eq_nil_iff]
  push_neg
  constructor
  · rintro ⟨ks, hks, h⟩
    simp only [Bool.and_eq_true, decide_eq_true_eq] at h
    exact ⟨ks, hks, h.1, (active_iff s ks.1).mp h.2⟩
  · rintro ⟨ks, hks, h1, h2⟩
    refine ⟨ks, hks, ?_⟩
    simp only [Bool.and_eq_true, decide_eq_true_eq]
    exact ⟨h1, (active_iff s ks.1).mpr h2⟩

/-- AddStand once the kermesse and the stand id are read. -/
theorem kermesse_AddStand_eval {s : Store} {ctx : Ctx} {input : Input} {kermesseId standId : Int}
    {k : Kermesse}
    (hkid : utils.Index input "kermesse_id" = Val.int kermesseId)
    (hk : kermesse.Repository.FindById s kermesseId = some k)
    (hg : utils.GetIntFromMap input "stand_id" = Except.ok standId) :
    kermesse.Service.AddStand s ctx input
      = if k.Status = KermesseStatusEnded then
          fail s ErrorKey.BadRequest "kermesse is already ended"
        else if kermesse.Repository.CanAddStand s standId = true then
          match ctx.UserID with
          | none => fail s ErrorKey.Unauthorized "user id not found in context"
          | some userId =>
            if k.UserId ≠ userId then fail s ErrorKey.Forbidden "forbidden"
            else (Result.ok,
              { s with kermessesStands := s.kermessesStands ++ [(kermesseId, standId)] })
        else fail s ErrorKey.BadRequest "stand is already associated with kermesse" := by
  have hsid := GetIntFromMap_ok hg
  have hadd : kermesse.Repository.AddStand s input
      = some { s with kermessesStands := s.kermessesStands ++ [(kermesseId, standId)] } := by
    simp [kermesse.Repository.AddStand, hkid, hsid]
  simp only [kermesse.Service.AddStand, hkid, hk, hg, hadd]
  by_cases he : k.Status = KermesseStatusEnded
  · simp [he]
  · by_cases hcan : kermesse.Repository.CanAddStand s standId = true
    · simp only [he, hcan, if_false, if_true, not_true_eq_false]
    · simp [he, hcan]

theorem kermesse_AddStand_cases (s : Store) (ctx : Ctx) (input : Input) :
    (kermesse.Service.AddStand s ctx input).2 = s ∨
    ∃ kermesseId k standId,
      kermesse.Repository.FindById s kermesseId = some k ∧
      kermesse.Repository.CanAddStand s standId = true ∧
      (kermesse.Service.AddStand s ctx input).2
        = { s with kermessesStands := s.kermessesStands ++ [(kermesseId, standId)] } := by
  cases hkid : utils.Index input "kermesse_id" with
  | str x => left; simp [kermesse.Service.AddStand, hkid]
  | null => left; simp [kermesse.Service.AddStand, hkid]
  | int kermesseId =>
    cases hk : kermesse.Repository.FindById s kermesseId with
    | none => left; simp [kermesse.Service.AddStand, hkid, hk, fail]
    | some k =>
      cases hsid : utils.GetIntFromMap input "stand_id" with
      | error e =>
        left
        simp only [kermesse.Service.AddStand, hkid, hk, hsid]
        split <;> rfl
      | ok standId =>
        rw [kermesse_AddStand_eval hkid hk hsid]
        by_cases he : k.Status = KermesseStatusEnded
        · left; rw [if_pos he]; rfl
        · rw [if_neg he]
          by_cases hcan : kermesse.Repository.CanAddStand s standId = true
          · rw [if_pos hcan]
            cases hctx : ctx.UserID with
            | none => left; rfl
            | some userId =>
              dsimp only
              by_cases hown : k.UserId ≠ userId
              · left; rw [if_pos hown]; rfl
              · right; rw [if_neg hown]
                exact ⟨kermesseId, k, standId, hk, hcan, rfl⟩
          · left; rw [if_neg hcan]; rfl

theorem step_links (s : Store) (op : Op) : Links s (step s op).2 := by
  unfold Links
  cases op with
  | userUpdate env ctx id input =>
    rcases user_Update_store env s ctx id input with h | ⟨p, h⟩ <;>
      (simp only [step]; rw [h]) <;> exact Or.inl ⟨rfl, rfl⟩
  | userInvite env ctx input =>
    rcases user_Invite_store env s ctx input with h | ⟨row, userId, -, -, -, -, -, h⟩ <;>
      (simp only [step]; rw [h]) <;> exact Or.inl ⟨rfl, rfl⟩
  | userUpdateCredit userId credit =>
    rcases user_UpdateCredit_store s userId credit with h | h <;>
      (simp only [step]; rw [h]) <;> exact Or.inl ⟨rfl, rfl⟩
  | userPay ctx input =>
    rcases user_Pay_store s ctx input with h | ⟨_, _, _, _, -, -, -, h⟩ <;>
      (simp only [step]; rw [h]) <;> exact Or.inl ⟨rfl, rfl⟩
  | userSignUp env input =>
    rcases user_SignUp_store env s input with h | ⟨row, -, -, -, -, h⟩ <;>
      (simp only [step]; rw [h]) <;> exact Or.inl ⟨rfl, rfl⟩
  | standCreate ctx input =>
    rcases stand_Create_store s ctx input with h | ⟨row, -, -, -, h⟩ <;>
      (simp only [step]; rw [h]) <;> exact Or.inl ⟨rfl, rfl⟩
  | standUpdate ctx id input =>
    rcases stand_Update_store s ctx id input with h | ⟨_, _, -, h⟩ <;>
      (simp only [step]; rw [h]) <;> exact Or.inl ⟨rfl, rfl⟩
  | standUpdateCurrent ctx input =>
    rcases stand_UpdateCurrent_store s ctx input with h | ⟨_, _, _, -, h⟩ <;>
      (simp only [step]; rw [h]) <;> exact Or.inl ⟨rfl, rfl⟩
  | kermesseCreate ctx input =>
    rcases kermesse_Create_store s ctx input with h | ⟨row, -, -, h3, h⟩
    · simp only [step]; rw [h]; exact Or.inl ⟨rfl, rfl⟩
    · simp only [step]; rw [h]; exact Or.inr (Or.inl ⟨rfl, row, h3, rfl⟩)
  | kermesseUpdate ctx id input =>
    rcases kermesse_Update_store s ctx id input with h | h
    · simp only [step]; rw [h]; exact Or.inl ⟨rfl, rfl⟩
    · simp only [step]; rw [h]; exact Or.inr (Or.inr (Or.inl ⟨rfl, id, input, rfl⟩))
  | kermesseEnd ctx id =>
    rcases kermesse_End_store s ctx id with h | ⟨-, h⟩
    · simp only [step]; rw [h]; exact Or.inl ⟨rfl, rfl⟩
    · simp only [step]; rw [h]; exact Or.inr (Or.inr (Or.inr (Or.inl ⟨rfl, id, rfl⟩)))
  | kermesseAddUser ctx input =>
    rcases kermesse_AddUser_store s ctx input with h | ⟨rows, h⟩ <;>
      (simp only [step]; rw [h]) <;> exact Or.inl ⟨rfl, rfl⟩
  | kermesseAddStand ctx input =>
    rcases kermesse_AddStand_cases s ctx input with h | ⟨kermesseId, k, standId, h1, h2, h⟩
    · simp only [step]; rw [h]; exact Or.inl ⟨rfl, rfl⟩
    · simp only [step]; rw [h]
      exact Or.inr (Or.inr (Or.inr (Or.inr ⟨rfl, kermesseId, k, standId, h1, h2, rfl⟩)))
  | tombolaCreate ctx input =>
    rcases tombola_Create_store s ctx input with h | ⟨row, k, -, -, -, -, h⟩ <;>
      (simp only [step]; rw [h]) <;> exact Or.inl ⟨rfl, rfl⟩
  | tombolaUpdate ctx id input =>
    rcases tombola_Update_store s ctx id input with h | ⟨price, h⟩ <;>
      (simp only [step]; rw [h]) <;> exact Or.inl ⟨rfl, rfl⟩
  | tombolaFinish ctx id r =>
    rcases tombola_Finish_store s ctx id r with h | h
    · simp only [step]; rw [h]; exact Or.inl ⟨rfl, rfl⟩
    · simp only [step]; rw [h]
      refine Or.inl ⟨(SetWinner_frame s id r).2.2.1, ?_⟩
      unfold tombola.Repository.SetWinner
      dsimp only
      split <;> rfl
  | ticketCreate ctx input =>
    rcases ticket_Create_store s ctx input with h | ⟨_, _, _, _, -, -, -, h⟩ <;>
      (simp only [step]; rw [h]) <;> exact Or.inl ⟨rfl, rfl⟩
  | interactionCreate ctx input =>
    rcases interaction_Create_store s ctx input with
      h | ⟨standId, st, userId, u, q, -, -, -, -, -, -, h⟩
    · simp only [step]; rw [h]; exact Or.inl ⟨rfl, rfl⟩
    · simp only [step]; rw [h]
      obtain ⟨h1, -, h3, -, -⟩ := settled_frame s input standId st u userId q
      exact Or.inl ⟨h1, h3⟩
  | interactionUpdate ctx id input =>
    rcases interaction_Update_store s ctx id input with h | h <;>
      (simp only [step]; rw [h]) <;> exact Or.inl ⟨rfl, rfl⟩

theorem length_filter_le_of_imp {α : Type} (l : List α) (p q : α → Bool)
    (h : ∀ a ∈ l, p a = true → q a = true) :
    (l.filter p).length ≤ (l.filter q).length := by
  induction l with
  | nil => simp
  | cons a l ih =>
    have ih' := ih (fun x hx => h x (List.mem_cons_of_mem _ hx))
    have ha := h a (List.mem_cons_self _ _)
    cases hp : p a with
    | true =>
      rw [List.filter_cons_of_pos hp, List.filter_cons_of_pos (ha hp)]
      simp only [List.length_cons]
      omega
    | false =>
      rw [List.filter_cons_of_neg (by simp [hp])]
      cases hq : q a with
      | true =>
        rw [List.filter_cons_of_pos hq]
        simp only [List.length_cons]
        omega
      | false =>
        rw [List.filter_cons_of_neg (by simp [hq])]
        exact ih'

theorem filter_eq_of_agree {α : Type} (l : List α) (p q : α → Bool)
    (h : ∀ a ∈ l, p a = q a) : l.filter p = l.filter q := by
  induction l with
  | nil => rfl
  | cons a l ih =>
    have ih' := ih (fun x hx => h x (List.mem_cons_of_mem _ hx))
    simp only [List.filter_cons, h a (List.mem_cons_self _ _), ih']

/-- One call keeps the invariant of the associations. -/
theorem exclusive_step (s : Store) (op : Op) (he : Exclusive s) : Exclusive (step s op).2 := by
  obtain ⟨e1, e2⟩ := he
  unfold activeLinks active at e2
  rcases step_links s op with ⟨h1, h2⟩ | ⟨h2, row, hrow, h1⟩ | ⟨h2, id, input, h1⟩ |
    ⟨h2, id, h1⟩ | ⟨h1, kermesseId, k, standId, hk, hcan, h2⟩
  · unfold Exclusive activeLinks active
    rw [h1, h2]
    exact ⟨e1, e2⟩
  · unfold Exclusive activeLinks active
    rw [h1, h2]
    refine ⟨?_, ?_⟩
    · intro ks hks
      rw [List.map_append]
      exact List.mem_append_left _ (e1 ks hks)
    · intro st
      have : s.kermessesStands.filter (fun ks => decide (ks.2 = st) &&
            (s.kermesses ++ [row]).any (fun k => decide (k.Id = ks.1) &&
              decide (k.Status = KermesseStatusStarted)))
          = s.kermessesStands.filter (fun ks => decide (ks.2 = st) &&
            s.kermesses.any (fun k => decide (k.Id = ks.1) &&
              decide (k.Status = KermesseStatusStarted))) := by
        apply filter_eq_of_agree
        intro ks hks
        have hne : row.Id ≠ ks.1 := by
          intro heq
          have := e1 ks hks
          rw [← heq, hrow] at this
          exact nextId_not_mem _ this
        simp [List.any_append, hne]
      rw [this]
      exact e2 st
  · unfold Exclusive activeLinks active
    rw [h1, h2]
    simp only [kermesse.Repository.Update]
    have hany : ∀ x : Int, (s.kermesses.map
          (fun k => if k.Id = id then
            { k with Name := utils.Index input "name",
                     Description := utils.Index input "description" } else k)).any
          (fun k => decide (k.Id = x) && decide (k.Status = KermesseStatusStarted))
        = s.kermesses.any
          (fun k => decide (k.Id = x) && decide (k.Status = KermesseStatusStarted)) := by
      intro x
      rw [List.any_map]
      congr 1
      funext k
      simp only [Function.comp]
      split <;> rfl
    have hids : (s.kermesses.map
          (fun k => if k.Id = id then
            { k with Name := utils.Index input "name",
                     Description := utils.Index input "description" } else k)).map
          (fun k => k.Id) = s.kermesses.map (fun k => k.Id) := by
      rw [List.map_map]
      apply List.map_congr_left
      intro a _
      simp only [Function.comp]
      split <;> rfl
    refine ⟨?_, ?_⟩
    · intro ks hks
      rw [hids]
      exact e1 ks hks
    · intro st
      simp only [hany]
      exact e2 st
  · unfold Exclusive activeLinks active
    rw [h1, h2]
    simp only [kermesse.Repository.End]
    have hids : (s.kermesses.map
          (fun k => if k.Id = id then { k with Status := KermesseStatusEnded } else k)).map
          (fun k => k.Id) = s.kermesses.map (fun k => k.Id) := by
      rw [List.map_map]
      apply List.map_congr_left
      intro a _
      simp only [Function.comp]
      split <;> rfl
    refine ⟨?_, ?_⟩
    · intro ks hks
      rw [hids]
      exact e1 ks hks
    · intro st
      refine le_trans (length_filter_le_of_imp _ _ _ ?_) (e2 st)
      intro ks _ hp
      simp only [Bool.and_eq_true, decide_eq_true_eq, List.any_eq_true, List.mem_map] at hp ⊢
      obtain ⟨h1', k1, ⟨k0, hk0, rfl⟩, h3, h4⟩ := hp
      refine ⟨h1', k0, hk0, ?_, ?_⟩
      · by_cases hid : k0.Id = id
        · simp only [hid, if_true] at h3
          rw [hid]; exact h3
        · simp only [hid, if_false] at h3
          exact h3
      · by_cases hid : k0.Id = id
        · simp only [hid, if_true] at h4
          exact absurd h4 (by decide)
        · simp only [hid, if_false] at h4
          exact h4
  · unfold Exclusive activeLinks active
    rw [h1, h2]
    refine ⟨?_, ?_⟩
    · intro ks hks
      rcases List.mem_append.mp hks with hks | hks
      · exact e1 ks hks
      · simp only [List.mem_singleton] at hks
        subst hks
        exact List.mem_map.mpr
          ⟨k, List.mem_of_find?_eq_some hk, find_kermesse_id hk⟩
    · intro st
      rw [List.filter_append]
      by_cases hst : standId = st
      · subst hst
        have hnil := (CanAddStand_true_iff s standId).mp hcan
        unfold activeLinks active at hnil
        rw [hnil]
        simp only [List.nil_append]
        exact List.length_filter_le _ _
      · have : ([(kermesseId, standId)] : List (Int × Int)).filter
            (fun ks => decide (ks.2 = st) &&
              s.kermesses.any (fun k => decide (k.Id = ks.1) &&
                decide (k.Status = KermesseStatusStarted))) = [] := by
          simp [hst]
        rw [this, List.append_nil]
        exact e2 st

theorem reachable_exclusive (s : Store) (h : Reachable s) : Exclusive s := by
  induction h with
  | empty =>
    refine ⟨?_, ?_⟩
    · intro ks hks; cases hks
    · intro st; simp [activeLinks, Store.empty]
  | step s op _ ih => exact exclusive_step s op ih

/-- C16, amended.  One active event per stand, for requests that do not
overlap.  In every store reached from the empty store by service operations
that run one after the other, each stand has at most one association with a
kermesse whose status is STARTED.  In any store, an AddStand to an existing
kermesse that no other request overlaps returns BadRequest and leaves the
store unchanged whenever the stand is already associated with some kermesse
whose status is STARTED; and when the stand has no such association (for
instance once the first kermesse has ended), AddStand by the organizer of a
kermesse that has not ended succeeds and adds exactly that association. -/
theorem C16_one_active_event (s : Store) (hr : Reachable s) :
    (∀ standId, (activeLinks s standId).length ≤ 1) ∧
    (∀ (s0 : Store) (ctx : Ctx) (input : Input) (kermesseId standId : Int) (k : Kermesse),
      utils.Index input "kermesse_id" = Val.int kermesseId →
      kermesse.Repository.FindById s0 kermesseId = some k →
      utils.Index input "stand_id" = Val.int standId →
      (∃ ks ∈ s0.kermessesStands, ks.2 = standId ∧
        ∃ k' ∈ s0.kermesses, k'.Id = ks.1 ∧ k'.Status = KermesseStatusStarted) →
      ∃ msg, kermesse.Service.AddStand s0 ctx input
        = (Result.error { Key := ErrorKey.BadRequest, Err := msg }, s0)) ∧
    (∀ (s0 : Store) (ctx : Ctx) (input : Input) (kermesseId standId : Int) (k : Kermesse),
      utils.Index input "kermesse_id" = Val.int kermesseId →
      kermesse.Repository.FindById s0 kermesseId = some k →
      utils.GetIntFromMap input "stand_id" = Except.ok standId →
      k.Status ≠ KermesseStatusEnded → ctx.UserID = some k.UserId →
      (¬ ∃ ks ∈ s0.kermessesStands, ks.2 = standId ∧
        ∃ k' ∈ s0.kermesses, k'.Id = ks.1 ∧ k'.Status = KermesseStatusStarted) →
      kermesse.Service.AddStand s0 ctx input
        = (Result.ok, { s0 with
            kermessesStands := s0.kermessesStands ++ [(kermesseId, standId)] })) := by
  refine ⟨(reachable_exclusive s hr).2, ?_, ?_⟩
  · intro s0 ctx input kermesseId standId k hkid hk hsid hact
    have hcan : ¬ kermesse.Repository.CanAddStand s0 standId = true := by
      rw [CanAddStand_true_iff]
      exact (activeLinks_ne_nil_iff s0 standId).mpr hact
    cases hg : utils.GetIntFromMap input "stand_id" with
    | error e =>
      by_cases he : k.Status = KermesseStatusEnded
      · exact ⟨_, by simp only [kermesse.Service.AddStand, hkid, hk, hg, if_pos he]; rfl⟩
      · exact ⟨_, by simp only [kermesse.Service.AddStand, hkid, hk, hg, if_neg he]; rfl⟩
    | ok n =>
      have hn := GetIntFromMap_ok hg
      rw [hsid] at hn
      cases hn
      rw [kermesse_AddStand_eval hkid hk hg]
      by_cases he : k.Status = KermesseStatusEnded
      · exact ⟨_, by rw [if_pos he]; rfl⟩
      · exact ⟨_, by rw [if_neg he, if_neg hcan]; rfl⟩
  · intro s0 ctx input kermesseId standId k hkid hk hsid hne hctx hno
    have hcan : kermesse.Repository.CanAddStand s0 standId = true := by
      rw [CanAddStand_true_iff]
      by_contra hnil
      exact hno ((activeLinks_ne_nil_iff s0 standId).mp hnil)
    rw [kermesse_AddStand_eval hkid hk hsid, if_neg hne, if_pos hcan, hctx]
    simp

/-- Witness of C16 amended: stand 1 was associated with the first kermesse, now
ended; in that reachable store it is associated with the second kermesse as
well, and a further association with a started kermesse is refused. -/
theorem C16_one_active_event_witness :
    (run Store.empty twoFests).kermessesStands = [(1, 1)] ∧
    kermesse.Service.AddStand (run Store.empty twoFests) (asUser 3 UserRoleOrganizer)
        [("kermesse_id", Val.int 2), ("stand_id", Val.int 1)]
      = (Result.ok, { run Store.empty twoFests with
          kermessesStands := (run Store.empty twoFests).kermessesStands ++ [(2, 1)] }) ∧
    (∀ standId, (activeLinks (run Store.empty twoFests) standId).length ≤ 1) :=
  ⟨by decide,
   (C16_one_active_event (run Store.empty twoFests)
      (reachable_run _ _ Reachable.empty)).2.2 (run Store.empty twoFests)
      (asUser 3 UserRoleOrganizer) [("kermesse_id", Val.int 2), ("stand_id", Val.int 1)]
      2 1 fest2 (by decide) (by decide) rfl (by decide) (by decide) (by decide),
   (C16_one_active_event (run Store.empty twoFests)
      (reachable_run _ _ Reachable.empty)).1⟩

/-! ## Owner-only mutation -/

/-- C21. Owner-only mutation.  For every store and every principal `p`:
kermesse Update, End, AddUser and AddStand and tombola Create on an existing
kermesse whose organizer is not `p`, tombola Update and Finish on a tombola of
such a kermesse, and stand Update on a stand whose owning user is not `p`,
return an error (Forbidden, or BadRequest when an earlier business rule
refuses the call first) and leave the whole store unchanged. -/
theorem C21_owner_only (s : Store) (ctx : Ctx) (p : Int) (hp : ctx.UserID = some p) :
    (∀ (id : Int) (input : Input) (k : Kermesse),
      kermesse.Repository.FindById s id = some k → k.UserId ≠ p →
      ∃ e, refused e ∧ kermesse.Service.Update s ctx id input = (Result.error e, s)) ∧
    (∀ (id : Int) (k : Kermesse),
      kermesse.Repository.FindById s id = some k → k.UserId ≠ p →
      ∃ e, refused e ∧ kermesse.Service.End s ctx id = (Result.error e, s)) ∧
    (∀ (input : Input) (id : Int) (k : Kermesse),
      utils.Index input "kermesse_id" = Val.int id →
      kermesse.Repository.FindById s id = some k → k.UserId ≠ p →
      ∃ e, refused e ∧ kermesse.Service.AddUser s ctx input = (Result.error e, s)) ∧
    (∀ (input : Input) (id : Int) (k : Kermesse),
      utils.Index input "kermesse_id" = Val.int id →
      kermesse.Repository.FindById s id = some k → k.UserId ≠ p →
      ∃ e, refused e ∧ kermesse.Service.AddStand s ctx input = (Result.error e, s)) ∧
    (∀ (input : Input) (id : Int) (k : Kermesse),
      utils.Index input "kermesse_id" = Val.int id →
      kermesse.Repository.FindById s id = some k → k.UserId ≠ p →
      ∃ e, refused e ∧ tombola.Service.Create s ctx input = (Result.error e, s)) ∧
    (∀ (id : Int) (input : Input) (t : Tombola) (k : Kermesse),
      tombola.Repository.FindById s id = some t →
      kermesse.Repository.FindById s t.KermesseId = some k → k.UserId ≠ p →
      ∃ e, refused e ∧ tombola.Service.Update s ctx id input = (Result.error e, s)) ∧
    (∀ (id : Int) (r : Nat) (t : Tombola) (k : Kermesse),
      tombola.Repository.FindById s id = some t →
      kermesse.Repository.FindById s t.KermesseId = some k → k.UserId ≠ p →
      ∃ e, refused e ∧ tombola.Service.Finish s ctx id r = (Result.error e, s)) ∧
    (∀ (id : Int) (input : Input) (st : Stand),
      stand.Repository.FindById s id = some st → st.UserId ≠ p →
      stand.Service.Update s ctx id input
        = (Result.error { Key := ErrorKey.Forbidden,
                          Err := "user is not the holder of the stand" }, s)) := by
  refine ⟨?_, ?_, ?_, ?_, ?_, ?_, ?_, ?_⟩
  · intro id input k hk hne
    simp only [kermesse.Service.Update, hk, hp]
    split
    · exact ⟨_, Or.inr rfl, rfl⟩
    · exact ⟨_, Or.inl rfl, rfl⟩
  · intro id k hk hne
    simp only [kermesse.Service.End, hk, hp]
    split
    · exact ⟨_, Or.inr rfl, rfl⟩
    · split
      · exact ⟨_, Or.inr rfl, rfl⟩
      · exact ⟨_, Or.inl rfl, rfl⟩
  · intro input id k hid hk hne
    simp only [kermesse.Service.AddUser, hid, hk, hp]
    split
    · exact ⟨_, Or.inr rfl, rfl⟩
    · exact ⟨_, Or.inl rfl, rfl⟩
  · intro input id k hid hk hne
    simp only [kermesse.Service.AddStand, hid, hk, hp]
    split
    · exact ⟨_, Or.inr rfl, rfl⟩
    · split
      · exact ⟨_, Or.inr rfl, rfl⟩
      · split
        · exact ⟨_, Or.inr rfl, rfl⟩
        · exact ⟨_, Or.inl rfl, rfl⟩
  · intro input id k hid hk hne
    rcases GetIntFromMap_cases input "kermesse_id" with ⟨msg, hg⟩ | ⟨n, hg, hn⟩
    · exact ⟨_, Or.inr rfl, by simp only [tombola.Service.Create, hg]; rfl⟩
    · rw [hid] at hn
      cases hn
      simp only [tombola.Service.Create, hg, hk, hp]
      split
      · exact ⟨_, Or.inr rfl, rfl⟩
      · exact ⟨_, Or.inl rfl, rfl⟩
  · intro id input t k ht hk hne
    simp only [tombola.Service.Update, ht, hk, hp]
    split
    · exact ⟨_, Or.inr rfl, rfl⟩
    · exact ⟨_, Or.inl rfl, rfl⟩
  · intro id r t k ht hk hne
    simp only [tombola.Service.Finish, ht, hk, hp]
    split
    · exact ⟨_, Or.inr rfl, rfl⟩
    · exact ⟨_, Or.inl rfl, rfl⟩
  · intro id input st hst hne
    simp only [stand.Service.Update, hst, hp]
    rw [if_pos hne]; rfl

/-- Witness of C21: the stand holder tries to finish the tombola of the
organizer, and the organizer tries to rewrite the stand of the holder. -/
theorem C21_owner_only_witness :
    (∃ e, refused e ∧
      tombola.Service.Finish openFest (asUser 2 UserRoleStandHolder) 1 0
        = (Result.error e, openFest)) ∧
    stand.Service.Update fair (asUser 3 UserRoleOrganizer) 1 (stall "mine")
      = (Result.error { Key := ErrorKey.Forbidden,
                        Err := "user is not the holder of the stand" }, fair) :=
  ⟨(C21_owner_only openFest (asUser 2 UserRoleStandHolder) 2 rfl).2.2.2.2.2.2.1 1 0
      (raffle TombolaStatusStarted) (fest KermesseStatusStarted)
      (by decide) (by decide) (by decide),
   (C21_owner_only fair (asUser 3 UserRoleOrganizer) 3 rfl).2.2.2.2.2.2.2 1 (stall "mine")
      (cakes InteractionTypeConsumption 3) (by decide) (by decide)⟩

/-! ## Parent references -/

theorem parented_map (l : List User) (g : User → User)
    (hg : ∀ u, (g u).ParentId = u.ParentId ∧ (g u).Role = u.Role)
    (h : ∀ u ∈ l, u.ParentId ≠ none → u.Role = UserRoleChild) :
    ∀ u ∈ l.map g, u.ParentId ≠ none → u.Role = UserRoleChild := by
  intro u hu hp
  rw [List.mem_map] at hu
  obtain ⟨v, hv, rfl⟩ := hu
  rw [(hg v).2]
  exact h v hv (by rw [← (hg v).1]; exact hp)

theorem addCredit_keeps (id amount : Int) (u : User) :
    (addCredit id amount u).ParentId = u.ParentId ∧ (addCredit id amount u).Role = u.Role := by
  unfold addCredit
  split <;> exact ⟨rfl, rfl⟩

/-- One call keeps the parent references with the children. -/
theorem parented_step (s : Store) (op : Op) (hs : Parented s) : Parented (step s op).2 := by
  unfold Parented at hs ⊢
  cases op with
  | userUpdate env ctx id input =>
    rcases user_Update_store env s ctx id input with h | ⟨p, h⟩ <;>
      (simp only [step]; rw [h])
    · exact hs
    · refine parented_map _ _ ?_ hs
      intro u
      dsimp only
      split <;> exact ⟨rfl, rfl⟩
  | userInvite env ctx input =>
    rcases user_Invite_store env s ctx input with h | ⟨row, userId, -, -, -, hrole, -, h⟩ <;>
      (simp only [step]; rw [h])
    · exact hs
    · intro u hu hp
      rcases List.mem_append.mp hu with hu | hu
      · exact hs u hu hp
      · rw [List.mem_singleton] at hu
        rw [hu]; exact hrole
  | userUpdateCredit userId credit =>
    rcases user_UpdateCredit_store s userId credit with h | h <;>
      (simp only [step]; rw [h])
    · exact hs
    · rw [users_UpdateCredit]
      exact parented_map _ _ (addCredit_keeps _ _) hs
  | userPay ctx input =>
    rcases user_Pay_store s ctx input with h | ⟨_, _, _, _, -, -, -, h⟩ <;>
      (simp only [step]; rw [h])
    · exact hs
    · rw [users_UpdateCredit, users_UpdateCredit]
      exact parented_map _ _ (addCredit_keeps _ _) (parented_map _ _ (addCredit_keeps _ _) hs)
  | userSignUp env input =>
    rcases user_SignUp_store env s input with h | ⟨row, -, -, -, hnone, h⟩ <;>
      (simp only [step]; rw [h])
    · exact hs
    · intro u hu hp
      rcases List.mem_append.mp hu with hu | hu
      · exact hs u hu hp
      · rw [List.mem_singleton] at hu
        rw [hu] at hp
        exact absurd hnone hp
  | standCreate ctx input =>
    rcases stand_Create_store s ctx input with h | ⟨row, -, -, -, h⟩ <;>
      (simp only [step]; rw [h]) <;> exact hs
  | standUpdate ctx id input =>
    rcases stand_Update_store s ctx id input with h | ⟨_, _, -, h⟩ <;>
      (simp only [step]; rw [h]) <;> exact hs
  | standUpdateCurrent ctx input =>
    rcases stand_UpdateCurrent_store s ctx input with h | ⟨_, _, _, -, h⟩ <;>
      (simp only [step]; rw [h]) <;> exact hs
  | kermesseCreate ctx input =>
    rcases kermesse_Create_store s ctx input with h | ⟨row, -, -, -, h⟩ <;>
      (simp only [step]; rw [h]) <;> exact hs
  | kermesseUpdate ctx id input =>
    rcases kermesse_Update_store s ctx id input with h | h <;>
      (simp only [step]; rw [h]) <;> exact hs
  | kermesseEnd ctx id =>
    rcases kermesse_End_store s ctx id with h | ⟨-, h⟩ <;>
      (simp only [step]; rw [h]) <;> exact hs
  | kermesseAddUser ctx input =>
    rcases kermesse_AddUser_store s ctx input with h | ⟨_, h⟩ <;>
      (simp only [step]; rw [h]) <;> exact hs
  | kermesseAddStand ctx input =>
    rcases kermesse_AddStand_store s ctx input with h | ⟨_, h⟩ <;>
      (simp only [step]; rw [h]) <;> exact hs
  | tombolaCreate ctx input =>
    rcases tombola_Create_store s ctx input with h | ⟨_, _, -, -, -, -, h⟩ <;>
      (simp only [step]; rw [h]) <;> exact hs
  | tombolaUpdate ctx id input =>
    rcases tombola_Update_store s ctx id input with h | ⟨_, h⟩ <;>
      (simp only [step]; rw [h]) <;> exact hs
  | tombolaFinish ctx id r =>
    rcases tombola_Finish_store s ctx id r with h | h <;>
      (simp only [step]; rw [h])
    · exact hs
    · rw [(SetWinner_frame s id r).1]; exact hs
  | ticketCreate ctx input =>
    rcases ticket_Create_store s ctx input with h | ⟨_, _, _, _, -, -, -, h⟩ <;>
      (simp only [step]; rw [h])
    · exact hs
    · show ∀ u ∈ (user.Repository.UpdateCredit s _ _).users, _
      rw [users_UpdateCredit]
      exact parented_map _ _ (addCredit_keeps _ _) hs
  | interactionCreate ctx input =>
    rcases interaction_Create_store s ctx input with h | ⟨_, _, _, _, _, -, -, -, -, -, -, h⟩ <;>
      (simp only [step]; rw [h])
    · exact hs
    · rw [users_settled]
      exact parented_map _ _ (addCredit_keeps _ _) (parented_map _ _ (addCredit_keeps _ _) hs)
  | interactionUpdate ctx id input =>
    rcases interaction_Update_store s ctx id input with h | h <;>
      (simp only [step]; rw [h]) <;> exact hs

theorem reachable_parented (s : Store) (h : Reachable s) : Parented s := by
  induction h with
  | empty => intro u hu; cases hu
  | step s op _ ih => exact parented_step s op ih

/-- SignUp with the role CHILD never succeeds and writes nothing. -/
theorem user_SignUp_child (env : Env) (s : Store) (input : Input)
    (h : utils.Index input "role" = Val.str UserRoleChild) :
    (user.Service.SignUp env s input).1 ≠ Result.ok ∧
    (user.Service.SignUp env s input).2 = s := by
  have hr : ∀ v w, utils.Index (utils.Assign (utils.Assign input "password" v) "parent_id" w)
      "role" = Val.str UserRoleChild := by
    intro v w
    rw [Index_Assign_ne _ _ _ _ (by decide), Index_Assign_ne _ _ _ _ (by decide)]
    exact h
  unfold user.Service.SignUp
  repeat' first | split | dsimp only
  all_goals first | exact ⟨by simp [fail], rfl⟩ | skip
  all_goals exact absurd (hr _ _) ‹_›

/-- C25. Parent references belong to children only.  In every store
reachable from the empty store through the service operations, a user has a
parent reference only if its role is CHILD.  In any store, every account that
SignUp inserts has no parent reference and a role other than CHILD; SignUp
with the role CHILD never succeeds and creates no user, and returns BadRequest
whenever the email is free and the password is hashed; and every account that
Invite inserts has the role CHILD and the calling principal as its parent
reference. -/
theorem C25_parent_only_child (s : Store) (hr : Reachable s) :
    (∀ u ∈ s.users, u.ParentId ≠ none → u.Role = UserRoleChild) ∧
    (∀ (env : Env) (s0 : Store) (input : Input),
      (user.Service.SignUp env s0 input).2 = s0 ∨
      ∃ row : User, row.ParentId = none ∧ row.Role ≠ UserRoleChild ∧
        (user.Service.SignUp env s0 input).2 = { s0 with users := s0.users ++ [row] }) ∧
    (∀ (env : Env) (s0 : Store) (input : Input),
      utils.Index input "role" = Val.str UserRoleChild →
      (user.Service.SignUp env s0 input).1 ≠ Result.ok ∧
      (user.Service.SignUp env s0 input).2 = s0) ∧
    (∀ (env : Env) (s0 : Store) (input : Input) (email password hashed : String),
      utils.Index input "role" = Val.str UserRoleChild →
      utils.Index input "email" = Val.str email →
      user.Repository.FindByEmail s0 email = none →
      utils.Index input "password" = Val.str password →
      env.Hash password = some hashed →
      user.Service.SignUp env s0 input
        = (Result.error { Key := ErrorKey.BadRequest, Err := "role cannot be child" }, s0)) ∧
    (∀ (env : Env) (s0 : Store) (ctx : Ctx) (input : Input),
      (user.Service.Invite env s0 ctx input).2 = s0 ∨
      ∃ (row : User) (p : Int), ctx.UserID = some p ∧ row.Role = UserRoleChild ∧
        row.ParentId = some p ∧
        (user.Service.Invite env s0 ctx input).2 = { s0 with users := s0.users ++ [row] }) := by
  refine ⟨reachable_parented s hr, ?_, user_SignUp_child, ?_, ?_⟩
  · intro env s0 input
    rcases user_SignUp_store env s0 input with h | ⟨row, -, -, h1, h2, h3⟩
    · exact Or.inl h
    · exact Or.inr ⟨row, h2, h1, h3⟩
  · intro env s0 input email password hashed hrole he hf hp hh
    have hr : utils.Index (utils.Assign (utils.Assign input "password" (Val.str hashed))
        "parent_id" Val.null) "role" = Val.str UserRoleChild := by
      rw [Index_Assign_ne _ _ _ _ (by decide), Index_Assign_ne _ _ _ _ (by decide)]
      exact hrole
    simp only [user.Service.SignUp, he, hf, hp, hh, hr, if_true, fail]
  · intro env s0 ctx input
    rcases user_Invite_store env s0 ctx input with h | ⟨row, p, h1, -, -, h2, h3, h4⟩
    · exact Or.inl h
    · exact Or.inr ⟨row, p, h1, h2, h3, h4⟩

/-- Witness of C25: the season, reached from the empty store, with a parent
and the child it invited. -/
theorem C25_parent_only_child_witness :
    (run Store.empty season).users = [mum 5, kid 3] ∧
    (∀ u ∈ (run Store.empty season).users, u.ParentId ≠ none → u.Role = UserRoleChild) :=
  ⟨by decide, (C25_parent_only_child _ (reachable_run _ _ Reachable.empty)).1⟩

/-! ## Invite and the notification service -/

/-- C26. Invite with a failing notification service.  For a payload with an
email: when no user has that email, the password is generated and hashed, the
principal is known and `SendInvitationEmail` fails, Invite returns
InternalServerError while the store has gained exactly the account of the
child (role CHILD, parent reference the caller), and the one mail attempted is
that invitation; when a user already has that email, Invite returns
EmailAlreadyExists, leaves the store unchanged and sends no mail. -/
theorem C26_invite_mail_failure (env : Env) (s : Store) (ctx : Ctx) (input : Input)
    (email : String) (he : utils.Index input "email" = Val.str email) :
    (∀ (password hashed : String) (p : Int),
      user.Repository.FindByEmail s email = none →
      env.RandomPassword = some password → env.Hash password = some hashed →
      ctx.UserID = some p →
      env.SendInvitationEmail email email password = false →
      (∃ msg, user.Service.Invite env s ctx input
        = (Result.error { Key := ErrorKey.InternalServerError, Err := msg },
            { s with users := s.users ++ [invited s input email hashed p] })) ∧
      user.Service.InviteMails env s ctx input = [(email, email, password)]) ∧
    (∀ u : User, user.Repository.FindByEmail s email = some u →
      user.Service.Invite env s ctx input
        = (Result.error { Key := ErrorKey.EmailAlreadyExists, Err := "email already exists" }, s) ∧
      user.Service.InviteMails env s ctx input = []) := by
  constructor
  · intro password hashed p hf hr hh hp hm
    constructor
    · refine ⟨"resend", ?_⟩
      simp only [user.Service.Invite, he, hf, hr, hh, hp, user.Repository.Create, utils.Index,
        user.Repository.parentOf, hm, fail, invited]
      simp
    · simp only [user.Service.InviteMails, he, hf, hr, hh, hp, user.Repository.Create,
        utils.Index, user.Repository.parentOf]
      simp
  · intro u hf
    constructor
    · simp only [user.Service.Invite, he, hf, fail]
    · simp only [user.Service.InviteMails, he, hf]

/-- Witness of C26: the parent of the season invites a child while the
notification service is down, and invites its own address. -/
theorem C26_invite_mail_failure_witness :
    ((∃ msg, user.Service.Invite deafEnv signedUp (asUser 1 UserRoleParent)
        [("name", Val.str "child"), ("email", Val.str "c@x")]
      = (Result.error { Key := ErrorKey.InternalServerError, Err := msg },
          { signedUp with users := [mum 0, kid 0] })) ∧
      user.Service.InviteMails deafEnv signedUp (asUser 1 UserRoleParent)
        [("name", Val.str "child"), ("email", Val.str "c@x")] = [("c@x", "c@x", "secret")]) ∧
    (user.Service.Invite deafEnv signedUp (asUser 1 UserRoleParent)
        [("name", Val.str "child"), ("email", Val.str "p@x")]
      = (Result.error { Key := ErrorKey.EmailAlreadyExists, Err := "email already exists" },
          signedUp) ∧
      user.Service.InviteMails deafEnv signedUp (asUser 1 UserRoleParent)
        [("name", Val.str "child"), ("email", Val.str "p@x")] = []) :=
  ⟨(C26_invite_mail_failure deafEnv signedUp (asUser 1 UserRoleParent)
      [("name", Val.str "child"), ("email", Val.str "c@x")] "c@x" rfl).1 "secret" "secret" 1
      (by decide) rfl rfl rfl rfl,
   (C26_invite_mail_failure deafEnv signedUp (asUser 1 UserRoleParent)
      [("name", Val.str "child"), ("email", Val.str "p@x")] "p@x" rfl).2 (mum 0) (by decide)⟩

/-! ## Ended kermesses have no started tombola -/

/-- One call keeps the ids of the kermesses a key. -/
theorem kermesse_keys_step (s : Store) (op : Op)
    (h : (s.kermesses.map (fun k => k.Id)).Nodup) :
    ((step s op).2.kermesses.map (fun k => k.Id)).Nodup := by
  rcases step_links s op with ⟨h1, -⟩ | ⟨-, row, h1, h2⟩ | ⟨-, id, input, h1⟩ | ⟨-, id, h1⟩ |
    ⟨h1, -⟩
  · rw [h1]; exact h
  · rw [h2]; exact nodup_append_fresh (fun k => k.Id) _ row h h1
  · rw [h1]
    have : (kermesse.Repository.Update s id input).kermesses.map (fun k => k.Id)
        = s.kermesses.map (fun k => k.Id) := by
      simp only [kermesse.Repository.Update, List.map_map]
      apply List.map_congr_left
      intro k _
      simp only [Function.comp]
      split <;> rfl
    rw [this]; exact h
  · rw [h1]
    have : (kermesse.Repository.End s id).kermesses.map (fun k => k.Id)
        = s.kermesses.map (fun k => k.Id) := by
      simp only [kermesse.Repository.End, List.map_map]
      apply List.map_congr_left
      intro k _
      simp only [Function.comp]
      split <;> rfl
    rw [this]; exact h
  · rw [h1]; exact h

theorem reachable_kermesse_keys (s : Store) (h : Reachable s) :
    (s.kermesses.map (fun k => k.Id)).Nodup := by
  induction h with
  | empty => exact List.nodup_nil
  | step s op _ ih => exact kermesse_keys_step s op ih

theorem find_of_mem_nodup {α : Type} (f : α → Int) {l : List α} {u : α}
    (hn : (l.map f).Nodup) (hu : u ∈ l) :
    l.find? (fun a => decide (f a = f u)) = some u := by
  cases hf : l.find? (fun a => decide (f a = f u)) with
  | none =>
    rw [List.find?_eq_none] at hf
    have := hf u hu
    simp at this
  | some p => rw [eq_of_find_nodup f hn hf hu rfl]

/-- One call keeps every tombola row in place, with its id and its kermesse,
and starts no tombola again. -/
theorem step_tombola_row (s : Store) (op : Op) (i : Nat) (t : Tombola)
    (ht : s.tombolas[i]? = some t) :
    ∃ t', (step s op).2.tombolas[i]? = some t' ∧ t'.Id = t.Id ∧
      t'.KermesseId = t.KermesseId ∧
      (t'.Status = TombolaStatusStarted → t.Status = TombolaStatusStarted) := by
  rcases step_lifecycle s op with ⟨-, h⟩ | ⟨h, -⟩ | ⟨h, -⟩ | ⟨h, -⟩ | ⟨-, row, k, -, -, h⟩ |
    ⟨-, id, price, input, h⟩ | ⟨-, id, h⟩
  · rw [h]; exact ⟨t, ht, rfl, rfl, id⟩
  · rw [h]; exact ⟨t, ht, rfl, rfl, id⟩
  · rw [h]; exact ⟨t, ht, rfl, rfl, id⟩
  · rw [h]; exact ⟨t, ht, rfl, rfl, id⟩
  · rw [h]
    have hi : i < s.tombolas.length := by
      by_contra hlt
      rw [List.getElem?_eq_none (by omega)] at ht
      cases ht
    rw [List.getElem?_append_left hi]
    exact ⟨t, ht, rfl, rfl, id⟩
  · rw [h, List.getElem?_map, ht]
    refine ⟨_, rfl, ?_⟩
    dsimp only
    split <;> exact ⟨rfl, rfl, fun h => h⟩
  · rw [h, List.getElem?_map, ht]
    refine ⟨_, rfl, ?_⟩
    dsimp only
    split
    · refine ⟨rfl, rfl, ?_⟩
      intro hs
      exact absurd (show TombolaStatusEnded = TombolaStatusStarted from hs) (by decide)
    · exact ⟨rfl, rfl, fun h => h⟩

/-- C28, amended.  In every store reached from the empty store by service
operations that run one after the other, no request overlapping another, no
kermesse with status ENDED has a tombola with status STARTED.  In any store,
for a call that no other request overlaps: tombola Create for an existing
kermesse whose status is ENDED returns BadRequest and writes nothing; kermesse
End of an existing kermesse with a STARTED tombola returns BadRequest and
writes nothing; and every operation leaves each tombola row with its id and
its kermesse, and with the status STARTED only if it had it before. -/
theorem C28_ended_kermesse_closed (s : Store) (hr : Reachable s) :
    (∀ k ∈ s.kermesses, k.Status = KermesseStatusEnded →
      ∀ t ∈ s.tombolas, t.KermesseId = k.Id → t.Status ≠ TombolaStatusStarted) ∧
    (∀ (s0 : Store) (ctx : Ctx) (input : Input) (kermesseId : Int) (k : Kermesse),
      utils.GetIntFromMap input "kermesse_id" = Except.ok kermesseId →
      kermesse.Repository.FindById s0 kermesseId = some k →
      k.Status = KermesseStatusEnded →
      tombola.Service.Create s0 ctx input
        = (Result.error { Key := ErrorKey.BadRequest, Err := "kermesse is ended" }, s0)) ∧
    (∀ (s0 : Store) (ctx : Ctx) (id : Int) (k : Kermesse),
      kermesse.Repository.FindById s0 id = some k →
      (∃ t ∈ s0.tombolas, t.KermesseId = id ∧ t.Status = TombolaStatusStarted) →
      ∃ msg, kermesse.Service.End s0 ctx id
        = (Result.error { Key := ErrorKey.BadRequest, Err := msg }, s0)) ∧
    (∀ (s0 : Store) (op : Op) (i : Nat) (t : Tombola), s0.tombolas[i]? = some t →
      ∃ t', (step s0 op).2.tombolas[i]? = some t' ∧ t'.Id = t.Id ∧
        t'.KermesseId = t.KermesseId ∧
        (t'.Status = TombolaStatusStarted → t.Status = TombolaStatusStarted)) := by
  refine ⟨?_, ?_, ?_, step_tombola_row⟩
  · intro k hk he t ht htk
    have hf : kermesse.Repository.FindById s t.KermesseId = some k := by
      rw [htk]
      exact find_of_mem_nodup (fun k => k.Id) (reachable_kermesse_keys s hr) hk
    exact reachable_closed s hr t ht k hf he
  · intro s0 ctx input kermesseId k hg hk he
    simp only [tombola.Service.Create, hg, hk, he, if_true, fail]
  · intro s0 ctx id k hk ⟨t, ht, htk, hts⟩
    have hcan : ¬ kermesse.Repository.CanEnd s0 id = true := by
      rw [CanEnd_iff]
      intro hall
      exact hall t ht ⟨htk, hts⟩
    simp only [kermesse.Service.End, hk]
    split
    · exact ⟨_, rfl⟩
    · exact ⟨_, rfl⟩

/-- Witness of C28 amended: the fest, ended after its only tombola was finished. -/
theorem C28_ended_kermesse_closed_witness :
    closedFest.kermesses = [fest KermesseStatusEnded] ∧
    closedFest.tombolas = [raffle TombolaStatusEnded] ∧
    (∀ k ∈ closedFest.kermesses, k.Status = KermesseStatusEnded →
      ∀ t ∈ closedFest.tombolas, t.KermesseId = k.Id → t.Status ≠ TombolaStatusStarted) :=
  ⟨by decide, by decide,
   (C28_ended_kermesse_closed closedFest
      (reachable_run _ _ (reachable_run _ _ Reachable.empty))).1⟩

/-! ## The principal and the payload -/

theorem GetIntFromMap_congr {input input' : Input} (h : sameButUser input input')
    (key : String) (hk : key ≠ "user_id") :
    utils.GetIntFromMap input key = utils.GetIntFromMap input' key := by
  unfold utils.GetIntFromMap
  rw [h key hk]

theorem Index_Assign_congr {input input' : Input} (h : sameButUser input input')
    (v : Val) (key : String) :
    utils.Index (utils.Assign input "user_id" v) key
      = utils.Index (utils.Assign input' "user_id" v) key := by
  by_cases hk : key = "user_id"
  · subst hk
    rw [Index_Assign_eq, Index_Assign_eq]
  · rw [Index_Assign_ne _ _ _ _ (Ne.symm hk), Index_Assign_ne _ _ _ _ (Ne.symm hk)]
    exact h key hk

theorem kermesse_Create_congr {input input' : Input} (h : sameButUser input input')
    (s : Store) (v : Val) :
    kermesse.Repository.Create s (utils.Assign input "user_id" v)
      = kermesse.Repository.Create s (utils.Assign input' "user_id" v) := by
  unfold kermesse.Repository.Create
  simp only [Index_Assign_congr h]

theorem stand_Create_congr {input input' : Input} (h : sameButUser input input')
    (s : Store) (v : Val) :
    stand.Repository.Create s (utils.Assign input "user_id" v)
      = stand.Repository.Create s (utils.Assign input' "user_id" v) := by
  unfold stand.Repository.Create
  simp only [Index_Assign_congr h]

theorem ticket_Create_congr {input input' : Input} (h : sameButUser input input')
    (s : Store) (v : Val) :
    ticket.Repository.Create s (utils.Assign input "user_id" v)
      = ticket.Repository.Create s (utils.Assign input' "user_id" v) := by
  unfold ticket.Repository.Create
  simp only [Index_Assign_congr h]

theorem interaction_Create_congr {input input' : Input} (h : sameButUser input input')
    (s : Store) (a b c : Val) :
    interaction.Repository.Create s
        (utils.Assign (utils.Assign (utils.Assign input "user_id" a) "type" b) "credit" c)
      = interaction.Repository.Create s
        (utils.Assign (utils.Assign (utils.Assign input' "user_id" a) "type" b) "credit" c) := by
  have hI : ∀ key,
      utils.Index
          (utils.Assign (utils.Assign (utils.Assign input "user_id" a) "type" b) "credit" c) key
        = utils.Index
          (utils.Assign (utils.Assign (utils.Assign input' "user_id" a) "type" b) "credit" c)
          key := by
    intro key
    simp only [utils.Assign, utils.Index]
    split
    · rfl
    · split
      · rfl
      · exact Index_Assign_congr h a key
  unfold interaction.Repository.Create
  simp only [hI]

theorem quantity_congr {input input' : Input} (h : sameButUser input input') (st : Stand) :
    interaction.Service.quantity st input = interaction.Service.quantity st input' := by
  unfold interaction.Service.quantity
  rw [GetIntFromMap_congr h "quantity" (by decide)]

/-- C29. The principal cannot be spoofed through the payload.  For every
store, every request context and any two payloads that differ at most in
their entry `user_id`, kermesse Create, stand Create, ticket Create and
interaction Create each return the same result and leave the same store; and
when the call succeeds, the row it inserts (kermesse, stand, ticket,
interaction) has as owner or buyer the id of the principal of the request
context. -/
theorem C29_principal_not_spoofed (s : Store) (ctx : Ctx) (input input' : Input)
    (h : sameButUser input input') :
    kermesse.Service.Create s ctx input = kermesse.Service.Create s ctx input' ∧
    stand.Service.Create s ctx input = stand.Service.Create s ctx input' ∧
    ticket.Service.Create s ctx input = ticket.Service.Create s ctx input' ∧
    interaction.Service.Create s ctx input = interaction.Service.Create s ctx input' ∧
    (∀ (p : Int) (s' : Store), ctx.UserID = some p →
      (kermesse.Service.Create s ctx input = (Result.ok, s') →
        ∃ row : Kermesse, row.UserId = p ∧ s' = { s with kermesses := s.kermesses ++ [row] }) ∧
      (stand.Service.Create s ctx input = (Result.ok, s') →
        ∃ row : Stand, row.UserId = p ∧ s' = { s with stands := s.stands ++ [row] }) ∧
      (ticket.Service.Create s ctx input = (Result.ok, s') →
        ∃ row : Ticket, row.UserId = p ∧ s'.tickets = s.tickets ++ [row]) ∧
      (interaction.Service.Create s ctx input = (Result.ok, s') →
        ∃ row : Interaction, row.UserId = Val.int p ∧
          s'.interactions = s.interactions ++ [row])) := by
  refine ⟨?_, ?_, ?_, ?_, ?_⟩
  · unfold kermesse.Service.Create
    simp only [kermesse_Create_congr h]
  · unfold stand.Service.Create
    simp only [stand_Create_congr h]
  · unfold ticket.Service.Create
    simp only [ticket_Create_congr h, GetIntFromMap_congr h "tombola_id" (by decide)]
  · unfold interaction.Service.Create
    simp only [interaction_Create_congr h, GetIntFromMap_congr h "stand_id" (by decide),
      quantity_congr h]
  · intro p s' hp
    refine ⟨?_, ?_, ?_, ?_⟩
    · intro hok
      simp only [kermesse.Service.Create, hp] at hok
      split at hok
      · simp [fail] at hok
      · rename_i s1 hc
        obtain ⟨row, rfl, -, -, hu⟩ := kermesse_Create_some hc
        rw [Index_Assign_eq] at hu
        cases hu
        cases hok
        exact ⟨row, rfl, rfl⟩
    · intro hok
      obtain ⟨row, hrow, -, rfl⟩ := stand_Create_ok hok
      rw [hp] at hrow
      cases hrow
      exact ⟨row, rfl, rfl⟩
    · intro hok
      obtain ⟨tombolaId, t, userId, u, -, -, -, hctx, -, -, -, rfl⟩ := ticket_Create_ok hok
      rw [hp] at hctx
      cases hctx
      exact ⟨_, rfl, rfl⟩
    · intro hok
      obtain ⟨standId, st, userId, u, q, -, -, hctx, hu, -, -, -, -, rfl⟩ :=
        interaction_Create_ok hok
      rw [hp] at hctx
      cases hctx
      have hid : u.Id = p := find_some_id hu
      refine ⟨_, ?_, interactions_settled s input standId st u p q⟩
      dsimp only
      rw [hid]

/-- Witness of C29: the child buys two units with a payload that names the
parent as `user_id`; the purchase is the one of the plain payload and is
recorded for the child. -/
theorem C29_principal_not_spoofed_witness :
    interaction.Service.Create fair (asUser 1 UserRoleChild) (buy 2)
      = interaction.Service.Create fair (asUser 1 UserRoleChild) (forged 2 4) ∧
    (interaction.Service.Create fair (asUser 1 UserRoleChild) (forged 2 4)).2.interactions
      = [recorded InteractionTypeConsumption 20 (Val.int 2)] :=
  ⟨(C29_principal_not_spoofed fair (asUser 1 UserRoleChild) (buy 2) (forged 2 4)
      (by
        intro key hk
        simp [forged, utils.Index, Ne.symm hk])).2.2.2.1,
   by decide⟩

/-! ## The users that can be invited -/

/-- C30, the code at the failing input.  In the store reached by the season
followed by a second kermesse to which the child (and so its parent) is added,
the users that GetUsersInvite returns for kermesse 1 are the parent, whose
role is PARENT, and the child; both have a membership row in kermesse 1. -/
theorem C30_invite_list :
    (run Store.empty twoSeasons).users = [mum 5, kid 3] ∧
    (run Store.empty twoSeasons).kermessesUsers = [(1, 2), (1, 1), (2, 2), (2, 1)] ∧
    kermesse.Service.GetUsersInvite (run Store.empty twoSeasons) 1
      = Except.ok [basic (mum 5), basic (kid 3)] ∧
    (basic (mum 5)).Role = UserRoleParent ∧ (basic (kid 3)).Role = UserRoleChild :=
  ⟨by decide, by decide, congrArg Except.ok (by decide), rfl, rfl⟩

/-! ## The draw under failures of the store -/

/-- Without failures `SetWinnerTx` is `SetWinner`. -/
theorem SetWinnerTx_noFaults (s : Store) (id : Int) (r : Nat) :
    tombola.Repository.SetWinnerTx noFaults s id r
      = (none, tombola.Repository.SetWinner s id r) := by
  rfl

/-- Without failures `FinishTx` is `Finish`. -/
theorem FinishTx_noFaults (s : Store) (ctx : Ctx) (id : Int) (r : Nat) :
    tombola.Service.FinishTx noFaults s ctx id r = tombola.Service.Finish s ctx id r := by
  unfold tombola.Service.FinishTx tombola.Service.Finish
  simp only [SetWinnerTx_noFaults]

theorem SetWinnerTx_cases (f : TxFaults) (s : Store) (id : Int) (r : Nat) :
    (f.Beginx = true ∧ tombola.Repository.SetWinnerTx f s id r = (some "begin", s)) ∨
    (f.Beginx = false ∧ (f.SetStatus = true ∨ f.SetIsWinner = true) ∧
      tombola.Repository.SetWinnerTx f s id r = (some "exec", s)) ∨
    (f.Beginx = false ∧ f.SetStatus = false ∧ f.SetIsWinner = false ∧ f.Commit = true ∧
      tombola.Repository.SetWinnerTx f s id r = (none, s)) ∨
    (f = noFaults ∧
      tombola.Repository.SetWinnerTx f s id r = (none, tombola.Repository.SetWinner s id r)) := by
  obtain ⟨b, e1, e2, c⟩ := f
  cases b <;> cases e1 <;> cases e2 <;> cases c <;>
    first
    | exact Or.inl ⟨rfl, rfl⟩
    | exact Or.inr (Or.inl ⟨rfl, Or.inl rfl, rfl⟩)
    | exact Or.inr (Or.inl ⟨rfl, Or.inr rfl, rfl⟩)
    | exact Or.inr (Or.inr (Or.inl ⟨rfl, rfl, rfl, rfl, rfl⟩))
    | exact Or.inr (Or.inr (Or.inr ⟨rfl, rfl⟩))

theorem draw_applied (s : Store) (id : Int) (r : Nat) (t : Tombola) (hr : Reachable s)
    (ht : tombola.Repository.FindById s id = some t) (hst : t.Status = TombolaStatusStarted) :
    Indivisible s id r t (tombola.Repository.SetWinner s id r) := by
  obtain ⟨hkey, -, hstarted, -⟩ := reachable_raffled s hr
  have hid : t.Id = id := find_tombola_id ht
  have hmem : t ∈ s.tombolas := List.mem_of_find?_eq_some ht
  have hno : winners s id = [] := by
    rw [← hid]; exact hstarted t hmem hst
  have hno' : ∀ x ∈ s.tickets, x.TombolaId = id → x.IsWinner = false := by
    intro x hx hxt
    unfold winners at hno
    rw [List.filter_eq_nil_iff] at hno
    have := hno x hx
    simpa [hxt] using this
  refine Or.inr ⟨rfl, SetWinner_FindById r ht, ?_, ?_, ?_⟩
  · intro hnone
    unfold winners
    rw [SetWinner_tickets, drawn_none s id r hnone]
    exact hno
  · intro hsome
    obtain ⟨c, hc, hct, hd⟩ := drawn_some s id r hsome
    refine ⟨c, ?_, ?_⟩
    · unfold ticketsOf
      rw [List.mem_filter]
      exact ⟨hc, by simpa using hct⟩
    · unfold winners
      rw [SetWinner_tickets, hd]
      exact winners_flag_one s.tickets c.Id id c hkey hc hct rfl hno'
  · intro id' hne
    unfold ticketsOf
    rw [SetWinner_tickets]
    cases tombola.Repository.drawn s id r with
    | none => rfl
    | some w => exact winners_flag_other s.tickets w id id' hne

theorem FinishTx_store (f : TxFaults) (s : Store) (ctx : Ctx) (id : Int) (r : Nat) :
    (tombola.Service.FinishTx f s ctx id r).2 = s ∨
    (tombola.Service.FinishTx f s ctx id r).2 = (tombola.Repository.SetWinnerTx f s id r).2 := by
  unfold tombola.Service.FinishTx
  repeat' split
  all_goals first | (left; rfl) | skip
  all_goals
    rename_i h
    right
    rw [h]

/-- C23. The draw is indivisible from the status flip.  In every store
reachable through the service operations, for a tombola `t` whose status is
STARTED and whatever failures the store reports, after SetWinner, and after
Finish by any caller, either the whole store is as it was (so the status of
`t` and every winner flag), or `t` is ENDED and the selection is applied: no
winning ticket when `t` has no ticket, and otherwise exactly one ticket of
`t` flagged.  When the selection statement fails the store is as it was: `t`
ENDED without the selection is never persisted. -/
theorem C23_draw_indivisible (f : TxFaults) (s : Store) (ctx : Ctx) (id : Int) (r : Nat)
    (t : Tombola) (hr : Reachable s)
    (ht : tombola.Repository.FindById s id = some t) (hst : t.Status = TombolaStatusStarted) :
    Indivisible s id r t (tombola.Repository.SetWinnerTx f s id r).2 ∧
    Indivisible s id r t (tombola.Service.FinishTx f s ctx id r).2 ∧
    (f.SetIsWinner = true → (tombola.Repository.SetWinnerTx f s id r).2 = s ∧
      (tombola.Service.FinishTx f s ctx id r).2 = s) := by
  have hset : Indivisible s id r t (tombola.Repository.SetWinnerTx f s id r).2 := by
    rcases SetWinnerTx_cases f s id r with ⟨-, h⟩ | ⟨-, -, h⟩ | ⟨-, -, -, -, h⟩ | ⟨-, h⟩
    · rw [h]; exact Or.inl rfl
    · rw [h]; exact Or.inl rfl
    · rw [h]; exact Or.inl rfl
    · rw [h]; exact draw_applied s id r t hr ht hst
  have hwin : f.SetIsWinner = true → (tombola.Repository.SetWinnerTx f s id r).2 = s := by
    intro hf
    rcases SetWinnerTx_cases f s id r with ⟨-, h⟩ | ⟨-, -, h⟩ | ⟨-, -, -, -, h⟩ | ⟨hn, -⟩
    · rw [h]
    · rw [h]
    · rw [h]
    · rw [hn] at hf
      cases hf
  refine ⟨hset, ?_, ?_⟩
  · rcases FinishTx_store f s ctx id r with h | h
    · rw [h]; exact Or.inl rfl
    · rw [h]; exact hset
  · intro hf
    refine ⟨hwin hf, ?_⟩
    rcases FinishTx_store f s ctx id r with h | h
    · exact h
    · rw [h]; exact hwin hf

/-- Witness of C23: the season with one ticket sold, reached from the empty
store; the draw without failures flags the ticket and ends the tombola, and the
draw whose selection statement fails leaves the store as it was. -/
theorem C23_draw_indivisible_witness :
    run Store.empty season = soldOne ∧
    Indivisible (run Store.empty season) 1 0 (raffle TombolaStatusStarted)
      (tombola.Repository.SetWinnerTx noFaults (run Store.empty season) 1 0).2 ∧
    (tombola.Repository.SetWinnerTx noFaults (run Store.empty season) 1 0).2 = drawnOne ∧
    (tombola.Repository.SetWinnerTx flagFails (run Store.empty season) 1 0).2
      = run Store.empty season :=
  ⟨by decide,
   (C23_draw_indivisible noFaults (run Store.empty season) (asUser 3 UserRoleOrganizer) 1 0
      (raffle TombolaStatusStarted) (reachable_run _ _ Reachable.empty)
      (by decide) (by decide)).1,
   by decide,
   ((C23_draw_indivisible flagFails (run Store.empty season) (asUser 3 UserRoleOrganizer) 1 0
      (raffle TombolaStatusStarted) (reachable_run _ _ Reachable.empty)
      (by decide) (by decide)).2.2 rfl).1⟩

/-- C24, the code under the failures of the transaction.  For a Finish that
reaches SetWinner (started tombola, kermesse not ended, caller the organizer):
when Beginx or one of the two statements fails, Finish returns
InternalServerError and the store is as it was; when only Commit fails,
SetWinner returns nil and Finish returns success, while the store is as it
was. -/
theorem C24_commit_error_lost (f : TxFaults) (s : Store) (ctx : Ctx) (id : Int) (r : Nat)
    (t : Tombola) (k : Kermesse)
    (ht : tombola.Repository.FindById s id = some t)
    (hk : kermesse.Repository.FindById s t.KermesseId = some k)
    (hne : k.Status ≠ KermesseStatusEnded)
    (hc : ctx.UserID = some k.UserId)
    (hst : t.Status = TombolaStatusStarted) :
    (f.Beginx = true ∨ f.SetStatus = true ∨ f.SetIsWinner = true →
      ∃ msg, tombola.Service.FinishTx f s ctx id r
        = (Result.error { Key := ErrorKey.InternalServerError, Err := msg }, s)) ∧
    (f.Beginx = false → f.SetStatus = false → f.SetIsWinner = false → f.Commit = true →
      tombola.Repository.SetWinnerTx f s id r = (none, s) ∧
      tombola.Service.FinishTx f s ctx id r = (Result.ok, s)) := by
  have hfin : tombola.Service.FinishTx f s ctx id r
      = match tombola.Repository.SetWinnerTx f s id r with
        | (some err, s1) =>
          (Result.error { Key := ErrorKey.InternalServerError, Err := err }, s1)
        | (none, s1) => (Result.ok, s1) := by
    simp only [tombola.Service.FinishTx, ht, hk, hne, hc, hst, if_false, ne_eq,
      not_true_eq_false]
  constructor
  · intro hf
    rcases SetWinnerTx_cases f s id r with ⟨-, h⟩ | ⟨-, -, h⟩ | ⟨h1, h2, h3, -, -⟩ | ⟨hn, -⟩
    · rw [hfin, h]; exact ⟨_, rfl⟩
    · rw [hfin, h]; exact ⟨_, rfl⟩
    · rw [h1, h2, h3] at hf
      simp at hf
    · rw [hn] at hf
      simp [noFaults] at hf
  · intro h1 h2 h3 h4
    have hs : tombola.Repository.SetWinnerTx f s id r = (none, s) := by
      rcases SetWinnerTx_cases f s id r with ⟨hb, -⟩ | ⟨-, he, -⟩ | ⟨-, -, -, -, h⟩ | ⟨hn, -⟩
      · rw [h1] at hb; cases hb
      · rw [h2, h3] at he; simp at he
      · exact h
      · rw [hn] at h4; cases h4
    exact ⟨hs, by rw [hfin, hs]⟩

/-- Witness of C24, the failing input: the organizer finishes the tombola of
the season and the commit fails. -/
theorem C24_commit_error_lost_witness :
    tombola.Repository.SetWinnerTx commitFails soldOne 1 0 = (none, soldOne) ∧
    tombola.Service.FinishTx commitFails soldOne (asUser 3 UserRoleOrganizer) 1 0
      = (Result.ok, soldOne) :=
  (C24_commit_error_lost commitFails soldOne (asUser 3 UserRoleOrganizer) 1 0
    (raffle TombolaStatusStarted) (fest KermesseStatusStarted)
    (by decide) (by decide) (by decide) (by decide) (by decide)).2 rfl rfl rfl rfl

/-! ## A purchase under failures of the store -/

/-- C22 fails as stated.  The child buys two units at the fair and the debit
of the buyer fails: CreateInteraction returns InternalServerError, and the
stock is 1 instead of 3 while no credit has moved. -/
theorem C22_stock_without_debit :
    interaction.Service.CreateFaulty debitFails fair (asUser 1 UserRoleChild) (buy 2)
      = (storeError, fairOf InteractionTypeConsumption 1 25 0 []) ∧
    fairOf InteractionTypeConsumption 1 25 0 [] ≠ fair := by
  decide

/-- Without failures `CreateFaulty` is `Create`. -/
theorem CreateFaulty_sound (s : Store) (ctx : Ctx) (input : Input) :
    interaction.Service.CreateFaulty noWriteFaults s ctx input
      = interaction.Service.Create s ctx input := by
  unfold interaction.Service.CreateFaulty interaction.Service.Create
  simp [noWriteFaults]

theorem CreateFaulty_checked (f : WriteFaults) {s : Store} {ctx : Ctx} {input : Input}
    {standId b q : Int} {st : Stand} {u : User}
    (h1 : utils.GetIntFromMap input "stand_id" = Except.ok standId)
    (h2 : stand.Repository.FindById s standId = some st)
    (h3 : ctx.UserID = some b)
    (h4 : user.Repository.FindById s b = some u)
    (h5 : interaction.Repository.CanCreate s b standId = true)
    (h6 : interaction.Service.quantity st input = Except.ok q)
    (h7 : ¬ (st.Typ = InteractionTypeConsumption ∧ st.Stock < q))
    (h8 : ¬ (u.Credit < interaction.Service.totalPrice st q)) :
    interaction.Service.CreateFaulty f s ctx input
      = if st.Typ = InteractionTypeConsumption ∧ f.UpdateStock = true then (storeError, s)
        else if f.Debit = true then (storeError, stocked s standId st q)
        else if f.Credit = true then (storeError, debited s standId st b q)
        else if f.Create = true then (storeError, credited s standId st b q)
        else (Result.ok, settled s input standId st u b q) := by
  unfold interaction.Service.CreateFaulty
  simp only [h1, h2, h3, h4, h5, h6, not_true_eq_false, if_false, if_neg h7, if_neg h8]
  rfl

theorem interactions_credited (s : Store) (standId : Int) (st : Stand) (b q : Int) :
    (stocked s standId st q).interactions = s.interactions ∧
    (debited s standId st b q).interactions = s.interactions ∧
    (credited s standId st b q).interactions = s.interactions := by
  unfold credited debited stocked
  simp only [user.Repository.UpdateCredit]
  split <;> exact ⟨rfl, rfl, rfl⟩

/-- C22 amended.  For a CreateInteraction that passes its checks (stand and
buyer found, buyer authorised, stock and credit sufficient): if a store step
fails, the call returns InternalServerError, records no interaction, and the
store keeps exactly the writes of the steps before the failing one, that is
nothing when the stock update fails, the stock update when the debit of the
buyer fails, stock update and debit when the credit of the holder fails, and
all three when the insert fails; if no step fails the call succeeds as
`Service.Create` does. -/
theorem C22_writes_before_failure (f : WriteFaults) (s : Store) (ctx : Ctx) (input : Input)
    (standId b q : Int) (st : Stand) (u : User)
    (h1 : utils.GetIntFromMap input "stand_id" = Except.ok standId)
    (h2 : stand.Repository.FindById s standId = some st)
    (h3 : ctx.UserID = some b)
    (h4 : user.Repository.FindById s b = some u)
    (h5 : interaction.Repository.CanCreate s b standId = true)
    (h6 : interaction.Service.quantity st input = Except.ok q)
    (h7 : ¬ (st.Typ = InteractionTypeConsumption ∧ st.Stock < q))
    (h8 : ¬ (u.Credit < interaction.Service.totalPrice st q)) :
    (st.Typ = InteractionTypeConsumption → f.UpdateStock = true →
      interaction.Service.CreateFaulty f s ctx input = (storeError, s)) ∧
    ((st.Typ = InteractionTypeConsumption → f.UpdateStock = false) → f.Debit = true →
      interaction.Service.CreateFaulty f s ctx input = (storeError, stocked s standId st q)) ∧
    ((st.Typ = InteractionTypeConsumption → f.UpdateStock = false) → f.Debit = false →
      f.Credit = true →
      interaction.Service.CreateFaulty f s ctx input
        = (storeError, debited s standId st b q)) ∧
    ((st.Typ = InteractionTypeConsumption → f.UpdateStock = false) → f.Debit = false →
      f.Credit = false → f.Create = true →
      interaction.Service.CreateFaulty f s ctx input
        = (storeError, credited s standId st b q)) ∧
    ((st.Typ = InteractionTypeConsumption → f.UpdateStock = false) → f.Debit = false →
      f.Credit = false → f.Create = false →
      interaction.Service.CreateFaulty f s ctx input
        = (Result.ok, settled s input standId st u b q) ∧
      interaction.Service.Create s ctx input
        = (Result.ok, settled s input standId st u b q)) ∧
    ((interaction.Service.CreateFaulty f s ctx input).1 ≠ Result.ok →
      (interaction.Service.CreateFaulty f s ctx input).2.interactions = s.interactions) := by
  have hred := CreateFaulty_checked f h1 h2 h3 h4 h5 h6 h7 h8
  have hstock : (st.Typ = InteractionTypeConsumption → f.UpdateStock = false) →
      ¬ (st.Typ = InteractionTypeConsumption ∧ f.UpdateStock = true) := by
    intro h ⟨ht, hf⟩
    rw [h ht] at hf
    cases hf
  obtain ⟨hi1, hi2, hi3⟩ := interactions_credited s standId st b q
  refine ⟨?_, ?_, ?_, ?_, ?_, ?_⟩
  · intro ht hf
    rw [hred, if_pos ⟨ht, hf⟩]
  · intro hs hd
    rw [hred, if_neg (hstock hs), if_pos hd]
  · intro hs hd hc
    rw [hred, if_neg (hstock hs), if_neg (by rw [hd]; decide), if_pos hc]
  · intro hs hd hc hi
    rw [hred, if_neg (hstock hs), if_neg (by rw [hd]; decide), if_neg (by rw [hc]; decide),
      if_pos hi]
  · intro hs hd hc hi
    constructor
    · rw [hred, if_neg (hstock hs), if_neg (by rw [hd]; decide), if_neg (by rw [hc]; decide),
        if_neg (by rw [hi]; decide)]
    · rw [interaction_Create_checked h3 h1 h2 h4 h5 h6, if_neg h7, if_neg h8]
  · rw [hred]
    intro hne
    split at hne
    · rw [if_pos ‹_›]
    · rw [if_neg ‹_›]
      split at hne
      · rw [if_pos ‹_›]; exact hi1
      · rw [if_neg ‹_›]
        split at hne
        · rw [if_pos ‹_›]; exact hi2
        · rw [if_neg ‹_›]
          split at hne
          · rw [if_pos ‹_›]; exact hi3
          · exact absurd rfl hne

/-- Witness of C22 amended: the purchase of the fair whose debit fails. -/
theorem C22_writes_before_failure_witness :
    interaction.Service.CreateFaulty debitFails fair (asUser 1 UserRoleChild) (buy 2)
      = (storeError, stocked fair 1 (cakes InteractionTypeConsumption 3) 2) :=
  (C22_writes_before_failure debitFails fair (asUser 1 UserRoleChild) (buy 2) 1 1 2
    (cakes InteractionTypeConsumption 3) (child 25) rfl (by decide) rfl (by decide)
    (by decide) rfl (by decide) (by decide)).2.1 (fun _ => rfl) rfl

/-! ## Two purchases of the last unit -/

/-- C27 fails as stated.  Two children each ask for one unit of the stand
whose stock is 1; both requests read the stand, the buyer and the
authorisation before either writes: both succeed, the stock ends at -1, each
child is debited 10 and the holder credited 20. -/
theorem C27_both_succeed :
    race (asUser 1 UserRoleChild) (buy 1) (asUser 5 UserRoleChild) (buy 1)
        { store := lastUnit 1 25 25 0 [], first := Pc.start, second := Pc.start } overlapping
      = { store := lastUnit (-1) 15 15 20
            [recorded InteractionTypeConsumption 10 (Val.int 1),
             { recorded InteractionTypeConsumption 10 (Val.int 1) with
               Id := 2, UserId := Val.int 5 }],
          first := Pc.done Result.ok, second := Pc.done Result.ok } := by
  decide

/-- A request that runs alone makes at most seven calls of the store and is
`Service.Create`. -/
theorem alone_Create (ctx : Ctx) (input : Input) (s : Store) :
    interaction.Service.alone ctx input 7 (s, Pc.start)
      = ((interaction.Service.Create s ctx input).2,
          Pc.done (interaction.Service.Create s ctx input).1) := by
  cases h1 : utils.GetIntFromMap input "stand_id" with
  | error e =>
    simp only [interaction.Service.Create, h1, interaction.Service.alone,
      interaction.Service.advance, fail]
  | ok standId =>
  cases h2 : stand.Repository.FindById s standId with
  | none =>
    simp only [interaction.Service.Create, h1, h2, interaction.Service.alone,
      interaction.Service.advance, fail]
  | some st =>
  cases h3 : ctx.UserID with
  | none =>
    simp only [interaction.Service.Create, h1, h2, h3, interaction.Service.alone,
      interaction.Service.advance, fail]
  | some userId =>
  cases h4 : user.Repository.FindById s userId with
  | none =>
    simp only [interaction.Service.Create, h1, h2, h3, h4, interaction.Service.alone,
      interaction.Service.advance, fail]
  | some u =>
  cases h5 : interaction.Repository.CanCreate s userId standId with
  | false =>
    simp only [interaction.Service.Create, h1, h2, h3, h4, h5, interaction.Service.alone,
      interaction.Service.advance, fail, Bool.false_eq_true, not_false_eq_true, if_true]
  | true =>
  cases h6 : interaction.Service.quantity st input with
  | error e =>
    simp only [interaction.Service.Create, h1, h2, h3, h4, h5, h6, interaction.Service.alone,
      interaction.Service.advance, fail, not_true_eq_false, if_false]
  | ok q =>
  by_cases h7 : st.Typ = InteractionTypeConsumption ∧ st.Stock < q
  · simp only [interaction.Service.Create, h1, h2, h3, h4, h5, h6, interaction.Service.alone,
      interaction.Service.advance, fail, not_true_eq_false, if_false, if_pos h7]
  by_cases h8 : u.Credit < interaction.Service.totalPrice st q
  · simp only [interaction.Service.Create, h1, h2, h3, h4, h5, h6, interaction.Service.alone,
      interaction.Service.advance, fail, not_true_eq_false, if_false, if_neg h7, if_pos h8]
  by_cases h9 : st.Typ = InteractionTypeConsumption
  · simp only [interaction.Service.Create, h1, h2, h3, h4, h5, h6, interaction.Service.alone,
      interaction.Service.advance, fail, not_true_eq_false, if_false, if_neg h7, if_neg h8,
      if_pos h9]
  · simp only [interaction.Service.Create, h1, h2, h3, h4, h5, h6, interaction.Service.alone,
      interaction.Service.advance, fail, not_true_eq_false, if_false, if_neg h7, if_neg h8,
      if_neg h9]

theorem race_append (ctxA : Ctx) (inputA : Input) (ctxB : Ctx) (inputB : Input)
    (l1 l2 : List Bool) (σ : Race) :
    race ctxA inputA ctxB inputB σ (l1 ++ l2)
      = race ctxA inputA ctxB inputB (race ctxA inputA ctxB inputB σ l1) l2 := by
  induction l1 generalizing σ with
  | nil => rfl
  | cons b l ih =>
    cases b
    · simp only [List.cons_append, race]; exact ih _
    · simp only [List.cons_append, race]; exact ih _

theorem race_first (ctxA : Ctx) (inputA : Input) (ctxB : Ctx) (inputB : Input)
    (n : Nat) (σ : Race) :
    race ctxA inputA ctxB inputB σ (List.replicate n true)
      = { store := (interaction.Service.alone ctxA inputA n (σ.store, σ.first)).1,
          first := (interaction.Service.alone ctxA inputA n (σ.store, σ.first)).2,
          second := σ.second } := by
  induction n generalizing σ with
  | zero => rfl
  | succ n ih =>
    simp only [List.replicate_succ, race, interaction.Service.alone]
    exact ih _

theorem race_second (ctxA : Ctx) (inputA : Input) (ctxB : Ctx) (inputB : Input)
    (n : Nat) (σ : Race) :
    race ctxA inputA ctxB inputB σ (List.replicate n false)
      = { store := (interaction.Service.alone ctxB inputB n (σ.store, σ.second)).1,
          first := σ.first,
          second := (interaction.Service.alone ctxB inputB n (σ.store, σ.second)).2 } := by
  induction n generalizing σ with
  | zero => rfl
  | succ n ih =>
    simp only [List.replicate_succ, race, interaction.Service.alone]
    exact ih _

/-- Under the serial schedule the race is the first call followed by the
second. -/
theorem race_serial (ctxA : Ctx) (inputA : Input) (ctxB : Ctx) (inputB : Input) (s : Store) :
    race ctxA inputA ctxB inputB { store := s, first := Pc.start, second := Pc.start } serial
      = { store := (interaction.Service.Create
            (interaction.Service.Create s ctxA inputA).2 ctxB inputB).2,
          first := Pc.done (interaction.Service.Create s ctxA inputA).1,
          second := Pc.done (interaction.Service.Create
            (interaction.Service.Create s ctxA inputA).2 ctxB inputB).1 } := by
  unfold serial
  rw [race_append, race_first, race_second]
  simp only [alone_Create]

theorem FindById_UpdateStock (s : Store) (id q x : Int) :
    stand.Repository.FindById (stand.Repository.UpdateStock s id q) x
      = (stand.Repository.FindById s x).map (addStock id q) := by
  unfold stand.Repository.FindById
  exact find_addStock s.stands id q x

theorem stand_FindById_UpdateCredit (s : Store) (id amount x : Int) :
    stand.Repository.FindById (user.Repository.UpdateCredit s id amount) x
      = stand.Repository.FindById s x := rfl

theorem stand_FindById_Create (s : Store) (input : Input) (x : Int) :
    stand.Repository.FindById (interaction.Repository.Create s input) x
      = stand.Repository.FindById s x := rfl

/-- The calls of a request that is past its stock update leave the stands. -/
theorem past_advance (ctx : Ctx) (input : Input) (s : Store) (pc : Pc) (h : Past pc) (x : Int) :
    stand.Repository.FindById (interaction.Service.advance ctx input s pc).1 x
        = stand.Repository.FindById s x ∧
    Past (interaction.Service.advance ctx input s pc).2 := by
  cases pc with
  | start => cases h
  | hasStand _ _ => cases h
  | hasUser _ _ _ _ => cases h
  | checked _ _ _ _ _ => cases h
  | stocked standId st userId u q => exact ⟨rfl, trivial⟩
  | debited standId st userId u q => exact ⟨rfl, trivial⟩
  | credited standId st userId u q => exact ⟨rfl, trivial⟩
  | done r => exact ⟨rfl, trivial⟩

/-- A request that reads a stock of 0 writes nothing and does not succeed. -/
theorem late_advance (ctx : Ctx) (input : Input) (s : Store) (pc : Pc) (standId : Int)
    (hin : utils.GetIntFromMap input "stand_id" = Except.ok standId)
    (hq : utils.Index input "quantity" = Val.int 1)
    (hs : stockIs s standId 0) (h : Late pc) :
    (interaction.Service.advance ctx input s pc).1 = s ∧
    Late (interaction.Service.advance ctx input s pc).2 := by
  obtain ⟨cur, hcur, htyp, hstock⟩ := hs
  cases pc with
  | start =>
    have e : interaction.Service.advance ctx input s Pc.start
        = (s, Pc.hasStand standId cur) := by
      simp only [interaction.Service.advance, hin, hcur]
    rw [e]
    exact ⟨rfl, htyp, hstock⟩
  | hasStand sid st =>
    cases hc : ctx.UserID with
    | none =>
      have e : interaction.Service.advance ctx input s (Pc.hasStand sid st)
          = (s, Pc.done (Result.error
              { Key := ErrorKey.Unauthorized, Err := "user id not found in context" })) := by
        simp only [interaction.Service.advance, hc]
      rw [e]
      exact ⟨rfl, by intro hr; cases hr⟩
    | some userId =>
      cases hu : user.Repository.FindById s userId with
      | none =>
        have e : interaction.Service.advance ctx input s (Pc.hasStand sid st)
            = (s, Pc.done (Result.error { Key := ErrorKey.NotFound, Err := sqlErrNoRows })) := by
          simp only [interaction.Service.advance, hc, hu]
        rw [e]
        exact ⟨rfl, by intro hr; cases hr⟩
      | some u =>
        have e : interaction.Service.advance ctx input s (Pc.hasStand sid st)
            = (s, Pc.hasUser sid st userId u) := by
          simp only [interaction.Service.advance, hc, hu]
        rw [e]
        exact ⟨rfl, h⟩
  | hasUser sid st userId u =>
    obtain ⟨ht, hst⟩ := h
    have hqq : interaction.Service.quantity st input = Except.ok 1 :=
      quantity_consumption ht hq (by decide) (by decide)
    have hlow : st.Typ = InteractionTypeConsumption ∧ st.Stock < 1 := ⟨ht, by omega⟩
    cases hcan : interaction.Repository.CanCreate s userId sid with
    | false =>
      have e : interaction.Service.advance ctx input s (Pc.hasUser sid st userId u)
          = (s, Pc.done (Result.error { Key := ErrorKey.Forbidden, Err := "forbidden" })) := by
        simp only [interaction.Service.advance, hcan, Bool.false_eq_true, not_false_eq_true,
          if_true]
      rw [e]
      exact ⟨rfl, by intro hr; cases hr⟩
    | true =>
      have e : interaction.Service.advance ctx input s (Pc.hasUser sid st userId u)
          = (s, Pc.done (Result.error
              { Key := ErrorKey.BadRequest, Err := "not enough stock" })) := by
        simp only [interaction.Service.advance, hcan, hqq, if_pos hlow, not_true_eq_false,
          if_false]
      rw [e]
      exact ⟨rfl, by intro hr; cases hr⟩
  | checked _ _ _ _ _ => cases h
  | stocked _ _ _ _ _ => cases h
  | debited _ _ _ _ _ => cases h
  | credited _ _ _ _ _ => cases h
  | done r => exact ⟨rfl, h⟩

/-- A request that runs while no other request writes the stand keeps the
stock at least zero. -/
theorem solo_advance (ctx : Ctx) (input : Input) (s : Store) (pc : Pc) (standId n : Int)
    (hin : utils.GetIntFromMap input "stand_id" = Except.ok standId)
    (hq : utils.Index input "quantity" = Val.int 1)
    (hn : 0 ≤ n) (hs : stockIs s standId n) (h : Solo standId s pc) :
    (∃ m, 0 ≤ m ∧ stockIs (interaction.Service.advance ctx input s pc).1 standId m) ∧
    Solo standId (interaction.Service.advance ctx input s pc).1
      (interaction.Service.advance ctx input s pc).2 := by
  obtain ⟨cur, hcur, htyp, hstock⟩ := hs
  have hkeep : ∃ m, 0 ≤ m ∧ stockIs s standId m := ⟨n, hn, cur, hcur, htyp, hstock⟩
  cases pc with
  | start =>
    have e : interaction.Service.advance ctx input s Pc.start
        = (s, Pc.hasStand standId cur) := by
      simp only [interaction.Service.advance, hin, hcur]
    rw [e]
    exact ⟨hkeep, rfl, hcur⟩
  | hasStand sid st =>
    cases hc : ctx.UserID with
    | none =>
      have e : interaction.Service.advance ctx input s (Pc.hasStand sid st)
          = (s, Pc.done (Result.error
              { Key := ErrorKey.Unauthorized, Err := "user id not found in context" })) := by
        simp only [interaction.Service.advance, hc]
      rw [e]
      exact ⟨hkeep, trivial⟩
    | some userId =>
      cases hu : user.Repository.FindById s userId with
      | none =>
        have e : interaction.Service.advance ctx input s (Pc.hasStand sid st)
            = (s, Pc.done (Result.error { Key := ErrorKey.NotFound, Err := sqlErrNoRows })) := by
          simp only [interaction.Service.advance, hc, hu]
        rw [e]
        exact ⟨hkeep, trivial⟩
      | some u =>
        have e : interaction.Service.advance ctx input s (Pc.hasStand sid st)
            = (s, Pc.hasUser sid st userId u) := by
          simp only [interaction.Service.advance, hc, hu]
        rw [e]
        exact ⟨hkeep, h⟩
  | hasUser sid st userId u =>
    obtain ⟨hsid, hst⟩ := h
    rw [hcur] at hst
    cases hst
    have hqq : interaction.Service.quantity cur input = Except.ok 1 :=
      quantity_consumption htyp hq (by decide) (by decide)
    cases hcan : interaction.Repository.CanCreate s userId sid with
    | false =>
      have e : interaction.Service.advance ctx input s (Pc.hasUser sid cur userId u)
          = (s, Pc.done (Result.error { Key := ErrorKey.Forbidden, Err := "forbidden" })) := by
        simp only [interaction.Service.advance, hcan, Bool.false_eq_true, not_false_eq_true,
          if_true]
      rw [e]
      exact ⟨hkeep, trivial⟩
    | true =>
      by_cases hlow : cur.Typ = InteractionTypeConsumption ∧ cur.Stock < 1
      · have e : interaction.Service.advance ctx input s (Pc.hasUser sid cur userId u)
            = (s, Pc.done (Result.error
                { Key := ErrorKey.BadRequest, Err := "not enough stock" })) := by
          simp only [interaction.Service.advance, hcan, hqq, if_pos hlow, not_true_eq_false,
            if_false]
        rw [e]
        exact ⟨hkeep, trivial⟩
      · by_cases hcred : u.Credit < interaction.Service.totalPrice cur 1
        · have e : interaction.Service.advance ctx input s (Pc.hasUser sid cur userId u)
              = (s, Pc.done (Result.error
                  { Key := ErrorKey.BadRequest, Err := "not enough credit" })) := by
            simp only [interaction.Service.advance, hcan, hqq, if_neg hlow, if_pos hcred,
              not_true_eq_false, if_false]
          rw [e]
          exact ⟨hkeep, trivial⟩
        · have e : interaction.Service.advance ctx input s (Pc.hasUser sid cur userId u)
              = (s, Pc.checked sid cur userId u 1) := by
            simp only [interaction.Service.advance, hcan, hqq, if_neg hlow, if_neg hcred,
              not_true_eq_false, if_false]
          rw [e]
          refine ⟨hkeep, hsid, hcur, rfl, ?_⟩
          have : ¬ cur.Stock < 1 := fun hlt => hlow ⟨htyp, hlt⟩
          omega
  | checked sid st userId u q =>
    obtain ⟨hsid, hst, hq1, hle⟩ := h
    rw [hcur] at hst
    cases hst
    subst hsid hq1
    have e : interaction.Service.advance ctx input s (Pc.checked sid cur userId u 1)
        = (stand.Repository.UpdateStock s sid (-1), Pc.stocked sid cur userId u 1) := by
      simp only [interaction.Service.advance, if_pos htyp, int64_neg_one]
    rw [e]
    refine ⟨⟨cur.Stock + -1, by omega, addStock sid (-1) cur, ?_, ?_, ?_⟩, trivial⟩
    · rw [FindById_UpdateStock, hcur]; rfl
    · unfold addStock; split <;> exact htyp
    · have hid : cur.Id = sid := find_stand_id hcur
      simp [addStock, hid]
  | stocked _ _ _ _ _ => exact ⟨hkeep, trivial⟩
  | debited _ _ _ _ _ => exact ⟨hkeep, trivial⟩
  | credited _ _ _ _ _ => exact ⟨hkeep, trivial⟩
  | done r => exact ⟨hkeep, trivial⟩

/-- The first four calls of a request that asks for one unit of a consumption
stand with stock 1: it has failed and written nothing, or it has taken the
unit. -/
theorem alone_four (ctx : Ctx) (input : Input) (s : Store) (standId : Int) (st : Stand)
    (hin : utils.GetIntFromMap input "stand_id" = Except.ok standId)
    (hq : utils.Index input "quantity" = Val.int 1)
    (hst : stand.Repository.FindById s standId = some st)
    (htyp : st.Typ = InteractionTypeConsumption) :
    (∃ r, r ≠ Result.ok ∧ interaction.Service.alone ctx input 4 (s, Pc.start) = (s, Pc.done r)) ∨
    (∃ userId u, interaction.Service.alone ctx input 4 (s, Pc.start)
      = (stand.Repository.UpdateStock s standId (-1), Pc.stocked standId st userId u 1)) := by
  have hqq : interaction.Service.quantity st input = Except.ok 1 :=
    quantity_consumption htyp hq (by decide) (by decide)
  cases h3 : ctx.UserID with
  | none =>
    refine Or.inl ⟨Result.error
      { Key := ErrorKey.Unauthorized, Err := "user id not found in context" }, ?_, ?_⟩
    · intro hr; cases hr
    · simp only [interaction.Service.alone, interaction.Service.advance, hin, hst, h3]
  | some userId =>
  cases h4 : user.Repository.FindById s userId with
  | none =>
    refine Or.inl ⟨Result.error { Key := ErrorKey.NotFound, Err := sqlErrNoRows }, ?_, ?_⟩
    · intro hr; cases hr
    · simp only [interaction.Service.alone, interaction.Service.advance, hin, hst, h3, h4]
  | some u =>
  cases h5 : interaction.Repository.CanCreate s userId standId with
  | false =>
    refine Or.inl ⟨Result.error { Key := ErrorKey.Forbidden, Err := "forbidden" }, ?_, ?_⟩
    · intro hr; cases hr
    · simp only [interaction.Service.alone, interaction.Service.advance, hin, hst, h3, h4, h5,
        Bool.false_eq_true, not_false_eq_true, if_true]
  | true =>
  by_cases h7 : st.Typ = InteractionTypeConsumption ∧ st.Stock < 1
  · refine Or.inl ⟨Result.error
      { Key := ErrorKey.BadRequest, Err := "not enough stock" }, ?_, ?_⟩
    · intro hr; cases hr
    · simp only [interaction.Service.alone, interaction.Service.advance, hin, hst, h3, h4, h5,
        hqq, not_true_eq_false, if_false, if_pos h7]
  by_cases h8 : u.Credit < interaction.Service.totalPrice st 1
  · refine Or.inl ⟨Result.error
      { Key := ErrorKey.BadRequest, Err := "not enough credit" }, ?_, ?_⟩
    · intro hr; cases hr
    · simp only [interaction.Service.alone, interaction.Service.advance, hin, hst, h3, h4, h5,
        hqq, not_true_eq_false, if_false, if_neg h7, if_pos h8]
  · refine Or.inr ⟨userId, u, ?_⟩
    simp only [interaction.Service.alone, interaction.Service.advance, hin, hst, h3, h4, h5,
      hqq, not_true_eq_false, if_false, if_neg h7, if_neg h8, if_pos htyp, int64_neg_one]

/-- A call of either request keeps the invariant of the ordered race. -/
theorem ordered_step (ctxA : Ctx) (inputA : Input) (ctxB : Ctx) (inputB : Input)
    (standId : Int)
    (hB : utils.GetIntFromMap inputB "stand_id" = Except.ok standId)
    (hqB : utils.Index inputB "quantity" = Val.int 1)
    (σ : Race) (h : Ordered standId σ) (b : Bool) :
    Ordered standId (race ctxA inputA ctxB inputB σ [b]) := by
  cases b with
  | true =>
    show Ordered standId
      { store := (interaction.Service.advance ctxA inputA σ.store σ.first).1,
        first := (interaction.Service.advance ctxA inputA σ.store σ.first).2,
        second := σ.second }
    rcases h with ⟨⟨cur, hcur, htyp, hstock⟩, hpast, hlate⟩ | ⟨⟨r, hr, hne⟩, hstock, hsolo⟩
    · obtain ⟨hfind, hpast'⟩ := past_advance ctxA inputA σ.store σ.first hpast standId
      exact Or.inl ⟨⟨cur, by rw [hfind]; exact hcur, htyp, hstock⟩, hpast', hlate⟩
    · refine Or.inr ⟨⟨r, ?_, hne⟩, ?_, ?_⟩
      · show (interaction.Service.advance ctxA inputA σ.store σ.first).2 = Pc.done r
        rw [hr]; rfl
      · show ∃ n, 0 ≤ n ∧
          stockIs (interaction.Service.advance ctxA inputA σ.store σ.first).1 standId n
        rw [hr]; exact hstock
      · show Solo standId (interaction.Service.advance ctxA inputA σ.store σ.first).1 σ.second
        rw [hr]; exact hsolo
  | false =>
    show Ordered standId
      { store := (interaction.Service.advance ctxB inputB σ.store σ.second).1,
        first := σ.first,
        second := (interaction.Service.advance ctxB inputB σ.store σ.second).2 }
    rcases h with ⟨hzero, hpast, hlate⟩ | ⟨hfirst, ⟨n, hn, hstock⟩, hsolo⟩
    · obtain ⟨hstore, hlate'⟩ := late_advance ctxB inputB σ.store σ.second standId hB hqB
        hzero hlate
      refine Or.inl ⟨?_, hpast, hlate'⟩
      show stockIs (interaction.Service.advance ctxB inputB σ.store σ.second).1 standId 0
      rw [hstore]; exact hzero
    · obtain ⟨hstock', hsolo'⟩ := solo_advance ctxB inputB σ.store σ.second standId n hB hqB
        hn hstock hsolo
      exact Or.inr ⟨hfirst, hstock', hsolo'⟩

theorem ordered_race (ctxA : Ctx) (inputA : Input) (ctxB : Ctx) (inputB : Input)
    (standId : Int)
    (hB : utils.GetIntFromMap inputB "stand_id" = Except.ok standId)
    (hqB : utils.Index inputB "quantity" = Val.int 1)
    (rest : List Bool) (σ : Race) (h : Ordered standId σ) :
    Ordered standId (race ctxA inputA ctxB inputB σ rest) := by
  induction rest generalizing σ with
  | nil => exact h
  | cons b rest ih =>
    have hstep := ordered_step ctxA inputA ctxB inputB standId hB hqB σ h b
    have hsplit : race ctxA inputA ctxB inputB σ (b :: rest)
        = race ctxA inputA ctxB inputB (race ctxA inputA ctxB inputB σ [b]) rest :=
      race_append ctxA inputA ctxB inputB [b] rest σ
    rw [hsplit]
    exact ih _ hstep

/-- A request that runs alone keeps the stock at least zero. -/
theorem solo_alone (ctx : Ctx) (input : Input) (standId : Int)
    (hin : utils.GetIntFromMap input "stand_id" = Except.ok standId)
    (hq : utils.Index input "quantity" = Val.int 1)
    (n : Nat) (σ : Store × Pc)
    (hs : ∃ m, 0 ≤ m ∧ stockIs σ.1 standId m) (h : Solo standId σ.1 σ.2) :
    ∃ m, 0 ≤ m ∧ stockIs (interaction.Service.alone ctx input n σ).1 standId m := by
  induction n generalizing σ with
  | zero => exact hs
  | succ n ih =>
    obtain ⟨m, hm, hstock⟩ := hs
    obtain ⟨h1, h2⟩ := solo_advance ctx input σ.1 σ.2 standId m hin hq hm hstock h
    exact ih _ h1 h2

theorem take_all_true (sched : List Bool) (k : Nat) (h : ∀ b ∈ sched.take k, b = true) :
    sched.take k = List.replicate (min k sched.length) true := by
  rw [List.eq_replicate_iff]
  exact ⟨by simp, h⟩

/-- C27 amended.  For two CreateInteraction requests that each ask for
quantity 1 of the same consumption stand whose stock is 1, under every
interleaving of their calls of the store in which the second request makes no
call before the first has made four (its stock update, when it gets that
far): at no moment have both requests succeeded, and at every moment the
stock of the stand is at least zero. -/
theorem C27_update_before_read (s : Store) (ctxA ctxB : Ctx) (inputA inputB : Input)
    (standId : Int) (st : Stand) (sched : List Bool)
    (hA : utils.GetIntFromMap inputA "stand_id" = Except.ok standId)
    (hB : utils.GetIntFromMap inputB "stand_id" = Except.ok standId)
    (hqA : utils.Index inputA "quantity" = Val.int 1)
    (hqB : utils.Index inputB "quantity" = Val.int 1)
    (hst : stand.Repository.FindById s standId = some st)
    (htyp : st.Typ = InteractionTypeConsumption)
    (hstock : st.Stock = 1)
    (hsched : ∀ b ∈ sched.take 4, b = true) :
    ¬ ((race ctxA inputA ctxB inputB
          { store := s, first := Pc.start, second := Pc.start } sched).first
          = Pc.done Result.ok ∧
       (race ctxA inputA ctxB inputB
          { store := s, first := Pc.start, second := Pc.start } sched).second
          = Pc.done Result.ok) ∧
    ∃ st', stand.Repository.FindById (race ctxA inputA ctxB inputB
        { store := s, first := Pc.start, second := Pc.start } sched).store standId = some st' ∧
      0 ≤ st'.Stock := by
  have hsplit : sched = List.replicate (min 4 sched.length) true ++ sched.drop 4 := by
    rw [← take_all_true sched 4 hsched, List.take_append_drop]
  by_cases hlen : 4 ≤ sched.length
  · have hmin : min 4 sched.length = 4 := by omega
    rw [hmin] at hsplit
    have hord : Ordered standId (race ctxA inputA ctxB inputB
        { store := s, first := Pc.start, second := Pc.start } (List.replicate 4 true)) := by
      rw [race_first]
      rcases alone_four ctxA inputA s standId st hA hqA hst htyp with ⟨r, hne, e⟩ | ⟨userId, u, e⟩
      · rw [e]
        exact Or.inr ⟨⟨r, rfl, hne⟩, ⟨1, by omega, st, hst, htyp, hstock⟩, trivial⟩
      · rw [e]
        refine Or.inl ⟨⟨addStock standId (-1) st, ?_, ?_, ?_⟩, trivial, trivial⟩
        · show stand.Repository.FindById (stand.Repository.UpdateStock s standId (-1)) standId
            = some (addStock standId (-1) st)
          rw [FindById_UpdateStock, hst]; rfl
        · unfold addStock; split <;> exact htyp
        · have hid : st.Id = standId := find_stand_id hst
          simp [addStock, hid, hstock]
    have hall := ordered_race ctxA inputA ctxB inputB standId hB hqB (sched.drop 4) _ hord
    rw [← race_append, ← hsplit] at hall
    rcases hall with ⟨⟨cur, hcur, -, hzero⟩, -, hlate⟩ | ⟨⟨r, hr, hne⟩, ⟨n, hn, cur, hcur, -, hcn⟩, -⟩
    · refine ⟨?_, cur, hcur, by omega⟩
      rintro ⟨-, h2⟩
      rw [h2] at hlate
      exact hlate rfl
    · refine ⟨?_, cur, hcur, by omega⟩
      rintro ⟨h1, -⟩
      rw [hr] at h1
      cases h1
      exact hne rfl
  · have hmin : min 4 sched.length = sched.length := by omega
    have hdrop : sched.drop 4 = [] := List.drop_eq_nil_of_le (by omega)
    rw [hmin, hdrop, List.append_nil] at hsplit
    rw [hsplit, race_first]
    obtain ⟨m, hm, cur, hcur, -, hcm⟩ := solo_alone ctxA inputA standId hA hqA sched.length
      (s, Pc.start) ⟨1, by omega, st, hst, htyp, hstock⟩ trivial
    refine ⟨?_, cur, hcur, by omega⟩
    rintro ⟨-, h2⟩
    cases h2

/-- Witness of C27 amended: the first child takes the last unit, then the
calls of the two children alternate; the second child is refused. -/
theorem C27_update_before_read_witness :
    race (asUser 1 UserRoleChild) (buy 1) (asUser 5 UserRoleChild) (buy 1)
        { store := lastUnit 1 25 25 0 [], first := Pc.start, second := Pc.start } staggered
      = { store := lastUnit 0 15 25 10 [recorded InteractionTypeConsumption 10 (Val.int 1)],
          first := Pc.done Result.ok,
          second := Pc.done
            (Result.error { Key := ErrorKey.BadRequest, Err := "not enough stock" }) } ∧
    ¬ ((race (asUser 1 UserRoleChild) (buy 1) (asUser 5 UserRoleChild) (buy 1)
          { store := lastUnit 1 25 25 0 [], first := Pc.start, second := Pc.start }
          staggered).first = Pc.done Result.ok ∧
       (race (asUser 1 UserRoleChild) (buy 1) (asUser 5 UserRoleChild) (buy 1)
          { store := lastUnit 1 25 25 0 [], first := Pc.start, second := Pc.start }
          staggered).second = Pc.done Result.ok) :=
  ⟨by decide,
   (C27_update_before_read (lastUnit 1 25 25 0 []) (asUser 1 UserRoleChild)
     (asUser 5 UserRoleChild) (buy 1) (buy 1) 1 (cakes InteractionTypeConsumption 1) staggered
     rfl rfl rfl rfl (by decide) (by decide) (by decide) (by decide)).1⟩

/-! ## Overlapping requests -/

theorem run_fail (key : ErrorKey) (msg : String) (s : Store) :
    (Proc.fail key msg).run s = fail s key msg := rfl

/-- Tombola Finish taken call by call, with no other request between its
calls, is `Service.Finish`. -/
theorem run_FinishCalls (s : Store) (ctx : Ctx) (id : Int) (r : Nat) :
    (tombola.Service.FinishCalls ctx id r).run s = tombola.Service.Finish s ctx id r := by
  unfold tombola.Service.FinishCalls tombola.Service.Finish
  simp only [Proc.query, Proc.run]
  cases tombola.Repository.FindById s id with
  | none => rfl
  | some t =>
    simp only [Proc.run]
    cases kermesse.Repository.FindById s t.KermesseId with
    | none => rfl
    | some k =>
      simp only
      by_cases h1 : k.Status = KermesseStatusEnded
      · simp only [if_pos h1]; rfl
      · simp only [if_neg h1]
        cases ctx.UserID with
        | none => rfl
        | some userId =>
          simp only
          by_cases h2 : k.UserId ≠ userId
          · simp only [if_pos h2]; rfl
          · simp only [if_neg h2]
            by_cases h3 : t.Status ≠ TombolaStatusStarted
            · simp only [if_pos h3]; rfl
            · simp only [if_neg h3]; rfl

/-- Tombola Create taken call by call, with no other request between its
calls, is `Service.Create`. -/
theorem run_CreateCalls (s : Store) (ctx : Ctx) (input : Input) :
    (tombola.Service.CreateCalls ctx input).run s = tombola.Service.Create s ctx input := by
  unfold tombola.Service.CreateCalls tombola.Service.Create
  cases utils.GetIntFromMap input "kermesse_id" with
  | error e => rfl
  | ok kermesseId =>
    simp only [Proc.query, Proc.run]
    cases kermesse.Repository.FindById s kermesseId with
    | none => rfl
    | some k =>
      simp only
      by_cases h1 : k.Status = KermesseStatusEnded
      · simp only [if_pos h1]; rfl
      · simp only [if_neg h1]
        cases ctx.UserID with
        | none => rfl
        | some userId =>
          simp only
          by_cases h2 : k.UserId ≠ userId
          · simp only [if_pos h2]; rfl
          · simp only [if_neg h2, Proc.run]
            cases tombola.Repository.Create s input with
            | none => rfl
            | some s1 => rfl

/-- Kermesse End taken call by call, with no other request between its calls,
is `Service.End`. -/
theorem run_EndCalls (s : Store) (ctx : Ctx) (id : Int) :
    (kermesse.Service.EndCalls ctx id).run s = kermesse.Service.End s ctx id := by
  unfold kermesse.Service.EndCalls kermesse.Service.End
  simp only [Proc.query, Proc.run]
  cases kermesse.Repository.FindById s id with
  | none => rfl
  | some k =>
    simp only
    by_cases h1 : k.Status = KermesseStatusEnded
    · simp only [if_pos h1]; rfl
    · simp only [if_neg h1, Proc.run]
      by_cases h2 : ¬ kermesse.Repository.CanEnd s id = true
      · simp only [if_pos h2]; rfl
      · simp only [if_neg h2]
        cases ctx.UserID with
        | none => rfl
        | some userId =>
          simp only
          by_cases h3 : k.UserId ≠ userId
          · simp only [if_pos h3]; rfl
          · simp only [if_neg h3]; rfl

/-- Kermesse AddStand taken call by call, with no other request between its
calls, is `Service.AddStand`. -/
theorem run_AddStandCalls (s : Store) (ctx : Ctx) (input : Input) :
    (kermesse.Service.AddStandCalls ctx input).run s = kermesse.Service.AddStand s ctx input := by
  unfold kermesse.Service.AddStandCalls kermesse.Service.AddStand
  cases utils.Index input "kermesse_id" with
  | str x => rfl
  | null => rfl
  | int kermesseId =>
    simp only [Proc.query, Proc.run]
    cases kermesse.Repository.FindById s kermesseId with
    | none => rfl
    | some k =>
      simp only
      by_cases h1 : k.Status = KermesseStatusEnded
      · simp only [if_pos h1]; rfl
      · simp only [if_neg h1]
        cases utils.GetIntFromMap input "stand_id" with
        | error e => rfl
        | ok standId =>
          simp only [Proc.run]
          by_cases h2 : ¬ kermesse.Repository.CanAddStand s standId = true
          · simp only [if_pos h2]; rfl
          · simp only [if_neg h2]
            cases ctx.UserID with
            | none => rfl
            | some userId =>
              simp only
              by_cases h3 : k.UserId ≠ userId
              · simp only [if_pos h3]; rfl
              · simp only [if_neg h3, Proc.run]
                cases kermesse.Repository.AddStand s input with
                | none => rfl
                | some s1 => rfl

/-- C13, counterexample.  The child of the season holds two tickets of the
tombola, and two Finish requests of the organizer overlap: each queries the
tombola, still STARTED, before the other runs the transaction of the draw.
Both succeed; the draw of the first flags ticket 1, the draw of the second
flags ticket 2, and the tombola ends with two winning tickets.  (One after the
other, the second request is refused and ticket 1 alone wins.) -/
theorem C13_overlapping_draws :
    Reachable twoSold ∧
    duel queriesFirst (tombola.Service.FinishCalls (asUser 3 UserRoleOrganizer) 1 0)
        (tombola.Service.FinishCalls (asUser 3 UserRoleOrganizer) 1 1) twoSold
      = (twoDrawn true true, some Result.ok, some Result.ok) ∧
    winners (twoDrawn true true) 1 = [stub true, stub2 true] ∧
    ¬ (winners (twoDrawn true true) 1).length ≤ 1 ∧
    duel oneAfterOther (tombola.Service.FinishCalls (asUser 3 UserRoleOrganizer) 1 0)
        (tombola.Service.FinishCalls (asUser 3 UserRoleOrganizer) 1 1) twoSold
      = (twoDrawn true false, some Result.ok,
         some (Result.error { Key := ErrorKey.BadRequest, Err := "tombola is not started" })) := by
  refine ⟨reachable_run _ _ Reachable.empty, ?_, ?_, ?_, ?_⟩ <;> decide

/-- C16, counterexample.  The organizer holds two started kermesses, and two
AddStand requests for stand 1, one to each kermesse, overlap: each makes the
query `CanAddStand` before the other inserts.  Both succeed, and stand 1 is
associated with two started kermesses.  (One after the other, the second
request is answered BadRequest.) -/
theorem C16_overlapping_associations :
    Reachable twoOpen ∧
    duel queriesFirst (kermesse.Service.AddStandCalls (asUser 3 UserRoleOrganizer) (linkTo 1))
        (kermesse.Service.AddStandCalls (asUser 3 UserRoleOrganizer) (linkTo 2)) twoOpen
      = (twoOpenWith [(1, 1), (2, 1)], some Result.ok, some Result.ok) ∧
    activeLinks (twoOpenWith [(1, 1), (2, 1)]) 1 = [(1, 1), (2, 1)] ∧
    ¬ (activeLinks (twoOpenWith [(1, 1), (2, 1)]) 1).length ≤ 1 ∧
    duel oneAfterOther (kermesse.Service.AddStandCalls (asUser 3 UserRoleOrganizer) (linkTo 1))
        (kermesse.Service.AddStandCalls (asUser 3 UserRoleOrganizer) (linkTo 2)) twoOpen
      = (twoOpenWith [(1, 1)], some Result.ok,
         some (Result.error { Key := ErrorKey.BadRequest,
                              Err := "stand is already associated with kermesse" })) := by
  refine ⟨reachable_run _ _ Reachable.empty, ?_, ?_, ?_, ?_⟩ <;> decide

/-- C28, counterexample.  In the season, before any tombola is open, the
request of the organizer that opens a tombola overlaps the request that ends
the kermesse: the first queries the kermesse, still STARTED; the second then
finds no started tombola and ends the kermesse; the insert of the tombola
comes last.  Both succeed, and the ended kermesse has a started tombola. -/
theorem C28_end_overlaps_create :
    Reachable invitedOnly ∧
    duel endBetween (tombola.Service.CreateCalls (asUser 3 UserRoleOrganizer) raffleInput)
        (kermesse.Service.EndCalls (asUser 3 UserRoleOrganizer) 1) invitedOnly
      = (endedOpen, some Result.ok, some Result.ok) ∧
    kermesse.Repository.FindById endedOpen 1 = some (fest KermesseStatusEnded) ∧
    raffle TombolaStatusStarted ∈ endedOpen.tombolas ∧
    (raffle TombolaStatusStarted).KermesseId = 1 := by
  refine ⟨reachable_run _ _ Reachable.empty, ?_, ?_, ?_, ?_⟩ <;> decide

/-- C9, counterexample.  The overlap of tombola Create and kermesse End leaves
the season with its kermesse ended and the tombola started.  In that store a
ticket Create of the child for the tombola passes the test of the tombola
status and is answered Forbidden, not BadRequest. -/
theorem C9_ended_kermesse_forbidden :
    Reachable invitedOnly ∧
    (duel endBetween (tombola.Service.CreateCalls (asUser 3 UserRoleOrganizer) raffleInput)
        (kermesse.Service.EndCalls (asUser 3 UserRoleOrganizer) 1) invitedOnly).1 = endedOpen ∧
    tombola.Repository.FindById endedOpen 1 = some (raffle TombolaStatusStarted) ∧
    kermesse.Repository.FindById endedOpen (raffle TombolaStatusStarted).KermesseId
      = some (fest KermesseStatusEnded) ∧
    ticket.Service.Create endedOpen (asUser 2 UserRoleChild) [("tombola_id", Val.int 1)]
      = (Result.error { Key := ErrorKey.Forbidden, Err := "forbidden" }, endedOpen) := by
  refine ⟨reachable_run _ _ Reachable.empty, ?_, ?_, ?_, ?_⟩ <;> decide

theorem CanCreate_ended {s : Store} {kermesseId userId : Int} {k : Kermesse}
    (hn : (s.kermesses.map (fun k => k.Id)).Nodup)
    (hk : kermesse.Repository.FindById s kermesseId = some k)
    (he : k.Status = KermesseStatusEnded) :
    ticket.Repository.CanCreate s kermesseId userId = false := by
  cases hc : ticket.Repository.CanCreate s kermesseId userId with
  | false => rfl
  | true =>
    exfalso
    unfold ticket.Repository.CanCreate at hc
    rw [List.any_eq_true] at hc
    obtain ⟨ku, -, h⟩ := hc
    simp only [Bool.and_eq_true, decide_eq_true_eq, List.any_eq_true] at h
    obtain ⟨⟨h1, -⟩, k', hk', h2, h3⟩ := h
    unfold kermesse.Repository.FindById at hk
    have hkk : k' = k :=
      eq_of_find_nodup (fun k : Kermesse => k.Id) hn hk hk' (h2.trans h1)
    rw [hkk, he] at h3
    exact absurd h3 (by decide)

/-- C9, amended.  In every store reached from the empty store by service
operations that run one after the other, ticket Create for a tombola whose
kermesse has status ENDED fails with BadRequest and leaves the whole store
unchanged.  In any store in which the ids of kermesses are a key, however it
was reached, ticket Create for such a tombola does not succeed and leaves the
whole store unchanged, so every credit and the set of tickets. -/
theorem C9_ticket_ended_kermesse (s : Store) (ctx : Ctx) (input : Input) (tombolaId : Int)
    (t : Tombola) (k : Kermesse)
    (hid : utils.GetIntFromMap input "tombola_id" = Except.ok tombolaId)
    (ht : tombola.Repository.FindById s tombolaId = some t)
    (hk : kermesse.Repository.FindById s t.KermesseId = some k)
    (he : k.Status = KermesseStatusEnded) :
    (Reachable s →
      ticket.Service.Create s ctx input
        = (Result.error { Key := ErrorKey.BadRequest,
                          Err := "tombola is not started or already finished" }, s)) ∧
    ((s.kermesses.map (fun k => k.Id)).Nodup →
      (ticket.Service.Create s ctx input).1 ≠ Result.ok ∧
      (ticket.Service.Create s ctx input).2 = s) := by
  constructor
  · intro hr
    have hmem : t ∈ s.tombolas := List.mem_of_find?_eq_some ht
    have hns : t.Status ≠ TombolaStatusStarted := reachable_closed s hr t hmem k hk he
    simp only [ticket.Service.Create, hid, ht, hns, ne_eq, not_false_eq_true, if_true, fail]
  · intro hn
    unfold ticket.Service.Create
    simp only [hid, ht]
    by_cases h1 : t.Status ≠ TombolaStatusStarted
    · rw [if_pos h1]
      exact ⟨by simp [fail], rfl⟩
    · rw [if_neg h1]
      cases ctx.UserID with
      | none => exact ⟨by simp [fail], rfl⟩
      | some userId =>
        simp only
        cases user.Repository.FindById s userId with
        | none => exact ⟨by simp [fail], rfl⟩
        | some u =>
          simp only
          by_cases h2 : u.Credit < t.Price
          · rw [if_pos h2]
            exact ⟨by simp [fail], rfl⟩
          · rw [if_neg h2, CanCreate_ended hn hk he]
            exact ⟨by simp [fail], rfl⟩

/-- Witness of C9 amended: a ticket for the tombola of the ended kermesse of
the fest. -/
theorem C9_ticket_ended_kermesse_witness :
    ticket.Service.Create closedFest (asUser 1 UserRoleChild) [("tombola_id", Val.int 1)]
      = (Result.error { Key := ErrorKey.BadRequest,
                        Err := "tombola is not started or already finished" }, closedFest) ∧
    (ticket.Service.Create closedFest (asUser 1 UserRoleChild)
        [("tombola_id", Val.int 1)]).1 ≠ Result.ok ∧
    (ticket.Service.Create closedFest (asUser 1 UserRoleChild)
        [("tombola_id", Val.int 1)]).2 = closedFest :=
  (fun h => ⟨h.1 (reachable_run _ _ (reachable_run _ _ Reachable.empty)), h.2 (by decide)⟩)
    (C9_ticket_ended_kermesse closedFest (asUser 1 UserRoleChild) [("tombola_id", Val.int 1)] 1
      (raffle TombolaStatusEnded) (fest KermesseStatusEnded) rfl (by decide) (by decide)
      (by decide))

end standmaster
